import Mathlib

/-!
# JavaObject: the V8 / Java reference bridge of Titanium Mobile

A shallow embedding of `android/runtime/v8/src/native/JavaObject.cpp`.

A `JavaObject` pairs a JavaScript proxy with a Java object.  It keeps the Java
object alive with a JNI global reference (direct mode, `useGlobalRefs`) or with
a slot of the process-wide `ReferenceTable` (table mode), downgrades that
reference to a weak one when V8 reports the proxy unreachable, and upgrades it
again on demand.

The C++ methods mutate the receiver and process-wide state; here every method
is a function of an explicit `World` (JNI references, reference table,
diagnostics counters, log, call trace) and of the receiver's fields.  A failed
`ASSERT` is fatal: the method returns `Except.error` carrying the assertion and
the state reached when it fired.
-/

namespace titanium

/-! ## The managed runtime: JNI references -/

/-- A JNI reference value (the C type `jobject`); the value 0 is `NULL`. -/
abbrev jobject := Nat

/-- The null reference. -/
abbrev NULL : jobject := 0

/-- The three kinds of JNI reference. -/
inductive RefKind where
  | localRef
  | globalRef
  | weakGlobalRef
  deriving DecidableEq, Repr

/-- One live JNI reference: its value, its kind and the identity of the Java
object it designates. -/
structure JRef where
  handle : jobject
  kind : RefKind
  obj : Nat
  deriving DecidableEq, Repr

/-- The reference bookkeeping of the Java VM: the live references (most recent
first), how many references were handed out so far, and the objects the
collector has already reclaimed. -/
structure JNIEnv where
  refs : List JRef
  allocated : Nat
  collected : List Nat
  deriving DecidableEq, Repr

/-! ## The reference table (table mode) -/

/-- One slot of the reference table: its integer key, the object stored (if
any) and the per-slot weak flag. -/
structure Slot where
  key : Int
  obj : Option Nat
  weak : Bool
  deriving DecidableEq, Repr

/-- The process-wide table of slots (most recent first) and the key the next
allocation hands out. -/
structure ReferenceTable where
  slots : List Slot
  nextKey : Int
  deriving DecidableEq, Repr

/-! ## Diagnostics, log and call trace -/

/-- The `stats` struct of the debug build. -/
structure Stats where
  total : Int
  detached : Int
  deriving DecidableEq, Repr

/-- A line written to the Android log by this file. -/
inductive LogLine where
  /-- `LOGD(TAG, ">>> JavaObject: total=%i detached=%i <<<", ...)` -/
  | statsLine (total detached : Int)
  /-- `LOGE(TAG, "Java object reference has been invalidated.")` -/
  | invalidated
  deriving DecidableEq, Repr

/-- A call made by the bridge into the managed runtime, the reference table or
the script engine, with its arguments and its result. -/
inductive EnvCall where
  | NewGlobalRef (obj result : jobject)
  | NewWeakGlobalRef (obj result : jobject)
  | DeleteGlobalRef (ref : jobject)
  | DeleteWeakGlobalRef (ref : jobject)
  | createReference (obj : jobject) (key : Int)
  | makeWeakReference (key : Int)
  | clearWeakReference (key : Int) (result : jobject)
  | getReference (key : Int) (result : jobject)
  | destroyReference (key : Int)
  | SetWeak (parameter : Nat)
  | MarkIndependent
  deriving DecidableEq, Repr

/-- Whether a call is a JNI reference operation or a reference-table
operation (as opposed to a call into the script engine). -/
def EnvCall.isHandleOrTableOp : EnvCall → Bool
  | .SetWeak _ => false
  | .MarkIndependent => false
  | _ => true

/-- Everything outside one bridge that the methods read or write.
`useGlobalRefs` is the static member `JavaObject::useGlobalRefs`; `TI_DEBUG`
says whether the build defines `TI_DEBUG`; `envAttached` says whether
`JNIUtil::getJNIEnv()` yields a non-null environment on this thread. -/
structure World where
  useGlobalRefs : Bool
  TI_DEBUG : Bool
  envAttached : Bool
  jni : JNIEnv
  table : ReferenceTable
  stats : Stats
  log : List LogLine
  calls : List EnvCall
  deriving DecidableEq, Repr

/-- Append a call to the trace. -/
def World.record (w : World) (c : EnvCall) : World :=
  { w with calls := w.calls ++ [c] }

/-- The live reference with value `h`, if any. -/
def JNIEnv.findRef (e : JNIEnv) (h : jobject) : Option JRef :=
  e.refs.find? (fun r => r.handle == h)

/-- The object a reference designates: nothing for `NULL`, for a value that is
not a live reference, and for a reference whose object was collected. -/
def JNIEnv.deref (e : JNIEnv) (h : jobject) : Option Nat :=
  if h == NULL then none
  else match e.findRef h with
    | some r => if r.obj ∈ e.collected then none else some r.obj
    | none => none

/-- Hand out a fresh reference of the given kind to object `o`. -/
def JNIEnv.newRef (e : JNIEnv) (k : RefKind) (o : Nat) : jobject × JNIEnv :=
  (e.allocated + 1,
   { e with refs := ⟨e.allocated + 1, k, o⟩ :: e.refs, allocated := e.allocated + 1 })

/-- Drop every live reference with value `h` and kind `k`. -/
def JNIEnv.dropRef (e : JNIEnv) (k : RefKind) (h : jobject) : JNIEnv :=
  { e with refs := e.refs.filter (fun r => !(r.handle == h && r.kind == k)) }

/-- Return a reference to an optional object: a fresh reference of kind `k`,
or `NULL` when there is no object. -/
def JNIEnv.returnObject (e : JNIEnv) (k : RefKind) (o : Option Nat) : jobject × JNIEnv :=
  match o with
  | some x => e.newRef k x
  | none => (NULL, e)

/-- Modelled from the spec: the managed runtime's "create-strong-handle",
`JNIEnv::NewGlobalRef`, which is not part of this repository.  It yields a new
global reference to the object `obj` designates, and `NULL` when `obj`
designates no live object. -/
def NewGlobalRef (w : World) (obj : jobject) : jobject × World :=
  ((w.jni.returnObject .globalRef (w.jni.deref obj)).1,
   ({ w with jni := (w.jni.returnObject .globalRef (w.jni.deref obj)).2 }).record
     (.NewGlobalRef obj (w.jni.returnObject .globalRef (w.jni.deref obj)).1))

/-- Modelled from the spec: the managed runtime's "create-weak-handle",
`JNIEnv::NewWeakGlobalRef`.  It yields a new weak global reference to the
object `obj` designates, and `NULL` when `obj` designates no live object. -/
def NewWeakGlobalRef (w : World) (obj : jobject) : jobject × World :=
  ((w.jni.returnObject .weakGlobalRef (w.jni.deref obj)).1,
   ({ w with jni := (w.jni.returnObject .weakGlobalRef (w.jni.deref obj)).2 }).record
     (.NewWeakGlobalRef obj (w.jni.returnObject .weakGlobalRef (w.jni.deref obj)).1))

/-- Modelled from the spec: the managed runtime's "delete-handle",
`JNIEnv::DeleteGlobalRef`.  It deletes the global reference `ref`; a value
that is not a live global reference is left alone. -/
def DeleteGlobalRef (w : World) (ref : jobject) : World :=
  ({ w with jni := w.jni.dropRef .globalRef ref }).record (.DeleteGlobalRef ref)

/-- Modelled from the spec: the managed runtime's "delete-weak-handle",
`JNIEnv::DeleteWeakGlobalRef`.  It deletes the weak global reference `ref`; a
value that is not a live weak global reference is left alone. -/
def DeleteWeakGlobalRef (w : World) (ref : jobject) : World :=
  ({ w with jni := w.jni.dropRef .weakGlobalRef ref }).record (.DeleteWeakGlobalRef ref)

/-- Whether some strong reference (a local or global JNI reference, or a
strong table slot) designates object `o`. -/
def World.stronglyReferenced (w : World) (o : Nat) : Bool :=
  w.jni.refs.any (fun r => r.obj == o && r.kind != .weakGlobalRef)
    || w.table.slots.any (fun s => s.obj == some o && !s.weak)

/-- The managed runtime's collector reclaims object `o`, which it may do only
when no strong reference designates it. -/
def World.collect (w : World) (o : Nat) : World :=
  if w.stronglyReferenced o then w
  else { w with jni := { w.jni with collected := o :: w.jni.collected } }

/-- The collector reclaims a series of objects. -/
def World.collectAll (w : World) (os : List Nat) : World :=
  os.foldl World.collect w

namespace ReferenceTable

/-- The slot stored under `key`, if any. -/
def findSlot (t : ReferenceTable) (key : Int) : Option Slot :=
  t.slots.find? (fun s => s.key == key)

/-- The object of a slot that is still present in the managed heap. -/
def liveObj (e : JNIEnv) (s : Slot) : Option Nat :=
  match s.obj with
  | some o => if o ∈ e.collected then none else some o
  | none => none

/-- The object a key designates: nothing for a key without slot, for an empty
slot, and for a slot whose object was collected. -/
def lookup (t : ReferenceTable) (e : JNIEnv) (key : Int) : Option Nat :=
  match t.findSlot key with
  | some s => liveObj e s
  | none => none

/-- Modelled from the spec: `ReferenceTable::createReference` ("table.createSlot
(object) -> key"), defined in ReferenceTable.cpp, which is not among the
sources.  Creating a reference allocates a slot for the object and returns its
key. -/
def createReference (w : World) (object : jobject) : Int × World :=
  (w.table.nextKey,
   ({ w with table :=
        { slots := ⟨w.table.nextKey, w.jni.deref object, false⟩ :: w.table.slots
          nextKey := w.table.nextKey + 1 } }).record
      (.createReference object w.table.nextKey))

/-- Modelled from the spec: `ReferenceTable::makeWeakReference`
("table.weakenSlot(key)").  Weakening flips the per-slot flag without
reallocating. -/
def makeWeakReference (w : World) (key : Int) : World :=
  ({ w with table := { w.table with
       slots := w.table.slots.map
         (fun (s : Slot) => if s.key == key then { s with weak := true } else s) } }).record
    (.makeWeakReference key)

/-- Modelled from the spec: `ReferenceTable::clearWeakReference`
("table.clearWeak(key) -> object-or-invalid").  Clearing a weak slot clears the
slot's weak marker and returns the object if it is still present, `NULL` if
the runtime already collected it. -/
def clearWeakReference (w : World) (key : Int) : jobject × World :=
  ((w.jni.returnObject .localRef (w.table.lookup w.jni key)).1,
   ({ w with
      jni := (w.jni.returnObject .localRef (w.table.lookup w.jni key)).2
      table := { w.table with
        slots := w.table.slots.map
          (fun (t : Slot) =>
            if t.key == key then { t with obj := liveObj w.jni t, weak := false } else t) } }).record
     (.clearWeakReference key (w.jni.returnObject .localRef (w.table.lookup w.jni key)).1))

/-- Modelled from the spec: `ReferenceTable::getReference`
("table.readSlot(key) -> object"). -/
def getReference (w : World) (key : Int) : jobject × World :=
  ((w.jni.returnObject .localRef (w.table.lookup w.jni key)).1,
   ({ w with jni := (w.jni.returnObject .localRef (w.table.lookup w.jni key)).2 }).record
     (.getReference key (w.jni.returnObject .localRef (w.table.lookup w.jni key)).1))

/-- Modelled from the spec: `ReferenceTable::destroyReference`
("table.destroySlot(key)"). -/
def destroyReference (w : World) (key : Int) : World :=
  ({ w with table := { w.table with
       slots := w.table.slots.filter (fun s => !(s.key == key)) } }).record
    (.destroyReference key)

end ReferenceTable

/-! ## The bridge -/

/-- Modelled from the spec: the script-side handle `persistent()` of the
bridge (V8 `Persistent<Object>`, held by the base class, not among the
sources).  `weakParameter` is the parameter registered with `DetachCallback` by
`SetWeak`, if a registration is in force. -/
structure Persistent where
  weakParameter : Option Nat
  independent : Bool
  deriving DecidableEq, Repr

/-- The fields of a `JavaObject`.  `addr` stands for the address `this`. -/
structure JavaObject where
  addr : Nat
  persistent_ : Persistent
  javaObject_ : jobject
  refTableKey_ : Int
  isWeakRef_ : Bool
  deriving DecidableEq, Repr

/-- The `ASSERT`s of JavaObject.cpp. -/
inductive Assertion where
  /-- `ASSERT(env != NULL)` -/
  | envNotNull
  /-- `ASSERT(javaObject_ != NULL)` -/
  | javaObjectNotNull
  /-- `ASSERT(refTableKey_ == 0)` -/
  | refTableKeyZero
  /-- `ASSERT((javaObject && javaObject_ == NULL) || javaObject == NULL)` -/
  | attachPrecondition
  deriving DecidableEq, Repr

/-- A fatal assertion failure: which assertion fired, and the state at that
point. -/
structure Abort where
  assertion : Assertion
  world : World
  self : JavaObject
  deriving DecidableEq, Repr

/-- Modelled from the spec: the macro `ASSERT` of AndroidUtil.h, which is not
among the sources.  A violated assertion is fatal. -/
def ASSERT (expr : Bool) (a : Assertion) (w : World) (self : JavaObject) :
    Except Abort Unit :=
  if expr then .ok () else .error ⟨a, w, self⟩

/-- The macro `UPDATE_STATS`: in a `TI_DEBUG` build it adjusts both counters
and logs them, otherwise it expands to nothing. -/
def UPDATE_STATS (w : World) (_total _detached : Int) : World :=
  if w.TI_DEBUG then
    { w with
      stats := ⟨w.stats.total + _total, w.stats.detached + _detached⟩
      log := w.log ++ [.statsLine (w.stats.total + _total) (w.stats.detached + _detached)] }
  else w

/-- `LOGE(TAG, "Java object reference has been invalidated.")`. -/
def LOGE (w : World) (l : LogLine) : World :=
  { w with log := w.log ++ [l] }

namespace JavaObject

/-- `persistent().SetWeak(this, DetachCallback)`. -/
def SetWeak (w : World) (self : JavaObject) : World × JavaObject :=
  (w.record (.SetWeak self.addr),
   { self with persistent_ := { self.persistent_ with weakParameter := some self.addr } })

/-- `persistent().MarkIndependent()`. -/
def MarkIndependent (w : World) (self : JavaObject) : World × JavaObject :=
  (w.record .MarkIndependent,
   { self with persistent_ := { self.persistent_ with independent := true } })

/-- `JavaObject::isDetached`. -/
def isDetached (self : JavaObject) : Bool :=
  (self.javaObject_ == NULL && self.refTableKey_ == 0) || self.isWeakRef_

/-- `JavaObject::newGlobalRef`. -/
def newGlobalRef (w : World) (self : JavaObject) : Except Abort (World × JavaObject) := do
  ASSERT w.envAttached .envNotNull w self
  if w.useGlobalRefs then
    ASSERT (self.javaObject_ != NULL) .javaObjectNotNull w self
    let r := NewGlobalRef w self.javaObject_
    if self.isWeakRef_ then
      pure (DeleteWeakGlobalRef r.2 self.javaObject_,
            { self with isWeakRef_ := false, javaObject_ := r.1 })
    else
      pure (r.2, { self with javaObject_ := r.1 })
  else
    ASSERT (self.refTableKey_ == 0) .refTableKeyZero w self
    let r := ReferenceTable.createReference w self.javaObject_
    pure (r.2, { self with refTableKey_ := r.1, javaObject_ := NULL })

/-- `JavaObject::attach`. -/
def attach (w : World) (self : JavaObject) (javaObject : jobject) :
    Except Abort (World × JavaObject) := do
  ASSERT ((javaObject != NULL && self.javaObject_ == NULL) || javaObject == NULL)
    .attachPrecondition w self
  let w1 := UPDATE_STATS w 0 (-1)
  let s1 := SetWeak w1 self
  let s2 := MarkIndependent s1.1 s1.2
  if javaObject != NULL then
    newGlobalRef s2.1 { s2.2 with javaObject_ := javaObject }
  else
    newGlobalRef s2.1 s2.2

/-- `JavaObject::getJavaObject`. -/
def getJavaObject (w : World) (self : JavaObject) :
    Except Abort (jobject × World × JavaObject) := do
  if w.useGlobalRefs then
    ASSERT (self.javaObject_ != NULL) .javaObjectNotNull w self
    if self.isDetached then
      let r ← attach w self NULL
      pure (r.2.javaObject_, r.1, r.2)
    else
      pure (self.javaObject_, w, self)
  else
    if self.isWeakRef_ then
      let w1 := UPDATE_STATS w 0 (-1)
      let r := ReferenceTable.clearWeakReference w1 self.refTableKey_
      let w2 := if r.1 == NULL then LOGE r.2 .invalidated else r.2
      let s := SetWeak w2 { self with isWeakRef_ := false }
      pure (r.1, s.1, s.2)
    else
      let r := ReferenceTable.getReference w self.refTableKey_
      pure (r.1, r.2, self)

/-- `JavaObject::weakGlobalRef`. -/
def weakGlobalRef (w : World) (self : JavaObject) : Except Abort (World × JavaObject) := do
  ASSERT w.envAttached .envNotNull w self
  if w.useGlobalRefs then
    ASSERT (self.javaObject_ != NULL) .javaObjectNotNull w self
    let r := NewWeakGlobalRef w self.javaObject_
    pure (DeleteGlobalRef r.2 self.javaObject_,
          { self with javaObject_ := r.1, isWeakRef_ := true })
  else
    pure (ReferenceTable.makeWeakReference w self.refTableKey_,
          { self with isWeakRef_ := true })

/-- `JavaObject::deleteGlobalRef`. -/
def deleteGlobalRef (w : World) (self : JavaObject) : Except Abort (World × JavaObject) := do
  ASSERT w.envAttached .envNotNull w self
  if w.useGlobalRefs then
    ASSERT (self.javaObject_ != NULL) .javaObjectNotNull w self
    if self.isWeakRef_ then
      pure (DeleteWeakGlobalRef w self.javaObject_, { self with javaObject_ := NULL })
    else
      pure (DeleteGlobalRef w self.javaObject_, { self with javaObject_ := NULL })
  else
    pure (ReferenceTable.destroyReference w self.refTableKey_,
          { self with refTableKey_ := 0 })

/-- `JavaObject::detach`. -/
def detach (w : World) (self : JavaObject) : Except Abort (World × JavaObject) := do
  let s := SetWeak w self
  if s.2.isDetached then
    pure s
  else
    weakGlobalRef (UPDATE_STATS s.1 0 1) s.2

/-- The static function `DetachCallback`: the script engine hands back the
registered parameter, the bridge, and the callback detaches it. -/
def DetachCallback (w : World) (data : JavaObject) : Except Abort (World × JavaObject) :=
  detach w data

/-- The constructor `JavaObject::JavaObject(jobject javaObject)` for a bridge
allocated at address `addr`, its script-side handle still unregistered. -/
def ctor (w : World) (addr : Nat) (javaObject : jobject) :
    Except Abort (World × JavaObject) :=
  if javaObject != NULL then
    attach (UPDATE_STATS w 1 1) ⟨addr, ⟨none, false⟩, NULL, 0, false⟩ javaObject
  else
    pure (UPDATE_STATS w 1 1, ⟨addr, ⟨none, false⟩, NULL, 0, false⟩)

/-- The destructor `JavaObject::~JavaObject`. -/
def dtor (w : World) (self : JavaObject) : Except Abort (World × JavaObject) :=
  if self.javaObject_ != NULL || self.refTableKey_ > 0 then
    deleteGlobalRef (UPDATE_STATS w (-1) (if self.isDetached then -1 else 0)) self
  else
    pure (UPDATE_STATS w (-1) (if self.isDetached then -1 else 0), self)

end JavaObject

open JavaObject

/-! ## Observations on a bridge -/

/-- The strength of a bridge (the `strength` of the data model). -/
inductive Strength where
  | Strong
  | Weak
  | Released
  deriving DecidableEq, Repr

/-- The strength of a bridge, read off the reference it holds: `Released` when
it holds no reference of either kind (`javaObject_` is `NULL` and
`refTableKey_` is 0); otherwise `Weak` or `Strong` according to the kind of the
JNI reference in `javaObject_` (direct mode) or to the weak flag of the slot
`refTableKey_` (table mode).  There is no answer when the reference held is not
a live global or weak global reference, or not a slot of the table. -/
def strength (w : World) (self : JavaObject) : Option Strength :=
  if self.javaObject_ == NULL && self.refTableKey_ == 0 then some .Released
  else if w.useGlobalRefs then
    if self.javaObject_ == NULL then none
    else match w.jni.findRef self.javaObject_ with
      | some r =>
        match r.kind with
        | .globalRef => some .Strong
        | .weakGlobalRef => some .Weak
        | .localRef => none
      | none => none
  else
    if self.refTableKey_ == 0 then none
    else match w.table.findSlot self.refTableKey_ with
      | some s => some (if s.weak then .Weak else .Strong)
      | none => none

/-- The managed object the bridge's reference designates, if it is still
present in the managed heap. -/
def target (w : World) (self : JavaObject) : Option Nat :=
  if w.useGlobalRefs then w.jni.deref self.javaObject_
  else w.table.lookup w.jni self.refTableKey_

/-- The bridge is in state `Strong` and wraps the managed object `T`. -/
def StrongOn (w : World) (self : JavaObject) (T : Nat) : Prop :=
  self.isWeakRef_ = false ∧ strength w self = some .Strong ∧ target w self = some T

/-- The bridge is in state `Weak` and its weak reference still designates the
managed object `T`. -/
def WeakOn (w : World) (self : JavaObject) (T : Nat) : Prop :=
  self.isWeakRef_ = true ∧ strength w self = some .Weak ∧ target w self = some T

instance (w : World) (self : JavaObject) (T : Nat) : Decidable (StrongOn w self T) :=
  inferInstanceAs (Decidable (_ ∧ _ ∧ _))

instance (w : World) (self : JavaObject) (T : Nat) : Decidable (WeakOn w self T) :=
  inferInstanceAs (Decidable (_ ∧ _ ∧ _))

/-! ## Sequences of operations -/

/-- One step in the life of a bridge: a call of one of its methods, or the
managed runtime collecting an object behind its back. -/
inductive Op where
  | attach (javaObject : jobject)
  | detach
  | getJavaObject
  | deleteGlobalRef
  | isDetached
  | collect (obj : Nat)
  deriving DecidableEq, Repr

/-- The value a step returns to its caller. -/
inductive Ret where
  | void
  | object (r : jobject)
  | bool (b : Bool)
  deriving DecidableEq, Repr

/-- Perform one step. -/
def step (w : World) (self : JavaObject) : Op → Except Abort (Ret × World × JavaObject)
  | .attach javaObject => (attach w self javaObject).map (fun r => (.void, r))
  | .detach => (detach w self).map (fun r => (.void, r))
  | .getJavaObject => (getJavaObject w self).map (fun r => (.object r.1, r.2))
  | .deleteGlobalRef => (deleteGlobalRef w self).map (fun r => (.void, r))
  | .isDetached => .ok (.bool self.isDetached, w, self)
  | .collect obj => .ok (.void, w.collect obj, self)

/-- Perform a sequence of steps, stopping at the first fatal assertion. -/
def run (w : World) (self : JavaObject) : List Op → Except Abort (World × JavaObject)
  | [] => .ok (w, self)
  | op :: ops =>
    match step w self op with
    | .ok r => run r.2.1 r.2.2 ops
    | .error a => .error a

/-! ## Example states -/

/-- A direct-mode process (debug build) in which object 7 is designated by the
local reference 1 and by the global reference 2. -/
def directWorld : World :=
  { useGlobalRefs := true, TI_DEBUG := true, envAttached := true
    jni := ⟨[⟨2, .globalRef, 7⟩, ⟨1, .localRef, 7⟩], 2, []⟩
    table := ⟨[], 1⟩
    stats := ⟨1, 0⟩, log := [], calls := [] }

/-- A bridge at address 100 that holds the global reference 2 of `directWorld`. -/
def directBridge : JavaObject :=
  { addr := 100, persistent_ := ⟨some 100, true⟩, javaObject_ := 2, refTableKey_ := 0
    isWeakRef_ := false }

/-- A table-mode process (debug build) whose table stores object 7 in the
strong slot 1; the local reference 1 also designates object 7. -/
def tableWorld : World :=
  { useGlobalRefs := false, TI_DEBUG := true, envAttached := true
    jni := ⟨[⟨1, .localRef, 7⟩], 1, []⟩
    table := ⟨[⟨1, some 7, false⟩], 2⟩
    stats := ⟨1, 0⟩, log := [], calls := [] }

/-- A bridge at address 100 that holds slot 1 of `tableWorld`. -/
def tableBridge : JavaObject :=
  { addr := 100, persistent_ := ⟨some 100, true⟩, javaObject_ := NULL, refTableKey_ := 1
    isWeakRef_ := false }

/-- A direct-mode process (debug build) before any bridge exists; the local
reference 1 designates object 7. -/
def directStart : World :=
  { useGlobalRefs := true, TI_DEBUG := true, envAttached := true
    jni := ⟨[⟨1, .localRef, 7⟩], 1, []⟩
    table := ⟨[], 1⟩
    stats := ⟨0, 0⟩, log := [], calls := [] }

/-- A table-mode process (debug build) before any bridge exists; the local
reference 1 designates object 7. -/
def tableStart : World :=
  { useGlobalRefs := false, TI_DEBUG := true, envAttached := true
    jni := ⟨[⟨1, .localRef, 7⟩], 1, []⟩
    table := ⟨[], 1⟩
    stats := ⟨0, 0⟩, log := [], calls := [] }

/-- A bridge at address 100 as the constructor leaves it when it is given no
target: no reference of either kind. -/
def freshBridge : JavaObject :=
  { addr := 100, persistent_ := ⟨none, false⟩, javaObject_ := NULL, refTableKey_ := 0
    isWeakRef_ := false }

/-- A direct-mode process in which object 7 is designated by the local
reference 1 and by the weak global reference 3. -/
def directWeakWorld : World :=
  { useGlobalRefs := true, TI_DEBUG := true, envAttached := true
    jni := ⟨[⟨3, .weakGlobalRef, 7⟩, ⟨1, .localRef, 7⟩], 3, []⟩
    table := ⟨[], 1⟩
    stats := ⟨1, 1⟩, log := [], calls := [] }

/-- A detached bridge that holds the weak global reference 3 of
`directWeakWorld`. -/
def directWeakBridge : JavaObject :=
  { addr := 100, persistent_ := ⟨some 100, true⟩, javaObject_ := 3, refTableKey_ := 0
    isWeakRef_ := true }

/-- A table-mode process whose table stores object 7 in the weak slot 1. -/
def tableWeakWorld : World :=
  { useGlobalRefs := false, TI_DEBUG := true, envAttached := true
    jni := ⟨[⟨1, .localRef, 7⟩], 1, []⟩
    table := ⟨[⟨1, some 7, true⟩], 2⟩
    stats := ⟨1, 1⟩, log := [], calls := [] }

/-- A table-mode process whose table stores object 7 in the weak slot 1 after
the managed runtime has collected object 7. -/
def tableStaleWorld : World :=
  { useGlobalRefs := false, TI_DEBUG := true, envAttached := true
    jni := ⟨[], 1, [7]⟩
    table := ⟨[⟨1, some 7, true⟩], 2⟩
    stats := ⟨1, 1⟩, log := [], calls := [] }

/-- A detached bridge that holds slot 1 of `tableWeakWorld` or of
`tableStaleWorld`. -/
def tableWeakBridge : JavaObject :=
  { addr := 100, persistent_ := ⟨some 100, true⟩, javaObject_ := NULL, refTableKey_ := 1
    isWeakRef_ := true }

/-! ## Reachable states and the properties stated of them -/

/-- Construct a bridge at address `addr` on `javaObject` and then perform the
steps `ops`. -/
def runFrom (w : World) (addr : Nat) (javaObject : jobject) (ops : List Op) :
    Except Abort (World × JavaObject) :=
  match ctor w addr javaObject with
  | .ok r => run r.1 r.2 ops
  | .error a => .error a

/-- What `isDetached` is specified to compute: the bridge has a strength, and
`isDetached` is true exactly when that strength is `Weak` or `Released`. -/
def IsDetachedCorrect (w : World) (self : JavaObject) : Prop :=
  ∃ st, strength w self = some st ∧ (self.isDetached = true ↔ (st = .Weak ∨ st = .Released))

/-- The flag `isWeakRef_` agrees with the reference held.  In direct mode the
bridge has no table key and a non-null `javaObject_` is a live global reference
when `isWeakRef_` is false and a live weak global reference when it is true.
In table mode `javaObject_` is `NULL`, a non-zero key designates a slot whose
weak flag equals `isWeakRef_`, and `isWeakRef_` is false while the key is 0. -/
def Consistent (w : World) (self : JavaObject) : Prop :=
  if w.useGlobalRefs then
    self.refTableKey_ = 0 ∧
    (self.javaObject_ ≠ NULL →
      ∃ r, w.jni.findRef self.javaObject_ = some r ∧
        ((r.kind = .globalRef ∧ self.isWeakRef_ = false) ∨
         (r.kind = .weakGlobalRef ∧ self.isWeakRef_ = true)))
  else
    self.javaObject_ = NULL ∧
    (self.refTableKey_ ≠ 0 →
      ∃ sl, w.table.findSlot self.refTableKey_ = some sl ∧ sl.weak = self.isWeakRef_) ∧
    (self.refTableKey_ = 0 → self.isWeakRef_ = false)

/-- Mode exclusivity: in direct mode the table key is 0, in table mode the
direct reference is `NULL`. -/
def Exclusive (w : World) (self : JavaObject) : Prop :=
  if w.useGlobalRefs then self.refTableKey_ = 0 else self.javaObject_ = NULL

/-- What every completed step preserves: the mode is the same afterwards, the
key supply of the table has not gone backwards, in direct mode the table key
of the bridge is untouched, and in table mode `javaObject_` is `NULL` or
untouched. -/
def Framed (w : World) (s : JavaObject) (w1 : World) (s1 : JavaObject) : Prop :=
  w1.useGlobalRefs = w.useGlobalRefs ∧ w.table.nextKey ≤ w1.table.nextKey ∧
  (w.useGlobalRefs = true → s1.refTableKey_ = s.refTableKey_) ∧
  (w.useGlobalRefs = false → s1.javaObject_ = NULL ∨ s1.javaObject_ = s.javaObject_)

/-- The step is a call of `attach`. -/
def Op.isAttach : Op → Bool
  | .attach _ => true
  | _ => false

/-- Whether, in a sequence of steps, an `attach` comes after a
`deleteGlobalRef`.  `deleteGlobalRef` has one caller, the destructor, so that
the code itself makes no call on a bridge after it. -/
def attachAfterRelease : List Op → Bool
  | [] => false
  | op :: ops => if op = .deleteGlobalRef then ops.any Op.isAttach else attachAfterRelease ops

/-! ## The script engine and the weak notification -/

/-- Modelled from the spec: the script engine delivering the weak-reachability
notification, for an engine that clears the callback once fired.  The engine
clears the registration on the script-side handle and invokes `DetachCallback`
with the parameter that was registered, which designates this bridge when it
is the bridge's own address.  Nothing happens when no callback is registered. -/
def fireWeakCallback (w : World) (self : JavaObject) : Except Abort (World × JavaObject) :=
  match self.persistent_.weakParameter with
  | some p =>
    if p == self.addr then
      DetachCallback w
        { self with persistent_ := { self.persistent_ with weakParameter := none } }
    else
      .ok (w, { self with persistent_ := { self.persistent_ with weakParameter := none } })
  | none => .ok (w, self)

/-- What can happen to a bridge: one of the steps of `Op`, or the script engine
delivering the weak notification. -/
inductive Event where
  | call (op : Op)
  | fire
  deriving DecidableEq, Repr

/-- Let one event happen. -/
def stepEvent (w : World) (self : JavaObject) : Event → Except Abort (World × JavaObject)
  | .call op => (step w self op).map (fun r => r.2)
  | .fire => fireWeakCallback w self

/-- Let a sequence of events happen, stopping at the first fatal assertion. -/
def runEvents (w : World) (self : JavaObject) : List Event → Except Abort (World × JavaObject)
  | [] => .ok (w, self)
  | e :: es =>
    match stepEvent w self e with
    | .ok r => runEvents r.1 r.2 es
    | .error a => .error a

/-- Construct a bridge at address `addr` on `javaObject` and then let the
events `es` happen. -/
def runEventsFrom (w : World) (addr : Nat) (javaObject : jobject) (es : List Event) :
    Except Abort (World × JavaObject) :=
  match ctor w addr javaObject with
  | .ok r => runEvents r.1 r.2 es
  | .error a => .error a

/-- The weak notification is registered on the script-side handle with the
bridge itself as its parameter. -/
def Registered (self : JavaObject) : Prop :=
  self.persistent_.weakParameter = some self.addr

/-! ## The JNI references a bridge owns -/

/-- The global and weak global references a bridge has created and not yet
deleted, each with its kind, most recent first. -/
abbrev Owned := List (jobject × RefKind)

/-- Account for one call of the bridge.  A successful `NewGlobalRef` or
`NewWeakGlobalRef` adds its result.  A `DeleteGlobalRef` or
`DeleteWeakGlobalRef` must be applied to a reference of the matching kind that
the bridge created and has not deleted since, which it removes; otherwise
there is no answer.  Other calls change nothing. -/
def ownStep (o : Owned) : EnvCall → Option Owned
  | .NewGlobalRef _ r => some (if r == NULL then o else (r, .globalRef) :: o)
  | .NewWeakGlobalRef _ r => some (if r == NULL then o else (r, .weakGlobalRef) :: o)
  | .DeleteGlobalRef h =>
    if (h, RefKind.globalRef) ∈ o then some (o.filter (fun p => p != (h, .globalRef)))
    else none
  | .DeleteWeakGlobalRef h =>
    if (h, RefKind.weakGlobalRef) ∈ o then some (o.filter (fun p => p != (h, .weakGlobalRef)))
    else none
  | _ => some o

/-- Account for a series of calls, in order. -/
def ownRun (o : Owned) : List EnvCall → Option Owned
  | [] => some o
  | c :: cs =>
    match ownStep o c with
    | some o1 => ownRun o1 cs
    | none => none

/-- The kind of JNI reference that `isWeakRef_` announces. -/
def kindHeld (self : JavaObject) : RefKind :=
  if self.isWeakRef_ then .weakGlobalRef else .globalRef

/-- Every owned reference is live, with its kind, among the references `refs`. -/
def OwnedLive (refs : List JRef) (owned : Owned) : Prop :=
  ∀ p ∈ owned, ∃ r ∈ refs, r.handle = p.1 ∧ r.kind = p.2

/-- In direct mode, the bookkeeping `owned` fits the world and the bridge:
every owned reference is live with its kind; a non-null `javaObject_` is owned
with the kind `isWeakRef_` announces, is found live with that kind, and while
it is a global reference its object has not been collected; and `isWeakRef_`
is clear while `javaObject_` is `NULL`. -/
def HandleInv (w : World) (self : JavaObject) (owned : Owned) : Prop :=
  OwnedLive w.jni.refs owned ∧
  (self.javaObject_ ≠ NULL →
    (self.javaObject_, kindHeld self) ∈ owned ∧
    ∃ r, w.jni.findRef self.javaObject_ = some r ∧ r.kind = kindHeld self ∧
      (self.isWeakRef_ = false → r.obj ∉ w.jni.collected)) ∧
  (self.javaObject_ = NULL → self.isWeakRef_ = false)

/-! ## Frame lemmas: what the primitives leave alone -/

@[simp] theorem record_useGlobalRefs (w : World) (c : EnvCall) :
    (w.record c).useGlobalRefs = w.useGlobalRefs := rfl
@[simp] theorem record_TI_DEBUG (w : World) (c : EnvCall) :
    (w.record c).TI_DEBUG = w.TI_DEBUG := rfl
@[simp] theorem record_envAttached (w : World) (c : EnvCall) :
    (w.record c).envAttached = w.envAttached := rfl
@[simp] theorem record_jni (w : World) (c : EnvCall) : (w.record c).jni = w.jni := rfl
@[simp] theorem record_table (w : World) (c : EnvCall) : (w.record c).table = w.table := rfl
@[simp] theorem record_stats (w : World) (c : EnvCall) : (w.record c).stats = w.stats := rfl
@[simp] theorem record_log (w : World) (c : EnvCall) : (w.record c).log = w.log := rfl
@[simp] theorem record_calls (w : World) (c : EnvCall) :
    (w.record c).calls = w.calls ++ [c] := rfl

@[simp] theorem UPDATE_STATS_useGlobalRefs (w : World) (a b : Int) :
    (UPDATE_STATS w a b).useGlobalRefs = w.useGlobalRefs := by
  unfold UPDATE_STATS; split <;> rfl
@[simp] theorem UPDATE_STATS_TI_DEBUG (w : World) (a b : Int) :
    (UPDATE_STATS w a b).TI_DEBUG = w.TI_DEBUG := by
  unfold UPDATE_STATS; split <;> rfl
@[simp] theorem UPDATE_STATS_envAttached (w : World) (a b : Int) :
    (UPDATE_STATS w a b).envAttached = w.envAttached := by
  unfold UPDATE_STATS; split <;> rfl
@[simp] theorem UPDATE_STATS_jni (w : World) (a b : Int) : (UPDATE_STATS w a b).jni = w.jni := by
  unfold UPDATE_STATS; split <;> rfl
@[simp] theorem UPDATE_STATS_table (w : World) (a b : Int) :
    (UPDATE_STATS w a b).table = w.table := by
  unfold UPDATE_STATS; split <;> rfl
@[simp] theorem UPDATE_STATS_calls (w : World) (a b : Int) :
    (UPDATE_STATS w a b).calls = w.calls := by
  unfold UPDATE_STATS; split <;> rfl

/-- In a debug build `UPDATE_STATS` adds its arguments to the counters. -/
theorem UPDATE_STATS_stats_debug (w : World) (a b : Int) (h : w.TI_DEBUG = true) :
    (UPDATE_STATS w a b).stats = ⟨w.stats.total + a, w.stats.detached + b⟩ := by
  unfold UPDATE_STATS; simp [h]

/-- Outside a debug build `UPDATE_STATS` does nothing. -/
theorem UPDATE_STATS_release (w : World) (a b : Int) (h : w.TI_DEBUG = false) :
    UPDATE_STATS w a b = w := by
  unfold UPDATE_STATS; simp [h]

@[simp] theorem LOGE_useGlobalRefs (w : World) (l : LogLine) :
    (LOGE w l).useGlobalRefs = w.useGlobalRefs := rfl
@[simp] theorem LOGE_TI_DEBUG (w : World) (l : LogLine) : (LOGE w l).TI_DEBUG = w.TI_DEBUG := rfl
@[simp] theorem LOGE_envAttached (w : World) (l : LogLine) :
    (LOGE w l).envAttached = w.envAttached := rfl
@[simp] theorem LOGE_jni (w : World) (l : LogLine) : (LOGE w l).jni = w.jni := rfl
@[simp] theorem LOGE_table (w : World) (l : LogLine) : (LOGE w l).table = w.table := rfl
@[simp] theorem LOGE_stats (w : World) (l : LogLine) : (LOGE w l).stats = w.stats := rfl
@[simp] theorem LOGE_calls (w : World) (l : LogLine) : (LOGE w l).calls = w.calls := rfl
@[simp] theorem LOGE_log (w : World) (l : LogLine) : (LOGE w l).log = w.log ++ [l] := rfl

@[simp] theorem collect_useGlobalRefs (w : World) (o : Nat) :
    (w.collect o).useGlobalRefs = w.useGlobalRefs := by
  unfold World.collect; split <;> rfl
@[simp] theorem collect_TI_DEBUG (w : World) (o : Nat) :
    (w.collect o).TI_DEBUG = w.TI_DEBUG := by
  unfold World.collect; split <;> rfl
@[simp] theorem collect_envAttached (w : World) (o : Nat) :
    (w.collect o).envAttached = w.envAttached := by
  unfold World.collect; split <;> rfl
@[simp] theorem collect_table (w : World) (o : Nat) : (w.collect o).table = w.table := by
  unfold World.collect; split <;> rfl
@[simp] theorem collect_stats (w : World) (o : Nat) : (w.collect o).stats = w.stats := by
  unfold World.collect; split <;> rfl
@[simp] theorem collect_refs (w : World) (o : Nat) : (w.collect o).jni.refs = w.jni.refs := by
  unfold World.collect; split <;> rfl
@[simp] theorem collect_allocated (w : World) (o : Nat) :
    (w.collect o).jni.allocated = w.jni.allocated := by
  unfold World.collect; split <;> rfl

/-- The collector only ever reclaims the object it was asked to reclaim. -/
theorem mem_collect (w : World) (o x : Nat) (h : x ∈ (w.collect o).jni.collected) :
    x = o ∨ x ∈ w.jni.collected := by
  unfold World.collect at h
  split at h
  · exact Or.inr h
  · simpa using h

/-- What was collected stays collected. -/
theorem collected_mono (w : World) (o x : Nat) (h : x ∈ w.jni.collected) :
    x ∈ (w.collect o).jni.collected := by
  unfold World.collect
  split
  · exact h
  · simp [h]

@[simp] theorem collectAll_useGlobalRefs (w : World) (os : List Nat) :
    (w.collectAll os).useGlobalRefs = w.useGlobalRefs := by
  induction os generalizing w with
  | nil => rfl
  | cons o os ih => simp [World.collectAll, List.foldl] at ih ⊢; rw [ih]; simp
@[simp] theorem collectAll_TI_DEBUG (w : World) (os : List Nat) :
    (w.collectAll os).TI_DEBUG = w.TI_DEBUG := by
  induction os generalizing w with
  | nil => rfl
  | cons o os ih => simp [World.collectAll, List.foldl] at ih ⊢; rw [ih]; simp
@[simp] theorem collectAll_envAttached (w : World) (os : List Nat) :
    (w.collectAll os).envAttached = w.envAttached := by
  induction os generalizing w with
  | nil => rfl
  | cons o os ih => simp [World.collectAll, List.foldl] at ih ⊢; rw [ih]; simp
@[simp] theorem collectAll_table (w : World) (os : List Nat) :
    (w.collectAll os).table = w.table := by
  induction os generalizing w with
  | nil => rfl
  | cons o os ih => simp [World.collectAll, List.foldl] at ih ⊢; rw [ih]; simp
@[simp] theorem collectAll_refs (w : World) (os : List Nat) :
    (w.collectAll os).jni.refs = w.jni.refs := by
  induction os generalizing w with
  | nil => rfl
  | cons o os ih => simp [World.collectAll, List.foldl] at ih ⊢; rw [ih]; simp
@[simp] theorem collectAll_allocated (w : World) (os : List Nat) :
    (w.collectAll os).jni.allocated = w.jni.allocated := by
  induction os generalizing w with
  | nil => rfl
  | cons o os ih => simp [World.collectAll, List.foldl] at ih ⊢; rw [ih]; simp

/-- An object that the collector was not asked to reclaim is still there. -/
theorem not_mem_collectAll (w : World) (os : List Nat) (x : Nat)
    (hx : x ∉ w.jni.collected) (hos : x ∉ os) : x ∉ (w.collectAll os).jni.collected := by
  induction os generalizing w with
  | nil => simpa [World.collectAll] using hx
  | cons o os ih =>
    simp only [List.mem_cons, not_or] at hos
    have h1 : x ∉ (w.collect o).jni.collected := by
      intro h
      rcases mem_collect w o x h with h | h
      · exact hos.1 h
      · exact hx h
    simpa [World.collectAll, List.foldl] using ih (w.collect o) h1 hos.2

/-- Looking a key up after a key-preserving update of every slot. -/
theorem find_slot_map (l : List Slot) (f : Slot → Slot) (hf : ∀ s, (f s).key = s.key)
    (key : Int) :
    (l.map f).find? (fun s => s.key == key) = (l.find? (fun s => s.key == key)).map f := by
  induction l with
  | nil => rfl
  | cons a l ih =>
    simp only [List.map_cons, List.find?_cons, hf]
    cases h : (a.key == key) <;> simp [ih]

/-! ## Strong and weak states; the round trip (C1) -/

/-- A strong bridge in direct mode, spelled out: the flag is clear, `javaObject_`
is a live global reference to `T`, and `T` has not been collected. -/
theorem strongOn_direct (w : World) (self : JavaObject) (T : Nat)
    (hm : w.useGlobalRefs = true) (hS : StrongOn w self T) :
    self.isWeakRef_ = false ∧ self.javaObject_ ≠ NULL ∧ T ∉ w.jni.collected ∧
      ∃ r, w.jni.findRef self.javaObject_ = some r ∧ r.kind = .globalRef ∧ r.obj = T := by
  obtain ⟨h1, h2, h3⟩ := hS
  unfold strength at h2
  unfold target JNIEnv.deref at h3
  by_cases hj : self.javaObject_ = NULL
  · simp [hj, hm] at h3
  · cases hf : w.jni.findRef self.javaObject_ with
    | none => simp [hf, hm, hj] at h2
    | some r =>
      simp [hf, hm, hj] at h2 h3
      refine ⟨h1, hj, ?_, r, rfl, ?_, ?_⟩
      · intro hc; rw [← h3.2] at hc; exact h3.1 hc
      · cases hk : r.kind <;> simp [hk] at h2 ⊢
      · exact h3.2

/-- A strong bridge in table mode, spelled out: the flag is clear, the key is
not 0 and designates a strong slot that stores `T`, and `T` has not been
collected. -/
theorem strongOn_table (w : World) (self : JavaObject) (T : Nat)
    (hm : w.useGlobalRefs = false) (hS : StrongOn w self T) :
    self.isWeakRef_ = false ∧ self.refTableKey_ ≠ 0 ∧ T ∉ w.jni.collected ∧
      ∃ s, w.table.findSlot self.refTableKey_ = some s ∧ s.weak = false ∧ s.obj = some T := by
  obtain ⟨h1, h2, h3⟩ := hS
  unfold strength at h2
  unfold target ReferenceTable.lookup ReferenceTable.liveObj at h3
  by_cases hk : self.refTableKey_ = 0
  · by_cases hj : self.javaObject_ = NULL <;> simp [hj, hk, hm] at h2
  · cases hf : w.table.findSlot self.refTableKey_ with
    | none => simp [hf, hm, hk] at h2
    | some s =>
      simp [hf, hm, hk] at h2 h3
      cases ho : s.obj with
      | none => simp [ho] at h3
      | some o =>
        simp [ho] at h3
        refine ⟨h1, hk, ?_, s, rfl, h2, ?_⟩
        · intro hc; rw [← h3.2] at hc; exact h3.1 hc
        · rw [ho, h3.2]

/-- Slots after `makeWeakReference`: the same keys, the addressed one weak. -/
theorem findSlot_makeWeakReference (w : World) (key k : Int) :
    (ReferenceTable.makeWeakReference w key).table.findSlot k =
      (w.table.findSlot k).map
        (fun (s : Slot) => if s.key == key then { s with weak := true } else s) := by
  unfold ReferenceTable.makeWeakReference ReferenceTable.findSlot
  exact find_slot_map _ _ (by intro s; split <;> rfl) k

/-- Slots after `clearWeakReference`: the same keys, the addressed one strong. -/
theorem findSlot_clearWeakReference (w : World) (key k : Int) :
    (ReferenceTable.clearWeakReference w key).2.table.findSlot k =
      (w.table.findSlot k).map
        (fun (t : Slot) =>
          if t.key == key then { t with obj := ReferenceTable.liveObj w.jni t, weak := false }
          else t) := by
  unfold ReferenceTable.clearWeakReference ReferenceTable.findSlot
  exact find_slot_map _ _ (by intro s; split <;> rfl) k

/-- A slot found under a key has that key. -/
theorem findSlot_key (t : ReferenceTable) (k : Int) (s : Slot) (h : t.findSlot k = some s) :
    s.key = k := by
  have := List.find?_some h
  simpa using this

@[simp] theorem makeWeakReference_jni (w : World) (key : Int) :
    (ReferenceTable.makeWeakReference w key).jni = w.jni := rfl
@[simp] theorem makeWeakReference_useGlobalRefs (w : World) (key : Int) :
    (ReferenceTable.makeWeakReference w key).useGlobalRefs = w.useGlobalRefs := rfl
@[simp] theorem makeWeakReference_envAttached (w : World) (key : Int) :
    (ReferenceTable.makeWeakReference w key).envAttached = w.envAttached := rfl

@[simp] theorem clearWeakReference_result (w : World) (key : Int) :
    (ReferenceTable.clearWeakReference w key).1 =
      (w.jni.returnObject .localRef (w.table.lookup w.jni key)).1 := rfl
@[simp] theorem clearWeakReference_jni (w : World) (key : Int) :
    (ReferenceTable.clearWeakReference w key).2.jni =
      (w.jni.returnObject .localRef (w.table.lookup w.jni key)).2 := rfl
@[simp] theorem clearWeakReference_useGlobalRefs (w : World) (key : Int) :
    (ReferenceTable.clearWeakReference w key).2.useGlobalRefs = w.useGlobalRefs := rfl
@[simp] theorem clearWeakReference_envAttached (w : World) (key : Int) :
    (ReferenceTable.clearWeakReference w key).2.envAttached = w.envAttached := rfl
@[simp] theorem clearWeakReference_TI_DEBUG (w : World) (key : Int) :
    (ReferenceTable.clearWeakReference w key).2.TI_DEBUG = w.TI_DEBUG := rfl
@[simp] theorem clearWeakReference_stats (w : World) (key : Int) :
    (ReferenceTable.clearWeakReference w key).2.stats = w.stats := rfl
@[simp] theorem clearWeakReference_log (w : World) (key : Int) :
    (ReferenceTable.clearWeakReference w key).2.log = w.log := rfl

/-- `SetWeak` leaves the three reference fields alone. -/
theorem SetWeak_fields (w : World) (self : JavaObject) :
    (SetWeak w self).2.javaObject_ = self.javaObject_ ∧
    (SetWeak w self).2.refTableKey_ = self.refTableKey_ ∧
    (SetWeak w self).2.isWeakRef_ = self.isWeakRef_ := ⟨rfl, rfl, rfl⟩

/-- `detach` on a bridge that is already detached only renews the registration. -/
theorem detach_of_detached (w : World) (self : JavaObject) (h : self.isDetached = true) :
    detach w self = .ok (SetWeak w self) := by
  have h2 : (SetWeak w self).2.isDetached = true := h
  simp [detach, h2, pure, Except.pure]

/-- `detach` on an attached bridge in direct mode. -/
theorem detach_direct (w : World) (self : JavaObject) (henv : w.envAttached = true)
    (hm : w.useGlobalRefs = true) (hj : self.javaObject_ ≠ NULL) (hw : self.isWeakRef_ = false) :
    detach w self = .ok
      (DeleteGlobalRef
        (NewWeakGlobalRef (UPDATE_STATS (SetWeak w self).1 0 1) self.javaObject_).2
        self.javaObject_,
       { (SetWeak w self).2 with
         javaObject_ := (NewWeakGlobalRef (UPDATE_STATS (SetWeak w self).1 0 1) self.javaObject_).1
         isWeakRef_ := true }) := by
  simp [detach, SetWeak, isDetached, hw, hj, weakGlobalRef, ASSERT, henv, hm, bind,
    Except.bind, pure, Except.pure]

/-- `detach` on an attached bridge in table mode. -/
theorem detach_table (w : World) (self : JavaObject) (henv : w.envAttached = true)
    (hm : w.useGlobalRefs = false) (hk : self.refTableKey_ ≠ 0) (hw : self.isWeakRef_ = false) :
    detach w self = .ok
      (ReferenceTable.makeWeakReference (UPDATE_STATS (SetWeak w self).1 0 1) self.refTableKey_,
       { (SetWeak w self).2 with isWeakRef_ := true }) := by
  simp [detach, SetWeak, isDetached, hw, hk, weakGlobalRef, ASSERT, henv, hm, bind,
    Except.bind, pure, Except.pure]

/-- Weakening a strong bridge: `detach` completes and leaves the bridge weak on
the same object; the process-wide switches are untouched. -/
theorem detach_strong (w : World) (self : JavaObject) (T : Nat)
    (henv : w.envAttached = true) (hS : StrongOn w self T) :
    ∃ w1 s1, detach w self = .ok (w1, s1) ∧ WeakOn w1 s1 T ∧
      w1.useGlobalRefs = w.useGlobalRefs ∧ w1.envAttached = true := by
  cases hm : w.useGlobalRefs with
  | true =>
    obtain ⟨h1, hj, hc, r, hf, hk, ho⟩ := strongOn_direct w self T hm hS
    have hd : w.jni.deref self.javaObject_ = some T := by
      simp [JNIEnv.deref, hj, hf, ho, hc]
    refine ⟨_, _, detach_direct w self henv hm hj h1, ?_, ?_, ?_⟩
    · simp only [WeakOn, strength, target, NewWeakGlobalRef, DeleteGlobalRef, SetWeak, record_jni,
        UPDATE_STATS_jni, hd, JNIEnv.returnObject, JNIEnv.newRef, JNIEnv.dropRef,
        record_useGlobalRefs, UPDATE_STATS_useGlobalRefs, hm]
      simp [JNIEnv.findRef, JNIEnv.deref, hc]
    · simp [DeleteGlobalRef, NewWeakGlobalRef, hm, SetWeak]
    · simp [DeleteGlobalRef, NewWeakGlobalRef, henv, SetWeak]
  | false =>
    obtain ⟨h1, hk, hc, s, hf, hw, ho⟩ := strongOn_table w self T hm hS
    refine ⟨_, _, detach_table w self henv hm hk h1, ?_, ?_, ?_⟩
    · have hkey := findSlot_key _ _ _ hf
      simp [WeakOn, strength, target, hm, hk, ReferenceTable.lookup, SetWeak,
        findSlot_makeWeakReference, hf, hkey, ReferenceTable.liveObj, ho, hc]
    · simp [hm, SetWeak]
    · simp [henv, SetWeak]

/-- A weak bridge in direct mode, spelled out: the flag is set, `javaObject_`
is a live weak global reference to `T`, and `T` has not been collected. -/
theorem weakOn_direct (w : World) (self : JavaObject) (T : Nat)
    (hm : w.useGlobalRefs = true) (hS : WeakOn w self T) :
    self.isWeakRef_ = true ∧ self.javaObject_ ≠ NULL ∧ T ∉ w.jni.collected ∧
      ∃ r, w.jni.findRef self.javaObject_ = some r ∧ r.kind = .weakGlobalRef ∧ r.obj = T := by
  obtain ⟨h1, h2, h3⟩ := hS
  unfold strength at h2
  unfold target JNIEnv.deref at h3
  by_cases hj : self.javaObject_ = NULL
  · simp [hj, hm] at h3
  · cases hf : w.jni.findRef self.javaObject_ with
    | none => simp [hf, hm, hj] at h2
    | some r =>
      simp [hf, hm, hj] at h2 h3
      refine ⟨h1, hj, ?_, r, rfl, ?_, ?_⟩
      · intro hc; rw [← h3.2] at hc; exact h3.1 hc
      · cases hk : r.kind <;> simp [hk] at h2 ⊢
      · exact h3.2

/-- A weak bridge in table mode, spelled out: the flag is set, the key is not 0
and designates a weak slot that stores `T`, and `T` has not been collected. -/
theorem weakOn_table (w : World) (self : JavaObject) (T : Nat)
    (hm : w.useGlobalRefs = false) (hS : WeakOn w self T) :
    self.isWeakRef_ = true ∧ self.refTableKey_ ≠ 0 ∧ T ∉ w.jni.collected ∧
      ∃ s, w.table.findSlot self.refTableKey_ = some s ∧ s.weak = true ∧ s.obj = some T := by
  obtain ⟨h1, h2, h3⟩ := hS
  unfold strength at h2
  unfold target ReferenceTable.lookup ReferenceTable.liveObj at h3
  by_cases hk : self.refTableKey_ = 0
  · by_cases hj : self.javaObject_ = NULL <;> simp [hj, hk, hm] at h2
  · cases hf : w.table.findSlot self.refTableKey_ with
    | none => simp [hf, hm, hk] at h2
    | some s =>
      simp [hf, hm, hk] at h2 h3
      cases ho : s.obj with
      | none => simp [ho] at h3
      | some o =>
        simp [ho] at h3
        refine ⟨h1, hk, ?_, s, rfl, h2, ?_⟩
        · intro hc; rw [← h3.2] at hc; exact h3.1 hc
        · rw [ho, h3.2]

/-- The collector leaves a weak bridge weak on `T` as long as it does not
reclaim `T`. -/
theorem weakOn_collectAll (w : World) (self : JavaObject) (T : Nat) (os : List Nat)
    (hS : WeakOn w self T) (hT : T ∉ os) : WeakOn (w.collectAll os) self T := by
  cases hm : w.useGlobalRefs with
  | true =>
    obtain ⟨h1, hj, hc, r, hf, hk, ho⟩ := weakOn_direct w self T hm hS
    have hc2 := not_mem_collectAll w os T hc hT
    unfold JNIEnv.findRef at hf
    simp [WeakOn, strength, target, hm, h1, hj, JNIEnv.findRef, JNIEnv.deref, hf, hk, ho, hc2]
  | false =>
    obtain ⟨h1, hk, hc, s, hf, hw, ho⟩ := weakOn_table w self T hm hS
    have hc2 := not_mem_collectAll w os T hc hT
    simp [WeakOn, strength, target, hm, h1, hk, ReferenceTable.lookup, hf, hw,
      ReferenceTable.liveObj, ho, hc2]

/-- Re-attachment on demand: `getJavaObject` on a weak bridge whose object is
still there completes, returns a reference to that object and leaves the
bridge strong on it. -/
theorem getJavaObject_weak (w : World) (self : JavaObject) (T : Nat)
    (henv : w.envAttached = true) (hS : WeakOn w self T) :
    ∃ r w2 s2, getJavaObject w self = .ok (r, w2, s2) ∧ w2.jni.deref r = some T ∧
      s2.isDetached = false ∧ StrongOn w2 s2 T := by
  cases hm : w.useGlobalRefs with
  | true =>
    obtain ⟨h1, hj, hc, r, hf, hk, ho⟩ := weakOn_direct w self T hm hS
    have hd : w.jni.deref self.javaObject_ = some T := by
      simp [JNIEnv.deref, hj, hf, ho, hc]
    cases hres : getJavaObject w self with
    | error a =>
      simp [getJavaObject, hm, ASSERT, hj, isDetached, h1, attach, bind, Except.bind,
        newGlobalRef, henv, SetWeak, MarkIndependent, pure, Except.pure] at hres
    | ok v =>
      obtain ⟨r, w2, s2⟩ := v
      refine ⟨r, w2, s2, rfl, ?_⟩
      simp only [getJavaObject, hm, ASSERT, hj, isDetached, h1, attach, bind, Except.bind,
        newGlobalRef, henv, SetWeak, MarkIndependent, pure, Except.pure, NewGlobalRef,
        DeleteWeakGlobalRef, record_jni, UPDATE_STATS_jni, hd, JNIEnv.returnObject,
        JNIEnv.newRef, JNIEnv.dropRef, record_useGlobalRefs, UPDATE_STATS_useGlobalRefs,
        record_envAttached, UPDATE_STATS_envAttached] at hres
      simp [hj] at hres
      obtain ⟨rfl, rfl, rfl⟩ := hres
      simp [StrongOn, isDetached, strength, target, JNIEnv.deref, JNIEnv.findRef, hc]
  | false =>
    obtain ⟨h1, hk, hc, s, hf, hw, ho⟩ := weakOn_table w self T hm hS
    have hkey := findSlot_key _ _ _ hf
    have hl : w.table.lookup w.jni self.refTableKey_ = some T := by
      simp [ReferenceTable.lookup, hf, ReferenceTable.liveObj, ho, hc]
    cases hres : getJavaObject w self with
    | error a =>
      simp [getJavaObject, hm, h1, bind, Except.bind, pure, Except.pure] at hres
    | ok v =>
      obtain ⟨r, w2, s2⟩ := v
      refine ⟨r, w2, s2, rfl, ?_⟩
      simp only [getJavaObject, hm, h1, bind, Except.bind, pure, Except.pure] at hres
      simp at hres
      obtain ⟨rfl, rfl, rfl⟩ := hres
      simp [StrongOn, isDetached, strength, target, hm, hk, hl, JNIEnv.returnObject,
        JNIEnv.newRef, JNIEnv.deref, JNIEnv.findRef, hc, apply_ite World.jni, apply_ite World.table,
        apply_ite World.useGlobalRefs, ReferenceTable.lookup, findSlot_clearWeakReference, hf,
        hkey, ReferenceTable.liveObj, ho]

/-- C1. Round trip strong -> weak -> strong: for a bridge in state Strong that
wraps the managed object T, in either mode, `detach` followed by `getJavaObject`
returns a reference that designates T and leaves the bridge Strong on T with
`isDetached` false, whatever else the collector reclaimed between the two
calls as long as it did not reclaim T. -/
theorem C1_round_trip (w : World) (self : JavaObject) (T : Nat) (os : List Nat)
    (henv : w.envAttached = true) (hS : StrongOn w self T) (hT : T ∉ os) :
    ∃ w1 s1 r w2 s2, detach w self = .ok (w1, s1) ∧ WeakOn w1 s1 T ∧
      getJavaObject (w1.collectAll os) s1 = .ok (r, w2, s2) ∧
      w2.jni.deref r = some T ∧ s2.isDetached = false ∧ StrongOn w2 s2 T := by
  obtain ⟨w1, s1, hd, hW, _, henv1⟩ := detach_strong w self T henv hS
  have hW2 := weakOn_collectAll w1 s1 T os hW hT
  have henv2 : (w1.collectAll os).envAttached = true := by simpa using henv1
  obtain ⟨r, w2, s2, hg, h1, h2, h3⟩ := getJavaObject_weak (w1.collectAll os) s1 T henv2 hW2
  exact ⟨w1, s1, r, w2, s2, hd, hW, hg, h1, h2, h3⟩

/-- C1 at concrete bridges, one in each mode, with the collector reclaiming the
unrelated object 8 in between. -/
theorem C1_round_trip_witness :
    (StrongOn directWorld directBridge 7 ∧
      ∃ w1 s1 r w2 s2, detach directWorld directBridge = .ok (w1, s1) ∧ WeakOn w1 s1 7 ∧
        getJavaObject (w1.collectAll [8]) s1 = .ok (r, w2, s2) ∧
        w2.jni.deref r = some 7 ∧ s2.isDetached = false ∧ StrongOn w2 s2 7) ∧
    (StrongOn tableWorld tableBridge 7 ∧
      ∃ w1 s1 r w2 s2, detach tableWorld tableBridge = .ok (w1, s1) ∧ WeakOn w1 s1 7 ∧
        getJavaObject (w1.collectAll [8]) s1 = .ok (r, w2, s2) ∧
        w2.jni.deref r = some 7 ∧ s2.isDetached = false ∧ StrongOn w2 s2 7) :=
  ⟨⟨by decide, C1_round_trip directWorld directBridge 7 [8] rfl (by decide) (by decide)⟩,
   ⟨by decide, C1_round_trip tableWorld tableBridge 7 [8] rfl (by decide) (by decide)⟩⟩

/-! ## Construction with a target (C2) -/

/-- `getJavaObject` on an attached bridge in direct mode returns the reference
held and changes nothing. -/
theorem getJavaObject_direct_attached (w : World) (self : JavaObject)
    (hm : w.useGlobalRefs = true) (hj : self.javaObject_ ≠ NULL) (hw : self.isWeakRef_ = false) :
    getJavaObject w self = .ok (self.javaObject_, w, self) := by
  simp [getJavaObject, hm, ASSERT, hj, isDetached, hw, bind, Except.bind, pure, Except.pure]

/-- C2. Construction with a target in direct mode: for a non-null reference
`javaObject` that designates a live managed object T, the constructor completes
and the bridge it builds is in state Strong on T (`isDetached` is false,
`isWeakRef_` is false, `javaObject_` is a live global reference to T), and
`getJavaObject` then returns `javaObject_`, which designates T, without
changing the bridge or the world. -/
theorem C2_construct_with_target (w : World) (addr : Nat) (javaObject : jobject) (T : Nat)
    (hm : w.useGlobalRefs = true) (henv : w.envAttached = true)
    (hT : w.jni.deref javaObject = some T) :
    ∃ w1 s1, ctor w addr javaObject = .ok (w1, s1) ∧
      s1.isDetached = false ∧ s1.isWeakRef_ = false ∧ s1.refTableKey_ = 0 ∧
      (∃ r, w1.jni.findRef s1.javaObject_ = some r ∧ r.kind = .globalRef ∧ r.obj = T) ∧
      StrongOn w1 s1 T ∧
      getJavaObject w1 s1 = .ok (s1.javaObject_, w1, s1) ∧
      w1.jni.deref s1.javaObject_ = some T := by
  have hnn : javaObject ≠ NULL := by
    intro h; simp [JNIEnv.deref, h] at hT
  have hc : T ∉ w.jni.collected := by
    unfold JNIEnv.deref at hT
    simp only [beq_iff_eq, hnn, if_false] at hT
    split at hT
    · split at hT
      · simp at hT
      · simp at hT; subst hT; assumption
    · simp at hT
  cases hres : ctor w addr javaObject with
  | error a =>
    simp [ctor, hnn, attach, ASSERT, bind, Except.bind, newGlobalRef, henv, hm, SetWeak,
      MarkIndependent, pure, Except.pure] at hres
  | ok v =>
    obtain ⟨w1, s1⟩ := v
    refine ⟨w1, s1, rfl, ?_⟩
    simp only [ctor, hnn, attach, ASSERT, bind, Except.bind, newGlobalRef, henv, hm, SetWeak,
      MarkIndependent, pure, Except.pure, NewGlobalRef, record_jni, UPDATE_STATS_jni, hT,
      JNIEnv.returnObject, JNIEnv.newRef, record_useGlobalRefs, UPDATE_STATS_useGlobalRefs,
      record_envAttached, UPDATE_STATS_envAttached] at hres
    simp [hnn] at hres
    obtain ⟨rfl, rfl⟩ := hres
    refine ⟨?_, ?_, ?_, ?_, ?_, ?_, ?_⟩
    · simp [isDetached]
    · rfl
    · rfl
    · simp [JNIEnv.findRef]
    · simp [StrongOn, strength, target, JNIEnv.deref, JNIEnv.findRef, hc]
    · exact getJavaObject_direct_attached _ _ (by simp) (by simp) rfl
    · simp [JNIEnv.deref, JNIEnv.findRef, hc]

/-- C2 at a concrete input: a bridge constructed at address 100 on the local
reference 1 of `directWorld`, which designates object 7. -/
theorem C2_construct_with_target_witness :
    directWorld.jni.deref 1 = some 7 ∧
    ∃ w1 s1, ctor directWorld 100 1 = .ok (w1, s1) ∧
      s1.isDetached = false ∧ s1.isWeakRef_ = false ∧ s1.refTableKey_ = 0 ∧
      (∃ r, w1.jni.findRef s1.javaObject_ = some r ∧ r.kind = .globalRef ∧ r.obj = 7) ∧
      StrongOn w1 s1 7 ∧
      getJavaObject w1 s1 = .ok (s1.javaObject_, w1, s1) ∧
      w1.jni.deref s1.javaObject_ = some 7 :=
  ⟨by decide, C2_construct_with_target directWorld 100 1 7 rfl rfl (by decide)⟩

/-! ## The consistency invariant -/

/-- A freshly constructed bridge without target is consistent. -/
theorem consistent_fresh (w : World) (addr : Nat) (p : Persistent) :
    Consistent w ⟨addr, p, NULL, 0, false⟩ := by
  unfold Consistent
  split <;> simp

/-- What a completed `newGlobalRef` leaves behind in direct mode. -/
theorem newGlobalRef_direct_inv (w : World) (s : JavaObject) (w1 : World) (s1 : JavaObject)
    (hm : w.useGlobalRefs = true) (h : newGlobalRef w s = .ok (w1, s1)) :
    w1.useGlobalRefs = true ∧ s1.refTableKey_ = s.refTableKey_ ∧ s1.isWeakRef_ = false ∧
      (s1.javaObject_ ≠ NULL →
        ∃ r, w1.jni.findRef s1.javaObject_ = some r ∧ r.kind = .globalRef) := by
  cases henv : w.envAttached with
  | false => simp [newGlobalRef, ASSERT, henv, bind, Except.bind] at h
  | true =>
    by_cases hj : s.javaObject_ = NULL
    · simp [newGlobalRef, ASSERT, henv, hm, hj, bind, Except.bind] at h
    · cases hw : s.isWeakRef_ <;> cases hd : w.jni.deref s.javaObject_ <;>
      · simp only [newGlobalRef, ASSERT, henv, hm, hj, hw, bind, Except.bind, pure, Except.pure,
          NewGlobalRef, DeleteWeakGlobalRef, hd, JNIEnv.returnObject, JNIEnv.newRef,
          JNIEnv.dropRef, record_jni] at h
        simp [hj] at h
        obtain ⟨rfl, rfl⟩ := h
        simp [JNIEnv.findRef, hm, hw]

/-- What a completed `newGlobalRef` leaves behind in table mode. -/
theorem newGlobalRef_table_inv (w : World) (s : JavaObject) (w1 : World) (s1 : JavaObject)
    (hm : w.useGlobalRefs = false) (h : newGlobalRef w s = .ok (w1, s1)) :
    w1.useGlobalRefs = false ∧ s.refTableKey_ = 0 ∧ s1.javaObject_ = NULL ∧
      s1.isWeakRef_ = s.isWeakRef_ ∧ s1.refTableKey_ = w.table.nextKey ∧
      w1.table.nextKey = w.table.nextKey + 1 ∧
      ∃ sl, w1.table.findSlot s1.refTableKey_ = some sl ∧ sl.weak = false := by
  cases henv : w.envAttached with
  | false => simp [newGlobalRef, ASSERT, henv, bind, Except.bind] at h
  | true =>
    by_cases hk : s.refTableKey_ = 0
    · simp [newGlobalRef, ASSERT, henv, hm, hk, bind, Except.bind, pure, Except.pure,
        ReferenceTable.createReference] at h
      obtain ⟨rfl, rfl⟩ := h
      simp [ReferenceTable.findSlot, hm, hk]
    · simp [newGlobalRef, ASSERT, henv, hm, hk, bind, Except.bind] at h

/-- A completed `attach` is a completed `newGlobalRef` on a bridge that differs
from the receiver in its script-side handle and, for a non-null argument, in
`javaObject_`; the world handed on has the same mode, references and table. -/
theorem attach_inv (w : World) (s : JavaObject) (jo : jobject) (w1 : World) (s1 : JavaObject)
    (h : attach w s jo = .ok (w1, s1)) :
    ∃ w0 s0, newGlobalRef w0 s0 = .ok (w1, s1) ∧ w0.useGlobalRefs = w.useGlobalRefs ∧
      w0.jni = w.jni ∧ w0.table = w.table ∧ s0.refTableKey_ = s.refTableKey_ ∧
      s0.isWeakRef_ = s.isWeakRef_ ∧
      s0.javaObject_ = (if jo = NULL then s.javaObject_ else jo) ∧
      (jo = NULL ∨ s.javaObject_ = NULL) := by
  by_cases hjo : jo = NULL
  · simp only [attach, ASSERT, hjo, bind, Except.bind] at h
    simp at h
    exact ⟨_, _, h, by simp [MarkIndependent, SetWeak], by simp [MarkIndependent, SetWeak],
      by simp [MarkIndependent, SetWeak], rfl, rfl, by simp [MarkIndependent, SetWeak, hjo], Or.inl hjo⟩
  · by_cases hj : s.javaObject_ = NULL
    · simp only [attach, ASSERT, hjo, hj, bind, Except.bind] at h
      simp [hjo] at h
      exact ⟨_, _, h, by simp [MarkIndependent, SetWeak], by simp [MarkIndependent, SetWeak],
        by simp [MarkIndependent, SetWeak], rfl, rfl, by simp [hjo], Or.inr hj⟩
    · simp [attach, ASSERT, hjo, hj, bind, Except.bind] at h

/-- `attach` preserves consistency. -/
theorem consistent_attach (w : World) (s : JavaObject) (jo : jobject) (w1 : World)
    (s1 : JavaObject) (hI : Consistent w s) (h : attach w s jo = .ok (w1, s1)) :
    Consistent w1 s1 := by
  obtain ⟨w0, s0, hn, hm0, _, _, hk0, hw0, _, _⟩ := attach_inv w s jo w1 s1 h
  cases hm : w.useGlobalRefs with
  | true =>
    simp only [Consistent, hm, if_true] at hI
    obtain ⟨hm1, hk1, hw1, hr1⟩ := newGlobalRef_direct_inv w0 s0 w1 s1 (hm0.trans hm) hn
    simp only [Consistent, hm1, if_true]
    refine ⟨by rw [hk1, hk0]; exact hI.1, fun hne => ?_⟩
    obtain ⟨r, hr, hkind⟩ := hr1 hne
    exact ⟨r, hr, Or.inl ⟨hkind, hw1⟩⟩
  | false =>
    simp only [Consistent, hm, Bool.false_eq_true, if_false] at hI
    obtain ⟨hm1, hk, hj1, hw1, _, _, sl, hsl, hweak⟩ :=
      newGlobalRef_table_inv w0 s0 w1 s1 (hm0.trans hm) hn
    have hwf : s.isWeakRef_ = false := hI.2.2 (hk0 ▸ hk)
    simp only [Consistent, hm1, Bool.false_eq_true, if_false]
    refine ⟨hj1, fun _ => ⟨sl, hsl, ?_⟩, fun _ => ?_⟩
    · rw [hweak, hw1, hw0, hwf]
    · rw [hw1, hw0, hwf]

/-- What a completed `weakGlobalRef` leaves behind in direct mode. -/
theorem weakGlobalRef_direct_inv (w : World) (s : JavaObject) (w1 : World) (s1 : JavaObject)
    (hm : w.useGlobalRefs = true) (h : weakGlobalRef w s = .ok (w1, s1)) :
    w1.useGlobalRefs = true ∧ s1.refTableKey_ = s.refTableKey_ ∧ s1.isWeakRef_ = true ∧
      (s1.javaObject_ ≠ NULL →
        ∃ r, w1.jni.findRef s1.javaObject_ = some r ∧ r.kind = .weakGlobalRef) := by
  cases henv : w.envAttached with
  | false => simp [weakGlobalRef, ASSERT, henv, bind, Except.bind] at h
  | true =>
    by_cases hj : s.javaObject_ = NULL
    · simp [weakGlobalRef, ASSERT, henv, hm, hj, bind, Except.bind] at h
    · cases hd : w.jni.deref s.javaObject_ <;>
      · simp only [weakGlobalRef, ASSERT, henv, hm, hj, bind, Except.bind, pure, Except.pure,
          NewWeakGlobalRef, DeleteGlobalRef, hd, JNIEnv.returnObject, JNIEnv.newRef,
          JNIEnv.dropRef, record_jni] at h
        simp [hj] at h
        obtain ⟨rfl, rfl⟩ := h
        simp [JNIEnv.findRef, hm]

/-- What a completed `weakGlobalRef` leaves behind in table mode. -/
theorem weakGlobalRef_table_inv (w : World) (s : JavaObject) (w1 : World) (s1 : JavaObject)
    (hm : w.useGlobalRefs = false) (h : weakGlobalRef w s = .ok (w1, s1)) :
    w1 = ReferenceTable.makeWeakReference w s.refTableKey_ ∧
      s1 = { s with isWeakRef_ := true } := by
  cases henv : w.envAttached with
  | false => simp [weakGlobalRef, ASSERT, henv, bind, Except.bind] at h
  | true =>
    simp [weakGlobalRef, ASSERT, henv, hm, bind, Except.bind, pure, Except.pure] at h
    exact ⟨h.1.symm, h.2.symm⟩

/-- A completed `detach` either found the bridge detached and only renewed the
registration, or went on to `weakGlobalRef`. -/
theorem detach_inv (w : World) (s : JavaObject) (w1 : World) (s1 : JavaObject)
    (h : detach w s = .ok (w1, s1)) :
    (s.isDetached = true ∧ (w1, s1) = SetWeak w s) ∨
    (s.isDetached = false ∧
      weakGlobalRef (UPDATE_STATS (SetWeak w s).1 0 1) (SetWeak w s).2 = .ok (w1, s1)) := by
  cases hd : s.isDetached with
  | true =>
    rw [detach_of_detached w s hd] at h
    simp only [Except.ok.injEq] at h
    exact Or.inl ⟨rfl, h.symm⟩
  | false =>
    have h2 : (SetWeak w s).2.isDetached = false := hd
    simp only [detach, h2, bind, Except.bind] at h
    exact Or.inr ⟨rfl, by simpa using h⟩

/-- `detach` preserves consistency. -/
theorem consistent_detach (w : World) (s : JavaObject) (w1 : World) (s1 : JavaObject)
    (hI : Consistent w s) (h : detach w s = .ok (w1, s1)) : Consistent w1 s1 := by
  rcases detach_inv w s w1 s1 h with ⟨_, he⟩ | ⟨hd, hw⟩
  · simp only [SetWeak, Prod.mk.injEq] at he
    obtain ⟨rfl, rfl⟩ := he
    exact hI
  · cases hm : w.useGlobalRefs with
    | true =>
      simp only [Consistent, hm, if_true] at hI
      obtain ⟨hm1, hk1, hw1, hr1⟩ := weakGlobalRef_direct_inv _ _ w1 s1 (by simpa [SetWeak] using hm) hw
      simp only [Consistent, hm1, if_true]
      refine ⟨by rw [hk1]; exact hI.1, fun hne => ?_⟩
      obtain ⟨r, hr, hkind⟩ := hr1 hne
      exact ⟨r, hr, Or.inr ⟨hkind, hw1⟩⟩
    | false =>
      simp only [Consistent, hm, Bool.false_eq_true, if_false] at hI
      obtain ⟨rfl, rfl⟩ := weakGlobalRef_table_inv _ _ w1 s1 (by simpa [SetWeak] using hm) hw
      have hk : s.refTableKey_ ≠ 0 := by
        intro hk
        simp [isDetached, hI.1, hk] at hd
      obtain ⟨sl, hsl, _⟩ := hI.2.1 hk
      have hkey := findSlot_key _ _ _ hsl
      simp [Consistent, hm, SetWeak, hI.1, hk, findSlot_makeWeakReference, hsl, hkey]

/-- The collector preserves consistency. -/
theorem consistent_collect (w : World) (s : JavaObject) (o : Nat) (hI : Consistent w s) :
    Consistent (w.collect o) s := by
  simpa [Consistent, JNIEnv.findRef] using hI

/-- `getJavaObject` preserves consistency. -/
theorem consistent_getJavaObject (w : World) (s : JavaObject) (r : jobject) (w1 : World)
    (s1 : JavaObject) (hI : Consistent w s) (h : getJavaObject w s = .ok (r, w1, s1)) :
    Consistent w1 s1 := by
  cases hm : w.useGlobalRefs with
  | true =>
    by_cases hj : s.javaObject_ = NULL
    · simp [getJavaObject, ASSERT, hm, hj, bind, Except.bind] at h
    · cases hd : s.isDetached with
      | true =>
        cases ha : attach w s NULL with
        | error a => simp [getJavaObject, ASSERT, hm, hj, hd, bind, Except.bind, ha] at h
        | ok v =>
          simp [getJavaObject, ASSERT, hm, hj, hd, bind, Except.bind, ha, pure, Except.pure] at h
          obtain ⟨_, rfl, rfl⟩ := h
          exact consistent_attach w s NULL _ _ hI ha
      | false =>
        simp [getJavaObject, ASSERT, hm, hj, hd, bind, Except.bind, pure, Except.pure] at h
        obtain ⟨_, rfl, rfl⟩ := h
        exact hI
  | false =>
    cases hw : s.isWeakRef_ with
    | true =>
      simp only [getJavaObject, hm, hw, bind, Except.bind, pure, Except.pure] at h
      simp at h
      obtain ⟨_, rfl, rfl⟩ := h
      simp only [Consistent, hm, Bool.false_eq_true, if_false] at hI
      have hk : s.refTableKey_ ≠ 0 := by
        intro hk
        have := hI.2.2 hk
        simp [hw] at this
      obtain ⟨sl, hsl, _⟩ := hI.2.1 hk
      have hkey := findSlot_key _ _ _ hsl
      simp [Consistent, hm, SetWeak, hI.1, hk, apply_ite World.table,
        apply_ite World.useGlobalRefs, findSlot_clearWeakReference, hsl, hkey]
    | false =>
      simp [getJavaObject, hm, hw, bind, Except.bind, pure, Except.pure] at h
      obtain ⟨_, rfl, rfl⟩ := h
      simpa [Consistent, ReferenceTable.getReference, hm] using hI

/-- The constructor builds a consistent bridge. -/
theorem consistent_ctor (w : World) (addr : Nat) (jo : jobject) (w1 : World) (s1 : JavaObject)
    (h : ctor w addr jo = .ok (w1, s1)) : Consistent w1 s1 := by
  by_cases hjo : jo = NULL
  · simp [ctor, hjo, pure, Except.pure] at h
    obtain ⟨rfl, rfl⟩ := h
    exact consistent_fresh _ addr ⟨none, false⟩
  · simp only [ctor, bne_iff_ne, ne_eq, hjo, not_false_eq_true, if_true] at h
    exact consistent_attach _ _ jo w1 s1 (consistent_fresh _ addr ⟨none, false⟩) h

/-- Every step other than `deleteGlobalRef` preserves consistency. -/
theorem consistent_step (w : World) (s : JavaObject) (op : Op) (r : Ret) (w1 : World)
    (s1 : JavaObject) (hop : op ≠ .deleteGlobalRef) (hI : Consistent w s)
    (h : step w s op = .ok (r, w1, s1)) : Consistent w1 s1 := by
  cases op with
  | attach jo =>
    cases ha : attach w s jo with
    | error a => simp [step, ha, Except.map] at h
    | ok v =>
      obtain ⟨v1, v2⟩ := v
      simp [step, ha, Except.map] at h
      obtain ⟨_, rfl, rfl⟩ := h
      exact consistent_attach w s jo _ _ hI ha
  | detach =>
    cases ha : detach w s with
    | error a => simp [step, ha, Except.map] at h
    | ok v =>
      obtain ⟨v1, v2⟩ := v
      simp [step, ha, Except.map] at h
      obtain ⟨_, rfl, rfl⟩ := h
      exact consistent_detach w s _ _ hI ha
  | getJavaObject =>
    cases ha : getJavaObject w s with
    | error a => simp [step, ha, Except.map] at h
    | ok v =>
      obtain ⟨v1, v2⟩ := v
      simp [step, ha, Except.map] at h
      obtain ⟨_, rfl, rfl⟩ := h
      exact consistent_getJavaObject w s _ _ _ hI ha
  | deleteGlobalRef => exact absurd rfl hop
  | isDetached =>
    simp [step] at h
    obtain ⟨_, rfl, rfl⟩ := h
    exact hI
  | collect o =>
    simp [step] at h
    obtain ⟨_, rfl, rfl⟩ := h
    exact consistent_collect w s o hI

/-- A run without `deleteGlobalRef` preserves consistency. -/
theorem consistent_run (ops : List Op) (w : World) (s : JavaObject) (w1 : World)
    (s1 : JavaObject) (hops : ∀ op ∈ ops, op ≠ .deleteGlobalRef) (hI : Consistent w s)
    (h : run w s ops = .ok (w1, s1)) : Consistent w1 s1 := by
  induction ops generalizing w s with
  | nil =>
    simp [run] at h
    obtain ⟨rfl, rfl⟩ := h
    exact hI
  | cons op ops ih =>
    cases hs : step w s op with
    | error a => simp [run, hs] at h
    | ok v =>
      obtain ⟨r, w2, s2⟩ := v
      simp only [run, hs] at h
      exact ih w2 s2 (fun o ho => hops o (List.mem_cons_of_mem _ ho))
        (consistent_step w s op r w2 s2 (hops op (List.mem_cons_self _ _)) hI hs) h

/-- On a consistent bridge `isDetached` answers as specified. -/
theorem isDetachedCorrect_of_consistent (w : World) (s : JavaObject) (hI : Consistent w s) :
    IsDetachedCorrect w s := by
  cases hm : w.useGlobalRefs with
  | true =>
    simp only [Consistent, hm, if_true] at hI
    obtain ⟨hk, hr⟩ := hI
    by_cases hj : s.javaObject_ = NULL
    · exact ⟨.Released, by simp [strength, hj, hk], by simp [isDetached, hj, hk]⟩
    · obtain ⟨r, hf, h | h⟩ := hr hj
      · exact ⟨.Strong, by simp [strength, hj, hm, hf, h.1], by simp [isDetached, hj, h.2]⟩
      · exact ⟨.Weak, by simp [strength, hj, hm, hf, h.1], by simp [isDetached, hj, h.2]⟩
  | false =>
    simp only [Consistent, hm, Bool.false_eq_true, if_false] at hI
    obtain ⟨hj, hs, hz⟩ := hI
    by_cases hk : s.refTableKey_ = 0
    · exact ⟨.Released, by simp [strength, hj, hk], by simp [isDetached, hj, hk]⟩
    · obtain ⟨sl, hf, hw⟩ := hs hk
      cases hb : sl.weak with
      | true =>
        exact ⟨.Weak, by simp [strength, hk, hm, hf, hb],
          by simp [isDetached, hk, ← hw, hb]⟩
      | false =>
        exact ⟨.Strong, by simp [strength, hk, hm, hf, hb],
          by simp [isDetached, hk, ← hw, hb]⟩

/-- After `deleteGlobalRef` on a consistent bridge nothing is held: the bridge
is `Released` and `isDetached` is true. -/
theorem released_after_deleteGlobalRef (w : World) (s : JavaObject) (w1 : World)
    (s1 : JavaObject) (hI : Consistent w s) (h : deleteGlobalRef w s = .ok (w1, s1)) :
    s1.javaObject_ = NULL ∧ s1.refTableKey_ = 0 ∧ strength w1 s1 = some .Released ∧
      s1.isDetached = true := by
  have key : s1.javaObject_ = NULL ∧ s1.refTableKey_ = 0 := by
    cases henv : w.envAttached with
    | false => simp [deleteGlobalRef, ASSERT, henv, bind, Except.bind] at h
    | true =>
      cases hm : w.useGlobalRefs with
      | true =>
        simp only [Consistent, hm, if_true] at hI
        by_cases hj : s.javaObject_ = NULL
        · simp [deleteGlobalRef, ASSERT, henv, hm, hj, bind, Except.bind] at h
        · cases hw : s.isWeakRef_ <;>
          · simp [deleteGlobalRef, ASSERT, henv, hm, hj, hw, bind, Except.bind, pure,
              Except.pure] at h
            obtain ⟨_, rfl⟩ := h
            exact ⟨rfl, hI.1⟩
      | false =>
        simp only [Consistent, hm, Bool.false_eq_true, if_false] at hI
        simp [deleteGlobalRef, ASSERT, henv, hm, bind, Except.bind, pure, Except.pure] at h
        obtain ⟨_, rfl⟩ := h
        exact ⟨hI.1, rfl⟩
  exact ⟨key.1, key.2, by simp [strength, key.1, key.2], by simp [isDetached, key.1, key.2]⟩

/-! ## The detach signal (C4) -/

@[simp] theorem NewGlobalRef_stats (w : World) (h : jobject) :
    (NewGlobalRef w h).2.stats = w.stats := rfl
@[simp] theorem NewGlobalRef_table (w : World) (h : jobject) :
    (NewGlobalRef w h).2.table = w.table := rfl
@[simp] theorem NewGlobalRef_log (w : World) (h : jobject) :
    (NewGlobalRef w h).2.log = w.log := rfl
@[simp] theorem NewGlobalRef_TI_DEBUG (w : World) (h : jobject) :
    (NewGlobalRef w h).2.TI_DEBUG = w.TI_DEBUG := rfl
@[simp] theorem NewGlobalRef_useGlobalRefs (w : World) (h : jobject) :
    (NewGlobalRef w h).2.useGlobalRefs = w.useGlobalRefs := rfl
@[simp] theorem NewGlobalRef_envAttached (w : World) (h : jobject) :
    (NewGlobalRef w h).2.envAttached = w.envAttached := rfl
@[simp] theorem NewWeakGlobalRef_stats (w : World) (h : jobject) :
    (NewWeakGlobalRef w h).2.stats = w.stats := rfl
@[simp] theorem NewWeakGlobalRef_table (w : World) (h : jobject) :
    (NewWeakGlobalRef w h).2.table = w.table := rfl
@[simp] theorem NewWeakGlobalRef_log (w : World) (h : jobject) :
    (NewWeakGlobalRef w h).2.log = w.log := rfl
@[simp] theorem NewWeakGlobalRef_TI_DEBUG (w : World) (h : jobject) :
    (NewWeakGlobalRef w h).2.TI_DEBUG = w.TI_DEBUG := rfl
@[simp] theorem NewWeakGlobalRef_useGlobalRefs (w : World) (h : jobject) :
    (NewWeakGlobalRef w h).2.useGlobalRefs = w.useGlobalRefs := rfl
@[simp] theorem NewWeakGlobalRef_envAttached (w : World) (h : jobject) :
    (NewWeakGlobalRef w h).2.envAttached = w.envAttached := rfl
@[simp] theorem DeleteGlobalRef_stats (w : World) (h : jobject) :
    (DeleteGlobalRef w h).stats = w.stats := rfl
@[simp] theorem DeleteGlobalRef_table (w : World) (h : jobject) :
    (DeleteGlobalRef w h).table = w.table := rfl
@[simp] theorem DeleteGlobalRef_log (w : World) (h : jobject) :
    (DeleteGlobalRef w h).log = w.log := rfl
@[simp] theorem DeleteGlobalRef_TI_DEBUG (w : World) (h : jobject) :
    (DeleteGlobalRef w h).TI_DEBUG = w.TI_DEBUG := rfl
@[simp] theorem DeleteGlobalRef_useGlobalRefs (w : World) (h : jobject) :
    (DeleteGlobalRef w h).useGlobalRefs = w.useGlobalRefs := rfl
@[simp] theorem DeleteGlobalRef_envAttached (w : World) (h : jobject) :
    (DeleteGlobalRef w h).envAttached = w.envAttached := rfl
@[simp] theorem DeleteWeakGlobalRef_stats (w : World) (h : jobject) :
    (DeleteWeakGlobalRef w h).stats = w.stats := rfl
@[simp] theorem DeleteWeakGlobalRef_table (w : World) (h : jobject) :
    (DeleteWeakGlobalRef w h).table = w.table := rfl
@[simp] theorem DeleteWeakGlobalRef_log (w : World) (h : jobject) :
    (DeleteWeakGlobalRef w h).log = w.log := rfl
@[simp] theorem DeleteWeakGlobalRef_TI_DEBUG (w : World) (h : jobject) :
    (DeleteWeakGlobalRef w h).TI_DEBUG = w.TI_DEBUG := rfl
@[simp] theorem DeleteWeakGlobalRef_useGlobalRefs (w : World) (h : jobject) :
    (DeleteWeakGlobalRef w h).useGlobalRefs = w.useGlobalRefs := rfl
@[simp] theorem DeleteWeakGlobalRef_envAttached (w : World) (h : jobject) :
    (DeleteWeakGlobalRef w h).envAttached = w.envAttached := rfl
@[simp] theorem makeWeakReference_stats (w : World) (key : Int) :
    (ReferenceTable.makeWeakReference w key).stats = w.stats := rfl
@[simp] theorem makeWeakReference_log (w : World) (key : Int) :
    (ReferenceTable.makeWeakReference w key).log = w.log := rfl
@[simp] theorem makeWeakReference_TI_DEBUG (w : World) (key : Int) :
    (ReferenceTable.makeWeakReference w key).TI_DEBUG = w.TI_DEBUG := rfl

/-- The counters after the first `detach` of an attached bridge. -/
theorem detach_attached_stats (w : World) (self : JavaObject) (w1 : World) (s1 : JavaObject)
    (hd : self.isDetached = false) (h : detach w self = .ok (w1, s1)) :
    w1.stats = (UPDATE_STATS w 0 1).stats := by
  rcases detach_inv w self w1 s1 h with ⟨h1, _⟩ | ⟨_, hw⟩
  · rw [hd] at h1; cases h1
  · have hst : (UPDATE_STATS (SetWeak w self).1 0 1).stats = (UPDATE_STATS w 0 1).stats := by
      unfold UPDATE_STATS SetWeak
      simp only [record_TI_DEBUG]
      split <;> rfl
    cases henv : w.envAttached with
    | false => simp [weakGlobalRef, ASSERT, henv, bind, Except.bind, SetWeak] at hw
    | true =>
      cases hm : w.useGlobalRefs with
      | true =>
        by_cases hj : self.javaObject_ = NULL
        · simp [weakGlobalRef, ASSERT, henv, hm, hj, bind, Except.bind, SetWeak] at hw
        · simp [weakGlobalRef, ASSERT, henv, hm, hj, bind, Except.bind, SetWeak, pure,
            Except.pure] at hw
          rw [← hw.1]
          simpa using hst
      | false =>
        simp [weakGlobalRef, ASSERT, henv, hm, bind, Except.bind, SetWeak, pure,
            Except.pure] at hw
        rw [← hw.1]
        simpa using hst

/-- In direct mode `getJavaObject` on a bridge without reference hits
`ASSERT(javaObject_ != NULL)` before anything is changed. -/
theorem getJavaObject_direct_null (w : World) (self : JavaObject)
    (hm : w.useGlobalRefs = true) (hj : self.javaObject_ = NULL) :
    getJavaObject w self = .error ⟨.javaObjectNotNull, w, self⟩ := by
  simp [getJavaObject, hm, hj, ASSERT, bind, Except.bind]

/-- In table mode `getJavaObject` on a bridge without reference completes and
leaves the bridge without reference. -/
theorem getJavaObject_table_released (w : World) (self : JavaObject)
    (hm : w.useGlobalRefs = false) (hj : self.javaObject_ = NULL)
    (hk : self.refTableKey_ = 0) :
    ∃ r w1 s1, getJavaObject w self = .ok (r, w1, s1) ∧ s1.javaObject_ = NULL ∧
      s1.refTableKey_ = 0 ∧ s1.isDetached = true := by
  cases hw : self.isWeakRef_ with
  | true =>
    refine ⟨_, _, _, by simp only [getJavaObject, hm, hw, bind, Except.bind, pure, Except.pure]; rfl,
      ?_, ?_, ?_⟩
    · simpa [SetWeak] using hj
    · simpa [SetWeak] using hk
    · simp [SetWeak, isDetached, hj, hk]
  | false =>
    refine ⟨_, _, _, by simp only [getJavaObject, hm, hw, bind, Except.bind, pure, Except.pure]; rfl,
      hj, hk, ?_⟩
    simp [isDetached, hj, hk]

/-- C5 (amended). `getJavaObject` re-attaches a bridge that is Weak: for every
bridge in state Weak whose weak reference still designates the object T, in
either mode, `getJavaObject` completes, returns a reference to T and leaves
the bridge Strong on T, so `isDetached` is false afterwards.  A bridge that
holds no reference is not re-attached: in direct mode `getJavaObject` hits
`ASSERT(javaObject_ != NULL)`, in table mode it completes and the bridge still
holds no reference, so `isDetached` stays true. -/
theorem C5_getJavaObject_reattaches (w : World) (self : JavaObject) (T : Nat)
    (v : World) (other : JavaObject)
    (henv : w.envAttached = true) (hW : WeakOn w self T)
    (hj : other.javaObject_ = NULL) (hk : other.refTableKey_ = 0) :
    (∃ r w1 s1, getJavaObject w self = .ok (r, w1, s1) ∧ w1.jni.deref r = some T ∧
      s1.isDetached = false ∧ StrongOn w1 s1 T) ∧
    (v.useGlobalRefs = true → getJavaObject v other = .error ⟨.javaObjectNotNull, v, other⟩) ∧
    (v.useGlobalRefs = false →
      ∃ r v1 o1, getJavaObject v other = .ok (r, v1, o1) ∧ o1.javaObject_ = NULL ∧
        o1.refTableKey_ = 0 ∧ o1.isDetached = true) :=
  ⟨getJavaObject_weak w self T henv hW,
   fun hm => getJavaObject_direct_null v other hm hj,
   fun hm => getJavaObject_table_released v other hm hj hk⟩

/-- C5 (amended) at concrete bridges: the weak bridges of `directWeakWorld` and
of `tableWeakWorld`, and the bridge without reference in either mode. -/
theorem C5_getJavaObject_reattaches_witness :
    (WeakOn directWeakWorld directWeakBridge 7 ∧
      (∃ r w1 s1, getJavaObject directWeakWorld directWeakBridge = .ok (r, w1, s1) ∧
        w1.jni.deref r = some 7 ∧ s1.isDetached = false ∧ StrongOn w1 s1 7) ∧
      (directStart.useGlobalRefs = true →
        getJavaObject directStart freshBridge
          = .error ⟨.javaObjectNotNull, directStart, freshBridge⟩) ∧
      (directStart.useGlobalRefs = false →
        ∃ r v1 o1, getJavaObject directStart freshBridge = .ok (r, v1, o1) ∧
          o1.javaObject_ = NULL ∧ o1.refTableKey_ = 0 ∧ o1.isDetached = true)) ∧
    (WeakOn tableWeakWorld tableWeakBridge 7 ∧
      (∃ r w1 s1, getJavaObject tableWeakWorld tableWeakBridge = .ok (r, w1, s1) ∧
        w1.jni.deref r = some 7 ∧ s1.isDetached = false ∧ StrongOn w1 s1 7) ∧
      (tableStart.useGlobalRefs = true →
        getJavaObject tableStart freshBridge
          = .error ⟨.javaObjectNotNull, tableStart, freshBridge⟩) ∧
      (tableStart.useGlobalRefs = false →
        ∃ r v1 o1, getJavaObject tableStart freshBridge = .ok (r, v1, o1) ∧
          o1.javaObject_ = NULL ∧ o1.refTableKey_ = 0 ∧ o1.isDetached = true)) :=
  ⟨⟨by decide, C5_getJavaObject_reattaches directWeakWorld directWeakBridge 7 directStart
      freshBridge rfl (by decide) rfl rfl⟩,
   ⟨by decide, C5_getJavaObject_reattaches tableWeakWorld tableWeakBridge 7 tableStart
      freshBridge rfl (by decide) rfl rfl⟩⟩

/-- C5 as stated fails for a bridge that is Released: `isDetached` is true for
the bridge without reference, yet in direct mode `getJavaObject` does not
complete (it hits `ASSERT(javaObject_ != NULL)`), and in table mode it
completes and leaves `isDetached` true. -/
theorem C5_counterexample :
    freshBridge.isDetached = true ∧
    getJavaObject directStart freshBridge
      = .error ⟨.javaObjectNotNull, directStart, freshBridge⟩ ∧
    ∃ r w1 s1, getJavaObject tableStart freshBridge = .ok (r, w1, s1) ∧
      s1.isDetached = true :=
  ⟨rfl, rfl, _, _, _, rfl, rfl⟩

/-! ## Re-attachment by `attach(NULL)` (C6) -/

/-- In direct mode `attach(NULL)` re-attaches a weak bridge whose object is
still there. -/
theorem attach_null_weak_direct (w : World) (self : JavaObject) (T : Nat)
    (hm : w.useGlobalRefs = true) (henv : w.envAttached = true) (hS : WeakOn w self T) :
    ∃ w1 s1, attach w self NULL = .ok (w1, s1) ∧ s1.isDetached = false ∧ StrongOn w1 s1 T := by
  obtain ⟨h1, hj, hc, r, hf, hk, ho⟩ := weakOn_direct w self T hm hS
  have hd : w.jni.deref self.javaObject_ = some T := by
    simp [JNIEnv.deref, hj, hf, ho, hc]
  cases hres : attach w self NULL with
  | error a =>
    simp [hm, ASSERT, hj, h1, attach, bind, Except.bind,
      newGlobalRef, henv, SetWeak, MarkIndependent, pure, Except.pure] at hres
  | ok v =>
    obtain ⟨w2, s2⟩ := v
    refine ⟨w2, s2, rfl, ?_⟩
    simp only [hm, ASSERT, hj, h1, attach, bind, Except.bind,
      newGlobalRef, henv, SetWeak, MarkIndependent, pure, Except.pure, NewGlobalRef,
      DeleteWeakGlobalRef, record_jni, UPDATE_STATS_jni, hd, JNIEnv.returnObject,
      JNIEnv.newRef, JNIEnv.dropRef, record_useGlobalRefs, UPDATE_STATS_useGlobalRefs,
      record_envAttached, UPDATE_STATS_envAttached] at hres
    simp [hj] at hres
    obtain ⟨rfl, rfl⟩ := hres
    simp [StrongOn, isDetached, strength, target, JNIEnv.deref, JNIEnv.findRef, hc]

/-- In table mode `attach(NULL)` on a bridge that holds a slot passes the
precondition of `attach` and then hits `ASSERT(refTableKey_ == 0)` in
`newGlobalRef`, with the three reference fields as they were. -/
theorem attach_null_table_holding (w : World) (self : JavaObject)
    (hm : w.useGlobalRefs = false) (henv : w.envAttached = true)
    (hk : self.refTableKey_ ≠ 0) :
    ∃ a, attach w self NULL = .error a ∧ a.assertion = .refTableKeyZero ∧
      a.self.javaObject_ = self.javaObject_ ∧ a.self.refTableKey_ = self.refTableKey_ ∧
      a.self.isWeakRef_ = self.isWeakRef_ := by
  refine ⟨_, by simp only [attach, ASSERT, bind, Except.bind, newGlobalRef, SetWeak,
      MarkIndependent, record_envAttached, UPDATE_STATS_envAttached, henv,
      record_useGlobalRefs, UPDATE_STATS_useGlobalRefs, hm]; simp [hk]; rfl, rfl, rfl, rfl, rfl⟩

/-- C6 (amended). Re-attach by `attach(NULL)`: in direct mode, for every bridge
in state Weak whose weak reference still designates T, `attach(NULL)` satisfies
the precondition, completes without a failed assertion and leaves the bridge
Strong on T.  In table mode `attach(NULL)` on a Weak bridge satisfies the
precondition of `attach` but then hits `ASSERT(refTableKey_ == 0)` in
`newGlobalRef`, the reference fields unchanged; there the re-attachment is the
one `getJavaObject` performs. -/
theorem C6_reattach_by_attach_null (w : World) (self : JavaObject) (T : Nat)
    (v : World) (other : JavaObject) (U : Nat)
    (hm : w.useGlobalRefs = true) (henv : w.envAttached = true) (hW : WeakOn w self T)
    (hv : v.useGlobalRefs = false) (hvenv : v.envAttached = true) (hV : WeakOn v other U) :
    (∃ w1 s1, attach w self NULL = .ok (w1, s1) ∧ s1.isDetached = false ∧ StrongOn w1 s1 T) ∧
    (∃ a, attach v other NULL = .error a ∧ a.assertion = .refTableKeyZero ∧
      a.self.javaObject_ = other.javaObject_ ∧ a.self.refTableKey_ = other.refTableKey_ ∧
      a.self.isWeakRef_ = other.isWeakRef_) ∧
    (∃ r v1 o1, getJavaObject v other = .ok (r, v1, o1) ∧ o1.isDetached = false ∧
      StrongOn v1 o1 U) := by
  refine ⟨attach_null_weak_direct w self T hm henv hW,
    attach_null_table_holding v other hv hvenv (weakOn_table v other U hv hV).2.1, ?_⟩
  obtain ⟨r, v1, o1, h1, _, h3, h4⟩ := getJavaObject_weak v other U hvenv hV
  exact ⟨r, v1, o1, h1, h3, h4⟩

/-- C6 (amended) at the weak bridges of `directWeakWorld` and `tableWeakWorld`. -/
theorem C6_reattach_by_attach_null_witness :
    WeakOn directWeakWorld directWeakBridge 7 ∧ WeakOn tableWeakWorld tableWeakBridge 7 ∧
    (∃ w1 s1, attach directWeakWorld directWeakBridge NULL = .ok (w1, s1) ∧
      s1.isDetached = false ∧ StrongOn w1 s1 7) ∧
    (∃ a, attach tableWeakWorld tableWeakBridge NULL = .error a ∧
      a.assertion = .refTableKeyZero ∧
      a.self.javaObject_ = tableWeakBridge.javaObject_ ∧
      a.self.refTableKey_ = tableWeakBridge.refTableKey_ ∧
      a.self.isWeakRef_ = tableWeakBridge.isWeakRef_) ∧
    (∃ r v1 o1, getJavaObject tableWeakWorld tableWeakBridge = .ok (r, v1, o1) ∧
      o1.isDetached = false ∧ StrongOn v1 o1 7) :=
  ⟨by decide, by decide,
   C6_reattach_by_attach_null directWeakWorld directWeakBridge 7 tableWeakWorld tableWeakBridge 7
     rfl rfl (by decide) rfl rfl (by decide)⟩

/-- C6 as stated fails in table mode: on the Weak bridge of `tableWeakWorld`,
`attach(NULL)` does not complete but hits `ASSERT(refTableKey_ == 0)`. -/
theorem C6_counterexample :
    WeakOn tableWeakWorld tableWeakBridge 7 ∧
    ∃ a, attach tableWeakWorld tableWeakBridge NULL = .error a ∧
      a.assertion = .refTableKeyZero :=
  ⟨by decide, _, rfl, rfl⟩

/-! ## The assertions of `attach` (C7) -/

/-- When `newGlobalRef` completes and when it aborts, the environment being
attached: it aborts exactly when, in direct mode, `javaObject_` is `NULL` or,
in table mode, `refTableKey_` is not 0, and it aborts before changing
anything. -/
theorem newGlobalRef_cases (w : World) (s : JavaObject) (henv : w.envAttached = true) :
    (w.useGlobalRefs = true ∧ s.javaObject_ = NULL ∧
      newGlobalRef w s = .error ⟨.javaObjectNotNull, w, s⟩) ∨
    (w.useGlobalRefs = false ∧ s.refTableKey_ ≠ 0 ∧
      newGlobalRef w s = .error ⟨.refTableKeyZero, w, s⟩) ∨
    (((w.useGlobalRefs = true ∧ s.javaObject_ ≠ NULL) ∨
      (w.useGlobalRefs = false ∧ s.refTableKey_ = 0)) ∧
      ∃ r, newGlobalRef w s = .ok r) := by
  cases hm : w.useGlobalRefs with
  | true =>
    by_cases hj : s.javaObject_ = NULL
    · exact Or.inl ⟨rfl, hj, by simp [newGlobalRef, ASSERT, henv, hm, hj, bind, Except.bind]⟩
    · refine Or.inr (Or.inr ⟨Or.inl ⟨rfl, hj⟩, ?_⟩)
      cases hw : s.isWeakRef_ <;>
        simp [newGlobalRef, ASSERT, henv, hm, hj, hw, bind, Except.bind, pure, Except.pure]
  | false =>
    by_cases hk : s.refTableKey_ = 0
    · refine Or.inr (Or.inr ⟨Or.inr ⟨rfl, hk⟩, ?_⟩)
      simp [newGlobalRef, ASSERT, henv, hm, hk, bind, Except.bind, pure, Except.pure]
    · exact Or.inr (Or.inl ⟨rfl, hk,
        by simp [newGlobalRef, ASSERT, henv, hm, hk, bind, Except.bind]⟩)

/-- The bridge `attach` hands to `newGlobalRef`: the registration renewed and a
non-null argument stored in `javaObject_`. -/
theorem attach_eq (w : World) (s : JavaObject) (jo : jobject)
    (h : jo = NULL ∨ s.javaObject_ = NULL) :
    attach w s jo =
      newGlobalRef ((UPDATE_STATS w 0 (-1)).record (.SetWeak s.addr) |>.record .MarkIndependent)
        { s with
          persistent_ := { weakParameter := some s.addr, independent := true }
          javaObject_ := if jo = NULL then s.javaObject_ else jo } := by
  by_cases hjo : jo = NULL
  · simp [attach, ASSERT, hjo, bind, Except.bind, SetWeak, MarkIndependent]
  · have hj : s.javaObject_ = NULL := h.resolve_left hjo
    simp [attach, ASSERT, hjo, hj, bind, Except.bind, SetWeak, MarkIndependent]

/-- The assertion of `attach` itself fires, before anything is changed, when a
non-null target is attached to a bridge whose `javaObject_` is not `NULL`. -/
theorem attach_precondition_fails (w : World) (s : JavaObject) (jo : jobject)
    (hjo : jo ≠ NULL) (hj : s.javaObject_ ≠ NULL) :
    attach w s jo = .error ⟨.attachPrecondition, w, s⟩ := by
  simp [attach, ASSERT, hjo, hj, bind, Except.bind]

/-- C7 (amended). When `attach` fails, the JNI environment being attached:
`attach(javaObject)` hits a fatal assertion if and only if `javaObject` is
non-null and `javaObject_` is already non-null (the assertion of `attach`
itself), or, in direct mode, both `javaObject` and `javaObject_` are `NULL`,
or, in table mode, the bridge already holds a slot (the assertions of
`newGlobalRef`).  In particular attaching a non-null target to a bridge that
holds a direct reference or, in table mode, a slot never succeeds.  When the
assertion of `attach` itself fires nothing at all has been changed; whichever
assertion fires, `refTableKey_` and `isWeakRef_` are unchanged, and
`javaObject_` is unchanged in direct mode and for a `NULL` argument. -/
theorem C7_attach_assertions (w : World) (s : JavaObject) (jo : jobject)
    (henv : w.envAttached = true) :
    ((∃ a, attach w s jo = .error a) ↔
      ((jo ≠ NULL ∧ s.javaObject_ ≠ NULL) ∨
       (w.useGlobalRefs = true ∧ jo = NULL ∧ s.javaObject_ = NULL) ∨
       (w.useGlobalRefs = false ∧ s.refTableKey_ ≠ 0))) ∧
    (jo ≠ NULL → s.javaObject_ ≠ NULL →
      attach w s jo = .error ⟨.attachPrecondition, w, s⟩) ∧
    (jo ≠ NULL → (s.javaObject_ ≠ NULL ∨ (w.useGlobalRefs = false ∧ s.refTableKey_ ≠ 0)) →
      ∃ a, attach w s jo = .error a) ∧
    (∀ a, attach w s jo = .error a →
      a.self.refTableKey_ = s.refTableKey_ ∧ a.self.isWeakRef_ = s.isWeakRef_ ∧
      (a.assertion = .attachPrecondition → a.world = w ∧ a.self = s) ∧
      (w.useGlobalRefs = true ∨ jo = NULL → a.self.javaObject_ = s.javaObject_)) := by
  have main :
      ((∃ a, attach w s jo = .error a) ↔
        ((jo ≠ NULL ∧ s.javaObject_ ≠ NULL) ∨
         (w.useGlobalRefs = true ∧ jo = NULL ∧ s.javaObject_ = NULL) ∨
         (w.useGlobalRefs = false ∧ s.refTableKey_ ≠ 0))) ∧
      (∀ a, attach w s jo = .error a →
        a.self.refTableKey_ = s.refTableKey_ ∧ a.self.isWeakRef_ = s.isWeakRef_ ∧
        (a.assertion = .attachPrecondition → a.world = w ∧ a.self = s) ∧
        (w.useGlobalRefs = true ∨ jo = NULL → a.self.javaObject_ = s.javaObject_)) := by
    by_cases hA : jo ≠ NULL ∧ s.javaObject_ ≠ NULL
    · have he := attach_precondition_fails w s jo hA.1 hA.2
      refine ⟨⟨fun _ => Or.inl hA, fun _ => ⟨_, he⟩⟩, fun a ha => ?_⟩
      rw [he] at ha
      injection ha with ha
      subst ha
      exact ⟨rfl, rfl, fun _ => ⟨rfl, rfl⟩, fun _ => rfl⟩
    · have h : jo = NULL ∨ s.javaObject_ = NULL := by
        by_cases hjo : jo = NULL
        · exact Or.inl hjo
        · exact Or.inr (by_contra fun hj => hA ⟨hjo, hj⟩)
      rw [attach_eq w s jo h]
      rcases newGlobalRef_cases
          ((UPDATE_STATS w 0 (-1)).record (.SetWeak s.addr) |>.record .MarkIndependent)
          { s with
            persistent_ := { weakParameter := some s.addr, independent := true }
            javaObject_ := if jo = NULL then s.javaObject_ else jo }
          (by simpa using henv) with ⟨hm, hj, he⟩ | ⟨hm, hk, he⟩ | ⟨hc, r, he⟩
      · simp only [record_useGlobalRefs, UPDATE_STATS_useGlobalRefs] at hm
        have hjo : jo = NULL := by
          by_contra hjo
          simp only [hjo, if_false] at hj
        have hj2 : s.javaObject_ = NULL := by simpa [hjo] using hj
        refine ⟨⟨fun _ => Or.inr (Or.inl ⟨hm, hjo, hj2⟩), fun _ => ⟨_, he⟩⟩, fun a ha => ?_⟩
        rw [he] at ha
        injection ha with ha
        subst ha
        refine ⟨rfl, rfl, fun hh => ?_, fun _ => ?_⟩
        · cases hh
        · simp [hjo]
      · simp only [record_useGlobalRefs, UPDATE_STATS_useGlobalRefs] at hm
        refine ⟨⟨fun _ => Or.inr (Or.inr ⟨hm, hk⟩), fun _ => ⟨_, he⟩⟩, fun a ha => ?_⟩
        rw [he] at ha
        injection ha with ha
        subst ha
        refine ⟨rfl, rfl, fun hh => ?_, fun hh => ?_⟩
        · cases hh
        · rcases hh with hh | hh
          · rw [hm] at hh; cases hh
          · simp [hh]
      · simp only [record_useGlobalRefs, UPDATE_STATS_useGlobalRefs] at hc
        refine ⟨⟨fun ⟨a, ha⟩ => ?_, fun hR => ?_⟩, fun a ha => ?_⟩
        · rw [he] at ha; cases ha
        · exfalso
          rcases hR with hR | ⟨hm, hjo, hj⟩ | ⟨hm, hk⟩
          · exact hA hR
          · rcases hc with ⟨_, hc⟩ | ⟨hc, _⟩
            · simp [hjo, hj] at hc
            · rw [hm] at hc; cases hc
          · rcases hc with ⟨hc, _⟩ | ⟨_, hc⟩
            · rw [hm] at hc; cases hc
            · exact hk hc
        · rw [he] at ha; cases ha
  refine ⟨main.1, fun hjo hj => attach_precondition_fails w s jo hjo hj, fun hjo hh => ?_,
    main.2⟩
  rcases hh with hj | hh
  · exact main.1.mpr (Or.inl ⟨hjo, hj⟩)
  · exact main.1.mpr (Or.inr (Or.inr hh))

/-- C7 (amended) at a concrete input: a second target for the strong bridge of
`directWorld`. -/
theorem C7_attach_assertions_witness :
    directWorld.envAttached = true ∧
    ((∃ a, attach directWorld directBridge 1 = .error a) ↔
      (((1 : jobject) ≠ NULL ∧ directBridge.javaObject_ ≠ NULL) ∨
       (directWorld.useGlobalRefs = true ∧ (1 : jobject) = NULL ∧
         directBridge.javaObject_ = NULL) ∨
       (directWorld.useGlobalRefs = false ∧ directBridge.refTableKey_ ≠ 0))) ∧
    ((1 : jobject) ≠ NULL → directBridge.javaObject_ ≠ NULL →
      attach directWorld directBridge 1
        = .error ⟨.attachPrecondition, directWorld, directBridge⟩) ∧
    ((1 : jobject) ≠ NULL →
      (directBridge.javaObject_ ≠ NULL ∨
        (directWorld.useGlobalRefs = false ∧ directBridge.refTableKey_ ≠ 0)) →
      ∃ a, attach directWorld directBridge 1 = .error a) ∧
    (∀ a, attach directWorld directBridge 1 = .error a →
      a.self.refTableKey_ = directBridge.refTableKey_ ∧
      a.self.isWeakRef_ = directBridge.isWeakRef_ ∧
      (a.assertion = .attachPrecondition → a.world = directWorld ∧ a.self = directBridge) ∧
      (directWorld.useGlobalRefs = true ∨ (1 : jobject) = NULL →
        a.self.javaObject_ = directBridge.javaObject_)) :=
  ⟨rfl, C7_attach_assertions directWorld directBridge 1 rfl⟩

/-- C7 as stated fails: `attach(NULL)` on a bridge without reference in direct
mode hits `ASSERT(javaObject_ != NULL)` although the argument is null, and
`attach(NULL)` on the strong bridge of `tableWorld` hits
`ASSERT(refTableKey_ == 0)`; and when a non-null target is attached to that
table-mode bridge, `javaObject_` has been overwritten by the time the
assertion of `newGlobalRef` fires. -/
theorem C7_counterexample :
    (∃ a, attach directStart freshBridge NULL = .error a ∧
      a.assertion = .javaObjectNotNull) ∧
    (∃ a, attach tableWorld tableBridge NULL = .error a ∧ a.assertion = .refTableKeyZero) ∧
    (∃ a, attach tableWorld tableBridge 1 = .error a ∧ a.assertion = .refTableKeyZero ∧
      tableBridge.javaObject_ = NULL ∧ a.self.javaObject_ = 1) :=
  ⟨⟨_, rfl, rfl⟩, ⟨_, rfl, rfl⟩, ⟨_, rfl, rfl, rfl, rfl⟩⟩

/-! ## Stale slots (C9) -/

/-- In table mode `deleteGlobalRef` asserts nothing about the bridge: with the
environment attached it always completes. -/
theorem deleteGlobalRef_table (w : World) (s : JavaObject) (hm : w.useGlobalRefs = false)
    (henv : w.envAttached = true) :
    deleteGlobalRef w s =
      .ok (ReferenceTable.destroyReference w s.refTableKey_, { s with refTableKey_ := 0 }) := by
  simp [deleteGlobalRef, ASSERT, henv, hm, bind, Except.bind, pure, Except.pure]

/-- C9. Stale slot in table mode: for a table-mode bridge whose flag
`isWeakRef_` is set and for whose key `ReferenceTable::clearWeakReference`
returns `NULL` (the object of the weak slot was collected), `getJavaObject`
completes without assertion, returns `NULL` and logs the error "Java object
reference has been invalidated." as the last line of the log. -/
theorem C9_stale_slot (w : World) (self : JavaObject)
    (hm : w.useGlobalRefs = false) (hw : self.isWeakRef_ = true)
    (hstale : (ReferenceTable.clearWeakReference w self.refTableKey_).1 = NULL) :
    ∃ w1 s1, getJavaObject w self = .ok (NULL, w1, s1) ∧
      w1.log = (UPDATE_STATS w 0 (-1)).log ++ [.invalidated] ∧
      LogLine.invalidated ∈ w1.log := by
  have h1 : (ReferenceTable.clearWeakReference (UPDATE_STATS w 0 (-1)) self.refTableKey_).1
      = NULL := by
    simpa using hstale
  refine ⟨_, _, by
    simp only [getJavaObject, hm, hw, bind, Except.bind, pure, Except.pure, h1]
    rfl, ?_, ?_⟩
  · simp [SetWeak]
  · simp [SetWeak]

/-- A weak slot whose object was collected is stale: `clearWeakReference`
returns `NULL` for it. -/
theorem clearWeakReference_collected (w : World) (key : Int) (sl : Slot) (T : Nat)
    (hs : w.table.findSlot key = some sl) (ho : sl.obj = some T)
    (hc : T ∈ w.jni.collected) :
    (ReferenceTable.clearWeakReference w key).1 = NULL := by
  simp [ReferenceTable.lookup, hs, ReferenceTable.liveObj, ho, hc, JNIEnv.returnObject]

/-- C9 at the weak bridge of `tableStaleWorld`, whose slot 1 holds the
collected object 7. -/
theorem C9_stale_slot_witness :
    tableStaleWorld.useGlobalRefs = false ∧ tableWeakBridge.isWeakRef_ = true ∧
    (ReferenceTable.clearWeakReference tableStaleWorld tableWeakBridge.refTableKey_).1 = NULL ∧
    ∃ w1 s1, getJavaObject tableStaleWorld tableWeakBridge = .ok (NULL, w1, s1) ∧
      w1.log = (UPDATE_STATS tableStaleWorld 0 (-1)).log ++ [.invalidated] ∧
      LogLine.invalidated ∈ w1.log :=
  ⟨rfl, rfl, by decide, C9_stale_slot tableStaleWorld tableWeakBridge rfl rfl (by decide)⟩

/-! ## Mode exclusivity (C10) -/

@[simp] theorem makeWeakReference_nextKey (w : World) (key : Int) :
    (ReferenceTable.makeWeakReference w key).table.nextKey = w.table.nextKey := rfl
@[simp] theorem clearWeakReference_nextKey (w : World) (key : Int) :
    (ReferenceTable.clearWeakReference w key).2.table.nextKey = w.table.nextKey := rfl
@[simp] theorem destroyReference_nextKey (w : World) (key : Int) :
    (ReferenceTable.destroyReference w key).table.nextKey = w.table.nextKey := rfl
@[simp] theorem destroyReference_useGlobalRefs (w : World) (key : Int) :
    (ReferenceTable.destroyReference w key).useGlobalRefs = w.useGlobalRefs := rfl
@[simp] theorem getReference_table (w : World) (key : Int) :
    (ReferenceTable.getReference w key).2.table = w.table := rfl
@[simp] theorem getReference_useGlobalRefs (w : World) (key : Int) :
    (ReferenceTable.getReference w key).2.useGlobalRefs = w.useGlobalRefs := rfl

/-- A step that changes nothing is framed. -/
theorem framed_refl (w : World) (s : JavaObject) : Framed w s w s :=
  ⟨rfl, le_refl _, fun _ => rfl, fun _ => Or.inr rfl⟩

/-- A completed `newGlobalRef` is framed. -/
theorem newGlobalRef_framed (w : World) (s : JavaObject) (w1 : World) (s1 : JavaObject)
    (h : newGlobalRef w s = .ok (w1, s1)) : Framed w s w1 s1 := by
  unfold Framed
  cases henv : w.envAttached with
  | false => simp [newGlobalRef, ASSERT, henv, bind, Except.bind] at h
  | true =>
    cases hm : w.useGlobalRefs with
    | true =>
      by_cases hj : s.javaObject_ = NULL
      · simp [newGlobalRef, ASSERT, henv, hm, hj, bind, Except.bind] at h
      · cases hw : s.isWeakRef_ <;>
        · simp [newGlobalRef, ASSERT, henv, hm, hj, hw, bind, Except.bind, pure, Except.pure] at h
          obtain ⟨rfl, rfl⟩ := h
          simp [hm]
    | false =>
      by_cases hk : s.refTableKey_ = 0
      · simp [newGlobalRef, ASSERT, henv, hm, hk, bind, Except.bind, pure, Except.pure] at h
        obtain ⟨rfl, rfl⟩ := h
        simp [ReferenceTable.createReference, hm]
      · simp [newGlobalRef, ASSERT, henv, hm, hk, bind, Except.bind] at h

/-- A completed `weakGlobalRef` is framed. -/
theorem weakGlobalRef_framed (w : World) (s : JavaObject) (w1 : World) (s1 : JavaObject)
    (h : weakGlobalRef w s = .ok (w1, s1)) : Framed w s w1 s1 := by
  unfold Framed
  cases henv : w.envAttached with
  | false => simp [weakGlobalRef, ASSERT, henv, bind, Except.bind] at h
  | true =>
    cases hm : w.useGlobalRefs with
    | true =>
      by_cases hj : s.javaObject_ = NULL
      · simp [weakGlobalRef, ASSERT, henv, hm, hj, bind, Except.bind] at h
      · simp [weakGlobalRef, ASSERT, henv, hm, hj, bind, Except.bind, pure, Except.pure] at h
        obtain ⟨rfl, rfl⟩ := h
        simp [hm]
    | false =>
      simp [weakGlobalRef, ASSERT, henv, hm, bind, Except.bind, pure, Except.pure] at h
      obtain ⟨rfl, rfl⟩ := h
      simp [hm]

/-- A completed `deleteGlobalRef` is framed. -/
theorem deleteGlobalRef_framed (w : World) (s : JavaObject) (w1 : World) (s1 : JavaObject)
    (h : deleteGlobalRef w s = .ok (w1, s1)) : Framed w s w1 s1 := by
  unfold Framed
  cases henv : w.envAttached with
  | false => simp [deleteGlobalRef, ASSERT, henv, bind, Except.bind] at h
  | true =>
    cases hm : w.useGlobalRefs with
    | true =>
      by_cases hj : s.javaObject_ = NULL
      · simp [deleteGlobalRef, ASSERT, henv, hm, hj, bind, Except.bind] at h
      · cases hw : s.isWeakRef_ <;>
        · simp [deleteGlobalRef, ASSERT, henv, hm, hj, hw, bind, Except.bind, pure,
            Except.pure] at h
          obtain ⟨rfl, rfl⟩ := h
          simp [hm]
    | false =>
      simp [deleteGlobalRef, ASSERT, henv, hm, bind, Except.bind, pure, Except.pure] at h
      obtain ⟨rfl, rfl⟩ := h
      simp [hm]

/-- A completed `attach` is framed. -/
theorem attach_framed (w : World) (s : JavaObject) (jo : jobject) (w1 : World)
    (s1 : JavaObject) (h : attach w s jo = .ok (w1, s1)) : Framed w s w1 s1 := by
  obtain ⟨w0, s0, hn, hm0, _, ht0, hk0, _, _, _⟩ := attach_inv w s jo w1 s1 h
  obtain ⟨f1, f2, f3, f4⟩ := newGlobalRef_framed w0 s0 w1 s1 hn
  refine ⟨f1.trans hm0, by rw [← ht0]; exact f2, fun hm => ?_, fun hm => ?_⟩
  · rw [f3 (hm0.trans hm), hk0]
  · have hn2 := hn
    cases henv : w0.envAttached with
    | false => simp [newGlobalRef, ASSERT, henv, bind, Except.bind] at hn2
    | true =>
      by_cases hk : s0.refTableKey_ = 0
      · simp [newGlobalRef, ASSERT, henv, hm0.trans hm, hk, bind, Except.bind, pure,
          Except.pure] at hn2
        obtain ⟨_, rfl⟩ := hn2
        exact Or.inl rfl
      · simp [newGlobalRef, ASSERT, henv, hm0.trans hm, hk, bind, Except.bind] at hn2

/-- A completed `detach` is framed. -/
theorem detach_framed (w : World) (s : JavaObject) (w1 : World) (s1 : JavaObject)
    (h : detach w s = .ok (w1, s1)) : Framed w s w1 s1 := by
  rcases detach_inv w s w1 s1 h with ⟨_, he⟩ | ⟨_, hw⟩
  · simp only [SetWeak, Prod.mk.injEq] at he
    obtain ⟨rfl, rfl⟩ := he
    exact ⟨rfl, le_refl _, fun _ => rfl, fun _ => Or.inr rfl⟩
  · have hf := weakGlobalRef_framed _ _ w1 s1 hw
    simpa [Framed, SetWeak] using hf

/-- A completed `getJavaObject` is framed. -/
theorem getJavaObject_framed (w : World) (s : JavaObject) (r : jobject) (w1 : World)
    (s1 : JavaObject) (h : getJavaObject w s = .ok (r, w1, s1)) : Framed w s w1 s1 := by
  cases hm : w.useGlobalRefs with
  | true =>
    by_cases hj : s.javaObject_ = NULL
    · simp [getJavaObject, ASSERT, hm, hj, bind, Except.bind] at h
    · cases hd : s.isDetached with
      | true =>
        cases ha : attach w s NULL with
        | error a => simp [getJavaObject, ASSERT, hm, hj, hd, bind, Except.bind, ha] at h
        | ok v =>
          obtain ⟨v1, v2⟩ := v
          simp [getJavaObject, ASSERT, hm, hj, hd, bind, Except.bind, ha, pure, Except.pure] at h
          obtain ⟨_, rfl, rfl⟩ := h
          exact attach_framed w s NULL _ _ ha
      | false =>
        simp [getJavaObject, ASSERT, hm, hj, hd, bind, Except.bind, pure, Except.pure] at h
        obtain ⟨_, rfl, rfl⟩ := h
        exact framed_refl w s
  | false =>
    cases hw : s.isWeakRef_ with
    | true =>
      simp only [getJavaObject, hm, hw, bind, Except.bind, pure, Except.pure] at h
      simp at h
      obtain ⟨_, rfl, rfl⟩ := h
      simp [Framed, SetWeak, apply_ite World.table, apply_ite World.useGlobalRefs, hm]
    | false =>
      simp [getJavaObject, hm, hw, bind, Except.bind, pure, Except.pure] at h
      obtain ⟨_, rfl, rfl⟩ := h
      simp [Framed, hm]

/-- Every completed step is framed. -/
theorem step_framed (w : World) (s : JavaObject) (op : Op) (r : Ret) (w1 : World)
    (s1 : JavaObject) (h : step w s op = .ok (r, w1, s1)) : Framed w s w1 s1 := by
  cases op with
  | attach jo =>
    cases ha : attach w s jo with
    | error a => simp [step, ha, Except.map] at h
    | ok v =>
      obtain ⟨v1, v2⟩ := v
      simp [step, ha, Except.map] at h
      obtain ⟨_, rfl, rfl⟩ := h
      exact attach_framed w s jo _ _ ha
  | detach =>
    cases ha : detach w s with
    | error a => simp [step, ha, Except.map] at h
    | ok v =>
      obtain ⟨v1, v2⟩ := v
      simp [step, ha, Except.map] at h
      obtain ⟨_, rfl, rfl⟩ := h
      exact detach_framed w s _ _ ha
  | getJavaObject =>
    cases ha : getJavaObject w s with
    | error a => simp [step, ha, Except.map] at h
    | ok v =>
      obtain ⟨v1, v2, v3⟩ := v
      simp [step, ha, Except.map] at h
      obtain ⟨_, rfl, rfl⟩ := h
      exact getJavaObject_framed w s _ _ _ ha
  | deleteGlobalRef =>
    cases ha : deleteGlobalRef w s with
    | error a => simp [step, ha, Except.map] at h
    | ok v =>
      obtain ⟨v1, v2⟩ := v
      simp [step, ha, Except.map] at h
      obtain ⟨_, rfl, rfl⟩ := h
      exact deleteGlobalRef_framed w s _ _ ha
  | isDetached =>
    simp [step] at h
    obtain ⟨_, rfl, rfl⟩ := h
    exact framed_refl w s
  | collect o =>
    simp [step] at h
    obtain ⟨_, rfl, rfl⟩ := h
    simp [Framed]

/-- Exclusivity is carried across a framed step. -/
theorem exclusive_of_framed (w : World) (s : JavaObject) (w1 : World) (s1 : JavaObject)
    (hf : Framed w s w1 s1) (hE : Exclusive w s) : Exclusive w1 s1 := by
  obtain ⟨f1, _, f3, f4⟩ := hf
  cases hm : w.useGlobalRefs with
  | true =>
    simp only [Exclusive, hm, if_true] at hE
    simp only [Exclusive, f1, hm, if_true]
    rw [f3 hm, hE]
  | false =>
    simp only [Exclusive, hm, Bool.false_eq_true, if_false] at hE
    simp only [Exclusive, f1, hm, Bool.false_eq_true, if_false]
    rcases f4 hm with h | h
    · exact h
    · rw [h, hE]

/-- Along any run the mode stays put, the key supply does not go backwards and
exclusivity is kept. -/
theorem run_exclusive (ops : List Op) (w : World) (s : JavaObject) (w1 : World)
    (s1 : JavaObject) (hE : Exclusive w s) (h : run w s ops = .ok (w1, s1)) :
    w1.useGlobalRefs = w.useGlobalRefs ∧ w.table.nextKey ≤ w1.table.nextKey ∧
      Exclusive w1 s1 := by
  induction ops generalizing w s with
  | nil =>
    simp [run] at h
    obtain ⟨rfl, rfl⟩ := h
    exact ⟨rfl, le_refl _, hE⟩
  | cons op ops ih =>
    cases hs : step w s op with
    | error a => simp [run, hs] at h
    | ok v =>
      obtain ⟨r, w2, s2⟩ := v
      simp only [run, hs] at h
      have hf := step_framed w s op r w2 s2 hs
      obtain ⟨i1, i2, i3⟩ := ih w2 s2 (exclusive_of_framed w s w2 s2 hf hE) h
      exact ⟨i1.trans hf.1, le_trans hf.2.1 i2, i3⟩

/-- The constructor is framed with respect to the bridge without reference. -/
theorem ctor_framed (w : World) (addr : Nat) (jo : jobject) (w1 : World) (s1 : JavaObject)
    (h : ctor w addr jo = .ok (w1, s1)) :
    w1.useGlobalRefs = w.useGlobalRefs ∧ w.table.nextKey ≤ w1.table.nextKey ∧
      Exclusive w1 s1 := by
  by_cases hjo : jo = NULL
  · simp [ctor, hjo, pure, Except.pure] at h
    obtain ⟨rfl, rfl⟩ := h
    refine ⟨by simp, by simp, ?_⟩
    unfold Exclusive
    split <;> rfl
  · simp only [ctor, bne_iff_ne, ne_eq, hjo, not_false_eq_true, if_true] at h
    have hf := attach_framed _ _ jo w1 s1 h
    have hE : Exclusive (UPDATE_STATS w 1 1) ⟨addr, ⟨none, false⟩, NULL, 0, false⟩ := by
      unfold Exclusive
      split <;> rfl
    refine ⟨by simpa using hf.1, by simpa using hf.2.1, exclusive_of_framed _ _ w1 s1 hf hE⟩

/-- C10. Mode exclusivity: in every state reachable from construction by
`attach`, `detach`, `getJavaObject`, `deleteGlobalRef`, `isDetached` and
collections by the managed runtime, the mode is the one the process started
with, the bridge never holds both a direct reference and a table key, in
direct mode `refTableKey_` is 0 and in table mode `javaObject_` is `NULL`; so
while the bridge is not Released exactly one of the two is non-empty, the one
of the mode.  If moreover the table never hands out key 0 (its next key is
positive to start with), every `attach` that completes in table mode from such
a state leaves a non-zero key. -/
theorem C10_mode_exclusivity (w0 : World) (addr : Nat) (jo : jobject) (ops : List Op)
    (w : World) (s : JavaObject) (hr : runFrom w0 addr jo ops = .ok (w, s)) :
    w.useGlobalRefs = w0.useGlobalRefs ∧
    ¬(s.javaObject_ ≠ NULL ∧ s.refTableKey_ ≠ 0) ∧
    (w.useGlobalRefs = true → s.refTableKey_ = 0) ∧
    (w.useGlobalRefs = false → s.javaObject_ = NULL) ∧
    (strength w s ≠ some .Released →
      (w.useGlobalRefs = true → s.javaObject_ ≠ NULL ∧ s.refTableKey_ = 0) ∧
      (w.useGlobalRefs = false → s.refTableKey_ ≠ 0 ∧ s.javaObject_ = NULL)) ∧
    (0 < w0.table.nextKey → w.useGlobalRefs = false →
      ∀ h w1 s1, attach w s h = .ok (w1, s1) →
        s1.refTableKey_ ≠ 0 ∧ s1.javaObject_ = NULL) := by
  have key : w.useGlobalRefs = w0.useGlobalRefs ∧ w0.table.nextKey ≤ w.table.nextKey ∧
      Exclusive w s := by
    unfold runFrom at hr
    cases hc : ctor w0 addr jo with
    | error a => simp [hc] at hr
    | ok v =>
      simp only [hc] at hr
      obtain ⟨c1, c2, c3⟩ := ctor_framed w0 addr jo v.1 v.2 hc
      obtain ⟨r1, r2, r3⟩ := run_exclusive ops v.1 v.2 w s c3 hr
      exact ⟨r1.trans c1, le_trans c2 r2, r3⟩
  obtain ⟨hmode, hkey, hE⟩ := key
  have hdir : w.useGlobalRefs = true → s.refTableKey_ = 0 := fun hm => by
    simpa [Exclusive, hm] using hE
  have htab : w.useGlobalRefs = false → s.javaObject_ = NULL := fun hm => by
    simpa [Exclusive, hm] using hE
  refine ⟨hmode, ?_, hdir, htab, fun hrel => ⟨fun hm => ⟨?_, hdir hm⟩,
    fun hm => ⟨?_, htab hm⟩⟩, fun hpos hm h w1 s1 ha => ?_⟩
  · rintro ⟨hj, hk⟩
    cases hm : w.useGlobalRefs with
    | true => exact hk (hdir hm)
    | false => exact hj (htab hm)
  · intro hj
    exact hrel (by simp [strength, hj, hdir hm])
  · intro hk
    exact hrel (by simp [strength, hk, htab hm])
  · obtain ⟨v0, t0, hn, hm0, _, ht0, _, _, _, _⟩ := attach_inv w s h w1 s1 ha
    obtain ⟨_, _, hj1, _, hk1, _, _⟩ := newGlobalRef_table_inv v0 t0 w1 s1 (hm0.trans hm) hn
    refine ⟨?_, hj1⟩
    rw [hk1, ht0]
    omega

/-- C10 at concrete runs, one in each mode, that release the bridge in the
middle and attach it again. -/
theorem C10_mode_exclusivity_witness :
    (∃ w s,
      runFrom tableStart 100 1 [.detach, .getJavaObject, .deleteGlobalRef, .attach 1, .detach]
        = .ok (w, s) ∧
      w.useGlobalRefs = tableStart.useGlobalRefs ∧
      ¬(s.javaObject_ ≠ NULL ∧ s.refTableKey_ ≠ 0) ∧
      (w.useGlobalRefs = true → s.refTableKey_ = 0) ∧
      (w.useGlobalRefs = false → s.javaObject_ = NULL) ∧
      (strength w s ≠ some .Released →
        (w.useGlobalRefs = true → s.javaObject_ ≠ NULL ∧ s.refTableKey_ = 0) ∧
        (w.useGlobalRefs = false → s.refTableKey_ ≠ 0 ∧ s.javaObject_ = NULL)) ∧
      (0 < tableStart.table.nextKey → w.useGlobalRefs = false →
        ∀ h w1 s1, attach w s h = .ok (w1, s1) →
          s1.refTableKey_ ≠ 0 ∧ s1.javaObject_ = NULL)) ∧
    (∃ w s,
      runFrom directStart 100 1 [.detach, .getJavaObject, .deleteGlobalRef, .attach 1, .detach]
        = .ok (w, s) ∧
      w.useGlobalRefs = directStart.useGlobalRefs ∧
      ¬(s.javaObject_ ≠ NULL ∧ s.refTableKey_ ≠ 0) ∧
      (w.useGlobalRefs = true → s.refTableKey_ = 0) ∧
      (w.useGlobalRefs = false → s.javaObject_ = NULL) ∧
      (strength w s ≠ some .Released →
        (w.useGlobalRefs = true → s.javaObject_ ≠ NULL ∧ s.refTableKey_ = 0) ∧
        (w.useGlobalRefs = false → s.refTableKey_ ≠ 0 ∧ s.javaObject_ = NULL)) ∧
      (0 < directStart.table.nextKey → w.useGlobalRefs = false →
        ∀ h w1 s1, attach w s h = .ok (w1, s1) →
          s1.refTableKey_ ≠ 0 ∧ s1.javaObject_ = NULL)) :=
  ⟨⟨_, _, rfl, C10_mode_exclusivity tableStart 100 1
      [.detach, .getJavaObject, .deleteGlobalRef, .attach 1, .detach] _ _ rfl⟩,
   ⟨_, _, rfl, C10_mode_exclusivity directStart 100 1
      [.detach, .getJavaObject, .deleteGlobalRef, .attach 1, .detach] _ _ rfl⟩⟩

/-! ## Release (C11) -/

@[simp] theorem destroyReference_jni (w : World) (key : Int) :
    (ReferenceTable.destroyReference w key).jni = w.jni := rfl
@[simp] theorem destroyReference_calls (w : World) (key : Int) :
    (ReferenceTable.destroyReference w key).calls = w.calls ++ [.destroyReference key] := rfl
@[simp] theorem DeleteGlobalRef_calls (w : World) (h : jobject) :
    (DeleteGlobalRef w h).calls = w.calls ++ [.DeleteGlobalRef h] := rfl
@[simp] theorem DeleteWeakGlobalRef_calls (w : World) (h : jobject) :
    (DeleteWeakGlobalRef w h).calls = w.calls ++ [.DeleteWeakGlobalRef h] := rfl

/-- After `destroyReference` no slot is stored under the key. -/
theorem findSlot_destroyReference (w : World) (key : Int) :
    (ReferenceTable.destroyReference w key).table.findSlot key = none := by
  simp [ReferenceTable.destroyReference, ReferenceTable.findSlot, List.find?_eq_none]

/-- After `DeleteGlobalRef` no global reference has the deleted value. -/
theorem refs_DeleteGlobalRef (w : World) (h : jobject) (r : JRef)
    (hr : r ∈ (DeleteGlobalRef w h).jni.refs) : ¬(r.handle = h ∧ r.kind = .globalRef) := by
  simp [DeleteGlobalRef, JNIEnv.dropRef, List.mem_filter] at hr
  intro ⟨h1, h2⟩
  rcases hr.2 with h | h
  · exact h h1
  · exact h h2

/-- After `DeleteWeakGlobalRef` no weak global reference has the deleted value. -/
theorem refs_DeleteWeakGlobalRef (w : World) (h : jobject) (r : JRef)
    (hr : r ∈ (DeleteWeakGlobalRef w h).jni.refs) :
    ¬(r.handle = h ∧ r.kind = .weakGlobalRef) := by
  simp [DeleteWeakGlobalRef, JNIEnv.dropRef, List.mem_filter] at hr
  intro ⟨h1, h2⟩
  rcases hr.2 with h | h
  · exact h h1
  · exact h h2

/-- C11. Release deletes the reference that is held and ends in Released.  For
a bridge that holds a reference, Strong or Weak, in a state that respects mode
exclusivity and with the JNI environment attached, `deleteGlobalRef` completes.
In direct mode the one call it makes is `DeleteWeakGlobalRef(javaObject_)` when
the bridge is Weak and `DeleteGlobalRef(javaObject_)` when it is Strong, after
which no reference of that kind and value is left; in table mode the one call
is `destroyReference(refTableKey_)`, after which the table has no slot under
that key.  In both modes `javaObject_` is `NULL` and `refTableKey_` is 0
afterwards, so the bridge is Released and `isDetached` is true. -/
theorem C11_release (w : World) (s : JavaObject)
    (henv : w.envAttached = true) (hE : Exclusive w s)
    (hS : (s.isWeakRef_ = false ∧ strength w s = some .Strong) ∨
          (s.isWeakRef_ = true ∧ strength w s = some .Weak)) :
    ∃ w1 s1, deleteGlobalRef w s = .ok (w1, s1) ∧
      s1.javaObject_ = NULL ∧ s1.refTableKey_ = 0 ∧ s1.isDetached = true ∧
      strength w1 s1 = some .Released ∧
      (w.useGlobalRefs = true →
        (strength w s = some .Weak →
          w1.calls = w.calls ++ [.DeleteWeakGlobalRef s.javaObject_] ∧
          ∀ r ∈ w1.jni.refs, ¬(r.handle = s.javaObject_ ∧ r.kind = .weakGlobalRef)) ∧
        (strength w s = some .Strong →
          w1.calls = w.calls ++ [.DeleteGlobalRef s.javaObject_] ∧
          ∀ r ∈ w1.jni.refs, ¬(r.handle = s.javaObject_ ∧ r.kind = .globalRef))) ∧
      (w.useGlobalRefs = false →
        w1.calls = w.calls ++ [.destroyReference s.refTableKey_] ∧
        w1.table.findSlot s.refTableKey_ = none) := by
  cases hm : w.useGlobalRefs with
  | true =>
    have hk : s.refTableKey_ = 0 := by simpa [Exclusive, hm] using hE
    have hj : s.javaObject_ ≠ NULL := by
      intro hj
      rcases hS with ⟨_, h⟩ | ⟨_, h⟩ <;> simp [strength, hj, hk] at h
    rcases hS with ⟨hw, hst⟩ | ⟨hw, hst⟩
    · refine ⟨DeleteGlobalRef w s.javaObject_, { s with javaObject_ := NULL }, ?_, rfl, hk,
        by simp [isDetached, hk], by simp [strength, hk], fun _ => ⟨fun h => ?_, fun _ => ?_⟩,
        fun h => by cases h⟩
      · simp [deleteGlobalRef, ASSERT, henv, hm, hj, hw, bind, Except.bind, pure, Except.pure]
      · rw [hst] at h; cases h
      · exact ⟨rfl, fun r hr => refs_DeleteGlobalRef w s.javaObject_ r hr⟩
    · refine ⟨DeleteWeakGlobalRef w s.javaObject_, { s with javaObject_ := NULL }, ?_, rfl, hk,
        by simp [isDetached, hk], by simp [strength, hk], fun _ => ⟨fun _ => ?_, fun h => ?_⟩,
        fun h => by cases h⟩
      · simp [deleteGlobalRef, ASSERT, henv, hm, hj, hw, bind, Except.bind, pure, Except.pure]
      · exact ⟨rfl, fun r hr => refs_DeleteWeakGlobalRef w s.javaObject_ r hr⟩
      · rw [hst] at h; cases h
  | false =>
    have hj : s.javaObject_ = NULL := by simpa [Exclusive, hm] using hE
    refine ⟨ReferenceTable.destroyReference w s.refTableKey_, { s with refTableKey_ := 0 },
      deleteGlobalRef_table w s hm henv, hj, rfl, by simp [isDetached, hj],
      by simp [strength, hj], (fun h => by cases h), fun _ => ⟨rfl, ?_⟩⟩
    exact findSlot_destroyReference w s.refTableKey_

/-- C11 at the strong and weak bridges of the example worlds, in both modes. -/
theorem C11_release_witness :
    (Exclusive directWorld directBridge ∧
      ∃ w1 s1, deleteGlobalRef directWorld directBridge = .ok (w1, s1) ∧
        s1.javaObject_ = NULL ∧ s1.refTableKey_ = 0 ∧ s1.isDetached = true ∧
        w1.calls = directWorld.calls ++ [.DeleteGlobalRef 2]) ∧
    (Exclusive directWeakWorld directWeakBridge ∧
      ∃ w1 s1, deleteGlobalRef directWeakWorld directWeakBridge = .ok (w1, s1) ∧
        s1.javaObject_ = NULL ∧ s1.refTableKey_ = 0 ∧ s1.isDetached = true ∧
        w1.calls = directWeakWorld.calls ++ [.DeleteWeakGlobalRef 3]) ∧
    (Exclusive tableWeakWorld tableWeakBridge ∧
      ∃ w1 s1, deleteGlobalRef tableWeakWorld tableWeakBridge = .ok (w1, s1) ∧
        s1.javaObject_ = NULL ∧ s1.refTableKey_ = 0 ∧ s1.isDetached = true ∧
        w1.calls = tableWeakWorld.calls ++ [.destroyReference 1] ∧
        w1.table.findSlot 1 = none) := by
  refine ⟨⟨by simp [Exclusive, directWorld, directBridge], ?_⟩,
    ⟨by simp [Exclusive, directWeakWorld, directWeakBridge], ?_⟩,
    ⟨by simp [Exclusive, tableWeakWorld, tableWeakBridge], ?_⟩⟩
  · obtain ⟨w1, s1, h1, h2, h3, h4, _, h6, _⟩ :=
      C11_release directWorld directBridge rfl (by simp [Exclusive, directWorld, directBridge])
        (Or.inl (by decide))
    exact ⟨w1, s1, h1, h2, h3, h4, ((h6 rfl).2 (by decide)).1⟩
  · obtain ⟨w1, s1, h1, h2, h3, h4, _, h6, _⟩ :=
      C11_release directWeakWorld directWeakBridge rfl
        (by simp [Exclusive, directWeakWorld, directWeakBridge]) (Or.inr (by decide))
    exact ⟨w1, s1, h1, h2, h3, h4, ((h6 rfl).1 (by decide)).1⟩
  · obtain ⟨w1, s1, h1, h2, h3, h4, _, _, h7⟩ :=
      C11_release tableWeakWorld tableWeakBridge rfl
        (by simp [Exclusive, tableWeakWorld, tableWeakBridge]) (Or.inr (by decide))
    exact ⟨w1, s1, h1, h2, h3, h4, (h7 rfl).1, (h7 rfl).2⟩

/-! ## Weakening in place (C13) and the stale re-attach (C14) -/

@[simp] theorem makeWeakReference_calls (w : World) (key : Int) :
    (ReferenceTable.makeWeakReference w key).calls = w.calls ++ [.makeWeakReference key] := rfl
@[simp] theorem clearWeakReference_calls (w : World) (key : Int) :
    (ReferenceTable.clearWeakReference w key).2.calls =
      w.calls ++ [.clearWeakReference key (ReferenceTable.clearWeakReference w key).1] := rfl
@[simp] theorem getReference_calls (w : World) (key : Int) :
    (ReferenceTable.getReference w key).2.calls =
      w.calls ++ [.getReference key (ReferenceTable.getReference w key).1] := rfl
@[simp] theorem getReference_log (w : World) (key : Int) :
    (ReferenceTable.getReference w key).2.log = w.log := rfl

/-- `getJavaObject` in table mode on a bridge whose flag `isWeakRef_` is set. -/
theorem getJavaObject_table_weak (w : World) (s : JavaObject) (hm : w.useGlobalRefs = false)
    (hw : s.isWeakRef_ = true) :
    getJavaObject w s = .ok
      ((ReferenceTable.clearWeakReference (UPDATE_STATS w 0 (-1)) s.refTableKey_).1,
       ((if (ReferenceTable.clearWeakReference (UPDATE_STATS w 0 (-1)) s.refTableKey_).1 == NULL
          then LOGE (ReferenceTable.clearWeakReference (UPDATE_STATS w 0 (-1)) s.refTableKey_).2
            .invalidated
          else (ReferenceTable.clearWeakReference (UPDATE_STATS w 0 (-1)) s.refTableKey_).2).record
          (.SetWeak s.addr)),
       { s with
         isWeakRef_ := false
         persistent_ := { s.persistent_ with weakParameter := some s.addr } }) := by
  simp only [getJavaObject, hm, hw, bind, Except.bind, pure, Except.pure, SetWeak]
  rfl

/-- `getJavaObject` in table mode on a bridge whose flag `isWeakRef_` is clear. -/
theorem getJavaObject_table_strong (w : World) (s : JavaObject) (hm : w.useGlobalRefs = false)
    (hw : s.isWeakRef_ = false) :
    getJavaObject w s = .ok
      ((ReferenceTable.getReference w s.refTableKey_).1,
       (ReferenceTable.getReference w s.refTableKey_).2, s) := by
  simp only [getJavaObject, hm, hw, bind, Except.bind, pure, Except.pure]
  rfl

/-- In table mode `getJavaObject` always completes, leaves `refTableKey_` and
`javaObject_` alone and neither allocates nor destroys a slot. -/
theorem getJavaObject_table_key (w : World) (s : JavaObject) (hm : w.useGlobalRefs = false) :
    ∃ r w1 s1, getJavaObject w s = .ok (r, w1, s1) ∧ s1.refTableKey_ = s.refTableKey_ ∧
      s1.javaObject_ = s.javaObject_ ∧ w1.table.nextKey = w.table.nextKey ∧
      w1.table.slots.map (fun sl => sl.key) = w.table.slots.map (fun sl => sl.key) := by
  cases hw : s.isWeakRef_ with
  | true =>
    refine ⟨_, _, _, getJavaObject_table_weak w s hm hw, rfl, rfl, ?_, ?_⟩
    · simp [apply_ite World.table]
    · simp only [record_table, apply_ite World.table, LOGE_table, ite_self]
      simp only [ReferenceTable.clearWeakReference, record_table, List.map_map,
        UPDATE_STATS_table]
      apply List.map_congr_left
      intro sl _
      simp only [Function.comp]
      split <;> rfl
  | false =>
    exact ⟨_, _, _, getJavaObject_table_strong w s hm hw, rfl, rfl, rfl, rfl⟩

/-- What a slot designates after `clearWeakReference` on its key is what it
designated before. -/
theorem lookup_clearWeakReference (w : World) (key : Int) :
    (ReferenceTable.clearWeakReference w key).2.table.lookup w.jni key =
      w.table.lookup w.jni key := by
  unfold ReferenceTable.lookup
  rw [findSlot_clearWeakReference]
  cases hf : w.table.findSlot key with
  | none => rfl
  | some sl =>
    have hkey := findSlot_key _ _ _ hf
    simp only [Option.map_some', hkey, beq_self_eq_true, if_true]
    unfold ReferenceTable.liveObj
    cases ho : sl.obj with
    | none => rfl
    | some o =>
      simp only
      by_cases hc : o ∈ w.jni.collected <;> simp [hc]

/-- C14. After a stale re-attach the bridge reads as attached.  For a
table-mode bridge that is Weak (flag set, key of a weak slot) and for whose key
`clearWeakReference` returns `NULL` because the object was collected,
`getJavaObject` returns `NULL`, sets `isWeakRef_` to false and keeps
`refTableKey_`, so `isDetached` is false afterwards; the next `getJavaObject`
takes the `ReferenceTable::getReference` path: its one call is
`getReference(refTableKey_)`, it logs nothing, changes no field of the bridge,
and returns `NULL` again. -/
theorem C14_stale_reattach (w : World) (s : JavaObject)
    (hm : w.useGlobalRefs = false) (hw : s.isWeakRef_ = true)
    (hS : strength w s = some .Weak)
    (hstale : (ReferenceTable.clearWeakReference w s.refTableKey_).1 = NULL) :
    ∃ w1 s1, getJavaObject w s = .ok (NULL, w1, s1) ∧
      s1.isWeakRef_ = false ∧ s1.refTableKey_ = s.refTableKey_ ∧ s1.isDetached = false ∧
      ∃ w2, getJavaObject w1 s1 = .ok (NULL, w2, s1) ∧
        w2.calls = w1.calls ++ [.getReference s.refTableKey_ NULL] ∧
        w2.log = w1.log := by
  have hk : s.refTableKey_ ≠ 0 := by
    intro hk
    by_cases hj : s.javaObject_ = NULL <;> simp [strength, hj, hk, hm] at hS
  have h1 : (ReferenceTable.clearWeakReference (UPDATE_STATS w 0 (-1)) s.refTableKey_).1
      = NULL := by
    simpa using hstale
  have hl : w.table.lookup w.jni s.refTableKey_ = none := by
    simp only [clearWeakReference_result] at hstale
    cases hlk : w.table.lookup w.jni s.refTableKey_ with
    | none => rfl
    | some o => simp [hlk, JNIEnv.returnObject, JNIEnv.newRef] at hstale
  have hg := getJavaObject_table_weak w s hm hw
  rw [h1] at hg
  simp only [beq_self_eq_true, if_true] at hg
  refine ⟨_, _, hg, rfl, rfl, by simp [isDetached, hk], ?_⟩
  have hg2 := getJavaObject_table_strong
    ((LOGE (ReferenceTable.clearWeakReference (UPDATE_STATS w 0 (-1)) s.refTableKey_).2
      .invalidated).record (.SetWeak s.addr))
    { s with
      isWeakRef_ := false
      persistent_ := { s.persistent_ with weakParameter := some s.addr } }
    (by simp [hm]) rfl
  have hr : (ReferenceTable.getReference
      ((LOGE (ReferenceTable.clearWeakReference (UPDATE_STATS w 0 (-1)) s.refTableKey_).2
        .invalidated).record (.SetWeak s.addr)) s.refTableKey_).1 = NULL := by
    simp only [ReferenceTable.getReference, record_table, LOGE_table, record_jni, LOGE_jni,
      clearWeakReference_jni, UPDATE_STATS_jni, UPDATE_STATS_table, hl, JNIEnv.returnObject]
    have := lookup_clearWeakReference (UPDATE_STATS w 0 (-1)) s.refTableKey_
    simp only [UPDATE_STATS_jni, UPDATE_STATS_table] at this
    rw [this, hl]
  dsimp only at hg2
  rw [hr] at hg2
  refine ⟨_, hg2, ?_, rfl⟩
  rw [getReference_calls, hr]

/-- C14 at the weak bridge of `tableStaleWorld`, whose slot 1 holds the
collected object 7. -/
theorem C14_stale_reattach_witness :
    tableStaleWorld.useGlobalRefs = false ∧ tableWeakBridge.isWeakRef_ = true ∧
    strength tableStaleWorld tableWeakBridge = some .Weak ∧
    (ReferenceTable.clearWeakReference tableStaleWorld tableWeakBridge.refTableKey_).1 = NULL ∧
    ∃ w1 s1, getJavaObject tableStaleWorld tableWeakBridge = .ok (NULL, w1, s1) ∧
      s1.isWeakRef_ = false ∧ s1.refTableKey_ = tableWeakBridge.refTableKey_ ∧
      s1.isDetached = false ∧
      ∃ w2, getJavaObject w1 s1 = .ok (NULL, w2, s1) ∧
        w2.calls = w1.calls ++ [.getReference tableWeakBridge.refTableKey_ NULL] ∧
        w2.log = w1.log :=
  ⟨rfl, rfl, by decide, by decide,
   C14_stale_reattach tableStaleWorld tableWeakBridge rfl rfl (by decide) (by decide)⟩

/-! ## What the completed methods did, spelled out -/

@[simp] theorem NewGlobalRef_calls (w : World) (h : jobject) :
    (NewGlobalRef w h).2.calls = w.calls ++ [.NewGlobalRef h (NewGlobalRef w h).1] := rfl
@[simp] theorem NewWeakGlobalRef_calls (w : World) (h : jobject) :
    (NewWeakGlobalRef w h).2.calls = w.calls ++ [.NewWeakGlobalRef h (NewWeakGlobalRef w h).1] :=
  rfl
@[simp] theorem createReference_calls (w : World) (h : jobject) :
    (ReferenceTable.createReference w h).2.calls =
      w.calls ++ [.createReference h (ReferenceTable.createReference w h).1] := rfl
@[simp] theorem createReference_jni (w : World) (h : jobject) :
    (ReferenceTable.createReference w h).2.jni = w.jni := rfl
@[simp] theorem createReference_envAttached (w : World) (h : jobject) :
    (ReferenceTable.createReference w h).2.envAttached = w.envAttached := rfl
@[simp] theorem createReference_useGlobalRefs (w : World) (h : jobject) :
    (ReferenceTable.createReference w h).2.useGlobalRefs = w.useGlobalRefs := rfl
@[simp] theorem destroyReference_envAttached (w : World) (key : Int) :
    (ReferenceTable.destroyReference w key).envAttached = w.envAttached := rfl
@[simp] theorem getReference_envAttached (w : World) (key : Int) :
    (ReferenceTable.getReference w key).2.envAttached = w.envAttached := rfl

/-- A completed `newGlobalRef`: the environment was attached and, in direct
mode, `javaObject_` was not `NULL` and was replaced by a new global reference,
the old one deleted as a weak reference if `isWeakRef_` was set; in table mode
the key was 0 and a slot was created. -/
theorem newGlobalRef_ok (w : World) (s : JavaObject) (w1 : World) (s1 : JavaObject)
    (h : newGlobalRef w s = .ok (w1, s1)) :
    w.envAttached = true ∧
    ((w.useGlobalRefs = true ∧ s.javaObject_ ≠ NULL ∧
      w1 = (if s.isWeakRef_ then DeleteWeakGlobalRef (NewGlobalRef w s.javaObject_).2 s.javaObject_
            else (NewGlobalRef w s.javaObject_).2) ∧
      s1 = ⟨s.addr, s.persistent_, (NewGlobalRef w s.javaObject_).1, s.refTableKey_, false⟩) ∨
     (w.useGlobalRefs = false ∧ s.refTableKey_ = 0 ∧
      w1 = (ReferenceTable.createReference w s.javaObject_).2 ∧
      s1 = ⟨s.addr, s.persistent_, NULL, w.table.nextKey, s.isWeakRef_⟩)) := by
  cases henv : w.envAttached with
  | false => simp [newGlobalRef, ASSERT, henv, bind, Except.bind] at h
  | true =>
    refine ⟨rfl, ?_⟩
    cases hm : w.useGlobalRefs with
    | true =>
      by_cases hj : s.javaObject_ = NULL
      · simp [newGlobalRef, ASSERT, henv, hm, hj, bind, Except.bind] at h
      · cases hw : s.isWeakRef_ <;>
        · simp [newGlobalRef, ASSERT, henv, hm, hj, hw, bind, Except.bind, pure, Except.pure] at h
          obtain ⟨rfl, rfl⟩ := h
          exact Or.inl ⟨rfl, hj, by simp, by simp [hw]⟩
    | false =>
      by_cases hk : s.refTableKey_ = 0
      · simp [newGlobalRef, ASSERT, henv, hm, hk, bind, Except.bind, pure, Except.pure] at h
        obtain ⟨rfl, rfl⟩ := h
        exact Or.inr ⟨rfl, hk, rfl, rfl⟩
      · simp [newGlobalRef, ASSERT, henv, hm, hk, bind, Except.bind] at h

/-- A completed `weakGlobalRef`: the environment was attached and, in direct
mode, `javaObject_` was not `NULL` and was replaced by a new weak global
reference, the old one deleted as a global reference; in table mode the slot
was marked weak. -/
theorem weakGlobalRef_ok (w : World) (s : JavaObject) (w1 : World) (s1 : JavaObject)
    (h : weakGlobalRef w s = .ok (w1, s1)) :
    w.envAttached = true ∧
    ((w.useGlobalRefs = true ∧ s.javaObject_ ≠ NULL ∧
      w1 = DeleteGlobalRef (NewWeakGlobalRef w s.javaObject_).2 s.javaObject_ ∧
      s1 = ⟨s.addr, s.persistent_, (NewWeakGlobalRef w s.javaObject_).1, s.refTableKey_, true⟩) ∨
     (w.useGlobalRefs = false ∧
      w1 = ReferenceTable.makeWeakReference w s.refTableKey_ ∧
      s1 = ⟨s.addr, s.persistent_, s.javaObject_, s.refTableKey_, true⟩)) := by
  cases henv : w.envAttached with
  | false => simp [weakGlobalRef, ASSERT, henv, bind, Except.bind] at h
  | true =>
    refine ⟨rfl, ?_⟩
    cases hm : w.useGlobalRefs with
    | true =>
      by_cases hj : s.javaObject_ = NULL
      · simp [weakGlobalRef, ASSERT, henv, hm, hj, bind, Except.bind] at h
      · simp [weakGlobalRef, ASSERT, henv, hm, hj, bind, Except.bind, pure, Except.pure] at h
        obtain ⟨rfl, rfl⟩ := h
        exact Or.inl ⟨rfl, hj, rfl, rfl⟩
    | false =>
      simp [weakGlobalRef, ASSERT, henv, hm, bind, Except.bind, pure, Except.pure] at h
      obtain ⟨rfl, rfl⟩ := h
      exact Or.inr ⟨rfl, rfl, rfl⟩

/-- A completed `deleteGlobalRef`: the environment was attached and, in direct
mode, `javaObject_` was not `NULL` and was deleted according to `isWeakRef_`;
in table mode the slot was destroyed. -/
theorem deleteGlobalRef_ok (w : World) (s : JavaObject) (w1 : World) (s1 : JavaObject)
    (h : deleteGlobalRef w s = .ok (w1, s1)) :
    w.envAttached = true ∧
    ((w.useGlobalRefs = true ∧ s.javaObject_ ≠ NULL ∧
      w1 = (if s.isWeakRef_ then DeleteWeakGlobalRef w s.javaObject_
            else DeleteGlobalRef w s.javaObject_) ∧
      s1 = ⟨s.addr, s.persistent_, NULL, s.refTableKey_, s.isWeakRef_⟩) ∨
     (w.useGlobalRefs = false ∧
      w1 = ReferenceTable.destroyReference w s.refTableKey_ ∧
      s1 = ⟨s.addr, s.persistent_, s.javaObject_, 0, s.isWeakRef_⟩)) := by
  cases henv : w.envAttached with
  | false => simp [deleteGlobalRef, ASSERT, henv, bind, Except.bind] at h
  | true =>
    refine ⟨rfl, ?_⟩
    cases hm : w.useGlobalRefs with
    | true =>
      by_cases hj : s.javaObject_ = NULL
      · simp [deleteGlobalRef, ASSERT, henv, hm, hj, bind, Except.bind] at h
      · cases hw : s.isWeakRef_ <;>
        · simp [deleteGlobalRef, ASSERT, henv, hm, hj, hw, bind, Except.bind, pure,
            Except.pure] at h
          obtain ⟨rfl, rfl⟩ := h
          exact Or.inl ⟨rfl, hj, by simp, rfl⟩
    | false =>
      simp [deleteGlobalRef, ASSERT, henv, hm, bind, Except.bind, pure, Except.pure] at h
      obtain ⟨rfl, rfl⟩ := h
      exact Or.inr ⟨rfl, rfl, rfl⟩

/-- The world and the bridge that `attach` hands to `newGlobalRef`. -/
theorem attach_ok (w : World) (s : JavaObject) (jo : jobject) (w1 : World) (s1 : JavaObject)
    (h : attach w s jo = .ok (w1, s1)) :
    (jo = NULL ∨ s.javaObject_ = NULL) ∧
    newGlobalRef (((UPDATE_STATS w 0 (-1)).record (.SetWeak s.addr)).record .MarkIndependent)
      ⟨s.addr, ⟨some s.addr, true⟩, if jo = NULL then s.javaObject_ else jo, s.refTableKey_,
        s.isWeakRef_⟩ = .ok (w1, s1) := by
  have hp : jo = NULL ∨ s.javaObject_ = NULL := by
    by_cases hjo : jo = NULL
    · exact Or.inl hjo
    · by_cases hj : s.javaObject_ = NULL
      · exact Or.inr hj
      · rw [attach_precondition_fails w s jo hjo hj] at h
        cases h
  refine ⟨hp, ?_⟩
  rw [attach_eq w s jo hp] at h
  exact h

/-- A completed `getJavaObject` in direct mode: `javaObject_` was not `NULL`,
and either the bridge was detached and `attach(NULL)` completed, or nothing
changed. -/
theorem getJavaObject_direct_ok (w : World) (s : JavaObject) (r : jobject) (w1 : World)
    (s1 : JavaObject) (hm : w.useGlobalRefs = true)
    (h : getJavaObject w s = .ok (r, w1, s1)) :
    s.javaObject_ ≠ NULL ∧ r = s1.javaObject_ ∧
    ((s.isDetached = true ∧ attach w s NULL = .ok (w1, s1)) ∨
     (s.isDetached = false ∧ w1 = w ∧ s1 = s)) := by
  by_cases hj : s.javaObject_ = NULL
  · simp [getJavaObject, ASSERT, hm, hj, bind, Except.bind] at h
  · cases hd : s.isDetached with
    | true =>
      cases ha : attach w s NULL with
      | error a => simp [getJavaObject, ASSERT, hm, hj, hd, bind, Except.bind, ha] at h
      | ok v =>
        obtain ⟨v1, v2⟩ := v
        simp [getJavaObject, ASSERT, hm, hj, hd, bind, Except.bind, ha, pure, Except.pure] at h
        obtain ⟨rfl, rfl, rfl⟩ := h
        exact ⟨hj, rfl, Or.inl ⟨rfl, rfl⟩⟩
    | false =>
      simp [getJavaObject, ASSERT, hm, hj, hd, bind, Except.bind, pure, Except.pure] at h
      obtain ⟨rfl, rfl, rfl⟩ := h
      exact ⟨hj, rfl, Or.inr ⟨rfl, rfl, rfl⟩⟩

/-! ## The registration of the weak notification (C15) -/

/-- A completed `attach` called `SetWeak` first and leaves the notification
registered. -/
theorem attach_registers (w : World) (s : JavaObject) (jo : jobject) (w1 : World)
    (s1 : JavaObject) (h : attach w s jo = .ok (w1, s1)) :
    s1.addr = s.addr ∧ Registered s1 ∧
      ∃ rest, w1.calls = w.calls ++ EnvCall.SetWeak s.addr :: rest := by
  obtain ⟨_, hn⟩ := attach_ok w s jo w1 s1 h
  obtain ⟨_, ⟨_, _, hw1, rfl⟩ | ⟨_, _, rfl, rfl⟩⟩ := newGlobalRef_ok _ _ w1 s1 hn
  · refine ⟨rfl, rfl, ?_⟩
    dsimp only at hw1
    cases hw : s.isWeakRef_
    · rw [hw] at hw1
      simp only [Bool.false_eq_true, if_false] at hw1
      exact ⟨_, by rw [hw1]; simp; rfl⟩
    · rw [hw] at hw1
      simp only [if_true] at hw1
      exact ⟨_, by rw [hw1]; simp; rfl⟩
  · exact ⟨rfl, rfl, _, by simp; rfl⟩

/-- A completed `detach` called `SetWeak` first and leaves the notification
registered. -/
theorem detach_registers (w : World) (s : JavaObject) (w1 : World) (s1 : JavaObject)
    (h : detach w s = .ok (w1, s1)) :
    s1.addr = s.addr ∧ Registered s1 ∧
      ∃ rest, w1.calls = w.calls ++ EnvCall.SetWeak s.addr :: rest := by
  rcases detach_inv w s w1 s1 h with ⟨_, he⟩ | ⟨_, hw⟩
  · simp only [SetWeak, Prod.mk.injEq] at he
    obtain ⟨rfl, rfl⟩ := he
    exact ⟨rfl, rfl, [], by simp⟩
  · obtain ⟨_, ⟨_, _, rfl, rfl⟩ | ⟨_, rfl, rfl⟩⟩ := weakGlobalRef_ok _ _ w1 s1 hw
    · exact ⟨rfl, rfl, _, by simp [SetWeak]; rfl⟩
    · exact ⟨rfl, rfl, _, by simp [SetWeak]; rfl⟩

/-- A completed `getJavaObject` keeps a registration that is in force. -/
theorem getJavaObject_registered (w : World) (s : JavaObject) (r : jobject) (w1 : World)
    (s1 : JavaObject) (h : getJavaObject w s = .ok (r, w1, s1)) :
    s1.addr = s.addr ∧ (Registered s → Registered s1) := by
  cases hm : w.useGlobalRefs with
  | true =>
    obtain ⟨_, _, ⟨_, ha⟩ | ⟨_, _, rfl⟩⟩ := getJavaObject_direct_ok w s r w1 s1 hm h
    · obtain ⟨h1, h2, _⟩ := attach_registers w s NULL w1 s1 ha
      exact ⟨h1, fun _ => h2⟩
    · exact ⟨rfl, id⟩
  | false =>
    cases hw : s.isWeakRef_ with
    | true =>
      rw [getJavaObject_table_weak w s hm hw] at h
      simp only [Except.ok.injEq, Prod.mk.injEq] at h
      obtain ⟨_, _, rfl⟩ := h
      exact ⟨rfl, fun _ => rfl⟩
    | false =>
      rw [getJavaObject_table_strong w s hm hw] at h
      simp only [Except.ok.injEq, Prod.mk.injEq] at h
      obtain ⟨_, _, rfl⟩ := h
      exact ⟨rfl, id⟩

/-- Every event keeps the address of the bridge and a registration that is in
force; a completed `attach` leaves the notification registered. -/
theorem stepEvent_registered (w : World) (s : JavaObject) (e : Event) (w1 : World)
    (s1 : JavaObject) (h : stepEvent w s e = .ok (w1, s1)) :
    s1.addr = s.addr ∧ (Registered s → Registered s1) ∧
      (∀ jo, e = .call (.attach jo) → Registered s1) := by
  cases e with
  | fire =>
    simp only [stepEvent, fireWeakCallback] at h
    cases hp : s.persistent_.weakParameter with
    | none =>
      simp [hp] at h
      obtain ⟨rfl, rfl⟩ := h
      exact ⟨rfl, id, fun jo hjo => by cases hjo⟩
    | some p =>
      by_cases hpa : p = s.addr
      · simp only [hp, hpa, beq_self_eq_true, if_true, DetachCallback] at h
        obtain ⟨h1, h2, _⟩ := detach_registers _ _ w1 s1 h
        exact ⟨h1, fun _ => h2, fun jo hjo => by cases hjo⟩
      · simp [hp, hpa] at h
        obtain ⟨rfl, rfl⟩ := h
        refine ⟨rfl, fun hr => ?_, fun jo hjo => by cases hjo⟩
        unfold Registered at hr
        rw [hp] at hr
        exact absurd (Option.some.inj hr) hpa
  | call op =>
    cases op with
    | attach jo =>
      cases ha : attach w s jo with
      | error a => simp [stepEvent, step, ha, Except.map] at h
      | ok v =>
        obtain ⟨v1, v2⟩ := v
        simp [stepEvent, step, ha, Except.map] at h
        obtain ⟨rfl, rfl⟩ := h
        obtain ⟨h1, h2, _⟩ := attach_registers w s jo _ _ ha
        exact ⟨h1, fun _ => h2, fun _ _ => h2⟩
    | detach =>
      cases ha : detach w s with
      | error a => simp [stepEvent, step, ha, Except.map] at h
      | ok v =>
        obtain ⟨v1, v2⟩ := v
        simp [stepEvent, step, ha, Except.map] at h
        obtain ⟨rfl, rfl⟩ := h
        obtain ⟨h1, h2, _⟩ := detach_registers w s _ _ ha
        exact ⟨h1, fun _ => h2, fun jo hjo => by cases hjo⟩
    | getJavaObject =>
      cases ha : getJavaObject w s with
      | error a => simp [stepEvent, step, ha, Except.map] at h
      | ok v =>
        obtain ⟨v1, v2, v3⟩ := v
        simp [stepEvent, step, ha, Except.map] at h
        obtain ⟨rfl, rfl⟩ := h
        obtain ⟨h1, h2⟩ := getJavaObject_registered w s _ _ _ ha
        exact ⟨h1, h2, fun jo hjo => by cases hjo⟩
    | deleteGlobalRef =>
      cases ha : deleteGlobalRef w s with
      | error a => simp [stepEvent, step, ha, Except.map] at h
      | ok v =>
        obtain ⟨v1, v2⟩ := v
        simp [stepEvent, step, ha, Except.map] at h
        obtain ⟨rfl, rfl⟩ := h
        obtain ⟨_, ⟨_, _, _, rfl⟩ | ⟨_, _, rfl⟩⟩ := deleteGlobalRef_ok w s _ _ ha
        · exact ⟨rfl, id, fun jo hjo => by cases hjo⟩
        · exact ⟨rfl, id, fun jo hjo => by cases hjo⟩
    | isDetached =>
      simp [stepEvent, step, Except.map] at h
      obtain ⟨rfl, rfl⟩ := h
      exact ⟨rfl, id, fun jo hjo => by cases hjo⟩
    | collect o =>
      simp [stepEvent, step, Except.map] at h
      obtain ⟨_, rfl⟩ := h
      exact ⟨rfl, id, fun jo hjo => by cases hjo⟩

/-- Along a sequence of events, a bridge that is registered at the start, or
that is attached along the way, is registered at the end. -/
theorem runEvents_registered (es : List Event) (w : World) (s : JavaObject) (w1 : World)
    (s1 : JavaObject) (h : runEvents w s es = .ok (w1, s1))
    (hatt : Registered s ∨ ∃ jo, Event.call (.attach jo) ∈ es) :
    s1.addr = s.addr ∧ Registered s1 := by
  induction es generalizing w s with
  | nil =>
    simp [runEvents] at h
    obtain ⟨rfl, rfl⟩ := h
    rcases hatt with hr | ⟨jo, hjo⟩
    · exact ⟨rfl, hr⟩
    · cases hjo
  | cons e es ih =>
    cases hs : stepEvent w s e with
    | error a => simp [runEvents, hs] at h
    | ok v =>
      obtain ⟨w2, s2⟩ := v
      simp only [runEvents, hs] at h
      obtain ⟨e1, e2, e3⟩ := stepEvent_registered w s e w2 s2 hs
      have hatt2 : Registered s2 ∨ ∃ jo, Event.call (.attach jo) ∈ es := by
        rcases hatt with hr | ⟨jo, hjo⟩
        · exact Or.inl (e2 hr)
        · rcases List.mem_cons.mp hjo with hjo | hjo
          · exact Or.inl (e3 jo hjo.symm)
          · exact Or.inr ⟨jo, hjo⟩
      obtain ⟨i1, i2⟩ := ih w2 s2 h hatt2
      exact ⟨i1.trans e1, i2⟩

/-- C15. The weak notification stays registered.  The script engine is
modelled as clearing the registration each time it fires `DetachCallback`.
Every operation that changes the strength of a bridge (`attach`, `detach`, and
the table-mode re-attach inside `getJavaObject`) calls
`persistent().SetWeak(this, DetachCallback)`: when it completes, `SetWeak` with
the address of the bridge is among the calls it made and the notification is
registered with that address.  Hence, after construction and any sequence of
completed method calls, deliveries of the notification and collections, a
bridge that has been attached at least once (by its constructor or by a call
of `attach`) has the callback registered with the bridge itself as parameter. -/
theorem C15_registration (w0 : World) (addr : Nat) (jo : jobject) (evs : List Event)
    (w : World) (s : JavaObject)
    (hatt : jo ≠ NULL ∨ ∃ h, Event.call (.attach h) ∈ evs)
    (hr : runEventsFrom w0 addr jo evs = .ok (w, s)) :
    Registered s ∧ s.addr = addr ∧
    (∀ v t h v1 t1, attach v t h = .ok (v1, t1) →
      Registered t1 ∧ ∃ rest, v1.calls = v.calls ++ EnvCall.SetWeak t.addr :: rest) ∧
    (∀ v t v1 t1, detach v t = .ok (v1, t1) →
      Registered t1 ∧ ∃ rest, v1.calls = v.calls ++ EnvCall.SetWeak t.addr :: rest) ∧
    (∀ v t r v1 t1, v.useGlobalRefs = false → t.isWeakRef_ = true →
      getJavaObject v t = .ok (r, v1, t1) →
      Registered t1 ∧
        v1.calls = v.calls ++ [.clearWeakReference t.refTableKey_ r, .SetWeak t.addr]) := by
  have main : Registered s ∧ s.addr = addr := by
    unfold runEventsFrom at hr
    cases hc : ctor w0 addr jo with
    | error a => simp [hc] at hr
    | ok v =>
      obtain ⟨w1, s1⟩ := v
      simp only [hc] at hr
      by_cases hjo : jo = NULL
      · have hc2 := hc
        simp [ctor, hjo, pure, Except.pure] at hc2
        obtain ⟨_, rfl⟩ := hc2
        obtain ⟨i1, i2⟩ := runEvents_registered evs w1 _ w s hr
          (Or.inr (hatt.resolve_left (fun h => h hjo)))
        exact ⟨i2, i1⟩
      · have hc2 := hc
        simp only [ctor, bne_iff_ne, ne_eq, hjo, not_false_eq_true, if_true] at hc2
        obtain ⟨a1, a2, _⟩ := attach_registers _ _ jo w1 s1 hc2
        obtain ⟨i1, i2⟩ := runEvents_registered evs w1 s1 w s hr (Or.inl a2)
        exact ⟨i2, i1.trans a1⟩
  refine ⟨main.1, main.2, fun v t h v1 t1 ha => ?_, fun v t v1 t1 hd => ?_,
    fun v t r v1 t1 hm hw hg => ?_⟩
  · exact (attach_registers v t h v1 t1 ha).2
  · exact (detach_registers v t v1 t1 hd).2
  · rw [getJavaObject_table_weak v t hm hw] at hg
    simp only [Except.ok.injEq, Prod.mk.injEq] at hg
    obtain ⟨rfl, rfl, rfl⟩ := hg
    refine ⟨rfl, ?_⟩
    split <;> simp

/-- C15 at a concrete history in table mode: constructed on a target, the
notification fires, the object is fetched again, the notification fires twice
more, and `isDetached` is asked. -/
theorem C15_registration_witness :
    ((1 : jobject) ≠ NULL ∨
      ∃ h, Event.call (.attach h) ∈
        [Event.fire, .call .getJavaObject, .fire, .fire, .call .isDetached]) ∧
    ∃ w s,
      runEventsFrom tableStart 100 1
        [.fire, .call .getJavaObject, .fire, .fire, .call .isDetached] = .ok (w, s) ∧
      Registered s ∧ s.addr = 100 ∧ s.isDetached = true :=
  ⟨Or.inl (by decide), _, _, rfl,
   (C15_registration tableStart 100 1
      [.fire, .call .getJavaObject, .fire, .fire, .call .isDetached] _ _
      (Or.inl (by decide)) rfl).1,
   rfl, rfl⟩

/-! ## Teardown (C12) -/

/-- What every completed step does to the table key and to the need for a JNI
environment: the environment flag is untouched; the key is kept, reset to 0 or
taken from the key supply; and either both reference fields are kept or the
environment was attached. -/
theorem step_held (w : World) (s : JavaObject) (op : Op) (r : Ret) (w1 : World)
    (s1 : JavaObject) (h : step w s op = .ok (r, w1, s1)) :
    w1.envAttached = w.envAttached ∧
    (s1.refTableKey_ = s.refTableKey_ ∨ s1.refTableKey_ = 0 ∨
      w.table.nextKey ≤ s1.refTableKey_) ∧
    ((s1.javaObject_ = s.javaObject_ ∧ s1.refTableKey_ = s.refTableKey_) ∨
      w.envAttached = true) := by
  have hattach : ∀ jo v t, attach w s jo = .ok (v, t) →
      v.envAttached = w.envAttached ∧
      (t.refTableKey_ = s.refTableKey_ ∨ t.refTableKey_ = 0 ∨
        w.table.nextKey ≤ t.refTableKey_) ∧
      ((t.javaObject_ = s.javaObject_ ∧ t.refTableKey_ = s.refTableKey_) ∨
        w.envAttached = true) := by
    intro jo v t ha
    obtain ⟨_, hn⟩ := attach_ok w s jo v t ha
    obtain ⟨henv, ⟨_, _, hv, rfl⟩ | ⟨_, _, rfl, rfl⟩⟩ := newGlobalRef_ok _ _ v t hn
    · refine ⟨?_, Or.inl rfl, Or.inr (by simpa using henv)⟩
      rw [hv]
      cases s.isWeakRef_ <;> simp
    · exact ⟨by simp, Or.inr (Or.inr (by simp)), Or.inr (by simpa using henv)⟩
  cases op with
  | attach jo =>
    cases ha : attach w s jo with
    | error a => simp [step, ha, Except.map] at h
    | ok v =>
      obtain ⟨v1, v2⟩ := v
      simp [step, ha, Except.map] at h
      obtain ⟨_, rfl, rfl⟩ := h
      exact hattach jo _ _ ha
  | detach =>
    cases ha : detach w s with
    | error a => simp [step, ha, Except.map] at h
    | ok v =>
      obtain ⟨v1, v2⟩ := v
      simp [step, ha, Except.map] at h
      obtain ⟨_, rfl, rfl⟩ := h
      rcases detach_inv w s _ _ ha with ⟨_, he⟩ | ⟨_, hw⟩
      · simp only [SetWeak, Prod.mk.injEq] at he
        obtain ⟨rfl, rfl⟩ := he
        exact ⟨rfl, Or.inl rfl, Or.inl ⟨rfl, rfl⟩⟩
      · obtain ⟨henv, ⟨_, _, rfl, rfl⟩ | ⟨_, rfl, rfl⟩⟩ := weakGlobalRef_ok _ _ _ _ hw
        · exact ⟨by simp [SetWeak], Or.inl rfl, Or.inr (by simpa [SetWeak] using henv)⟩
        · exact ⟨by simp [SetWeak], Or.inl rfl, Or.inl ⟨rfl, rfl⟩⟩
  | getJavaObject =>
    cases ha : getJavaObject w s with
    | error a => simp [step, ha, Except.map] at h
    | ok v =>
      obtain ⟨v1, v2, v3⟩ := v
      simp [step, ha, Except.map] at h
      obtain ⟨_, rfl, rfl⟩ := h
      cases hm : w.useGlobalRefs with
      | true =>
        obtain ⟨_, _, ⟨_, hat⟩ | ⟨_, rfl, rfl⟩⟩ := getJavaObject_direct_ok w s _ _ _ hm ha
        · exact hattach NULL _ _ hat
        · exact ⟨rfl, Or.inl rfl, Or.inl ⟨rfl, rfl⟩⟩
      | false =>
        cases hw : s.isWeakRef_ with
        | true =>
          rw [getJavaObject_table_weak w s hm hw] at ha
          simp only [Except.ok.injEq, Prod.mk.injEq] at ha
          obtain ⟨_, rfl, rfl⟩ := ha
          refine ⟨?_, Or.inl rfl, Or.inl ⟨rfl, rfl⟩⟩
          split <;> simp
        | false =>
          rw [getJavaObject_table_strong w s hm hw] at ha
          simp only [Except.ok.injEq, Prod.mk.injEq] at ha
          obtain ⟨_, rfl, rfl⟩ := ha
          exact ⟨by simp, Or.inl rfl, Or.inl ⟨rfl, rfl⟩⟩
  | deleteGlobalRef =>
    cases ha : deleteGlobalRef w s with
    | error a => simp [step, ha, Except.map] at h
    | ok v =>
      obtain ⟨v1, v2⟩ := v
      simp [step, ha, Except.map] at h
      obtain ⟨_, rfl, rfl⟩ := h
      obtain ⟨henv, ⟨_, _, hv, rfl⟩ | ⟨_, rfl, rfl⟩⟩ := deleteGlobalRef_ok w s _ _ ha
      · refine ⟨?_, Or.inl rfl, Or.inr henv⟩
        rw [hv]
        cases s.isWeakRef_ <;> simp
      · exact ⟨by simp, Or.inr (Or.inl rfl), Or.inr henv⟩
  | isDetached =>
    simp [step] at h
    obtain ⟨_, rfl, rfl⟩ := h
    exact ⟨rfl, Or.inl rfl, Or.inl ⟨rfl, rfl⟩⟩
  | collect o =>
    simp [step] at h
    obtain ⟨_, rfl, rfl⟩ := h
    exact ⟨by simp, Or.inl rfl, Or.inl ⟨rfl, rfl⟩⟩

/-- Along a run that starts with a positive key supply and a non-negative key,
the key stays non-negative, and a bridge that holds a reference has the JNI
environment attached. -/
theorem run_held (ops : List Op) (w : World) (s : JavaObject) (w1 : World) (s1 : JavaObject)
    (h : run w s ops = .ok (w1, s1)) (hn : 0 < w.table.nextKey) (hk : 0 ≤ s.refTableKey_)
    (he : s.javaObject_ ≠ NULL ∨ s.refTableKey_ ≠ 0 → w.envAttached = true) :
    0 ≤ s1.refTableKey_ ∧
      (s1.javaObject_ ≠ NULL ∨ s1.refTableKey_ ≠ 0 → w1.envAttached = true) := by
  induction ops generalizing w s with
  | nil =>
    simp [run] at h
    obtain ⟨rfl, rfl⟩ := h
    exact ⟨hk, he⟩
  | cons op ops ih =>
    cases hs : step w s op with
    | error a => simp [run, hs] at h
    | ok v =>
      obtain ⟨r, w2, s2⟩ := v
      simp only [run, hs] at h
      obtain ⟨e1, e2, e3⟩ := step_held w s op r w2 s2 hs
      have hf := step_framed w s op r w2 s2 hs
      refine ih w2 s2 h (lt_of_lt_of_le hn hf.2.1) ?_ ?_
      · rcases e2 with e | e | e
        · rw [e]; exact hk
        · rw [e]
        · exact le_trans (le_of_lt hn) e
      · intro hh
        rw [e1]
        rcases e3 with ⟨e, e'⟩ | e
        · rw [e, e'] at hh
          exact he hh
        · exact e

/-- Constructing and then running is running from the bridge without
reference, with the `attach` of the constructor as first step when a target is
given. -/
theorem runFrom_eq_run (w : World) (addr : Nat) (jo : jobject) (ops : List Op) :
    runFrom w addr jo ops =
      run (UPDATE_STATS w 1 1) ⟨addr, ⟨none, false⟩, NULL, 0, false⟩
        (if jo = NULL then ops else .attach jo :: ops) := by
  by_cases hjo : jo = NULL
  · simp [runFrom, ctor, hjo, pure, Except.pure]
  · simp only [runFrom, ctor, bne_iff_ne, ne_eq, hjo, not_false_eq_true, if_true, if_false, run,
      step]
    cases attach (UPDATE_STATS w 1 1) ⟨addr, ⟨none, false⟩, NULL, 0, false⟩ jo <;> rfl

/-- The destructor on a bridge that holds nothing only adjusts the counters. -/
theorem dtor_empty (w : World) (s : JavaObject) (hj : s.javaObject_ = NULL)
    (hk : s.refTableKey_ ≤ 0) :
    dtor w s = .ok (UPDATE_STATS w (-1) (if s.isDetached then -1 else 0), s) := by
  have : ¬ (0 < s.refTableKey_) := not_lt.mpr hk
  simp [dtor, hj, this, pure, Except.pure]

/-- The destructor on a bridge that holds a direct reference or a positive key
adjusts the counters and calls `deleteGlobalRef`. -/
theorem dtor_holding (w : World) (s : JavaObject)
    (h : s.javaObject_ ≠ NULL ∨ 0 < s.refTableKey_) :
    dtor w s = deleteGlobalRef (UPDATE_STATS w (-1) (if s.isDetached then -1 else 0)) s := by
  rcases h with h | h <;> simp [dtor, h]

/-- Teardown releases what the bridge holds, provided the table hands out only
positive keys.  For every bridge state reachable from construction by `attach`,
`detach`, `getJavaObject`, `isDetached` and collections by the managed runtime,
in both modes and including a bridge that was never attached, the destructor
completes and leaves `javaObject_` `NULL` and `refTableKey_` 0.  If the bridge
holds a reference (a non-null `javaObject_` or a non-zero `refTableKey_`) the
destructor calls `deleteGlobalRef`, whose one call deletes the reference held:
in direct mode the live reference in `javaObject_`, by the delete of its own
kind, after which no reference of that kind and value is left; in table mode
the slot, after which the table has none under that key.  If the bridge holds
nothing the destructor does not call `deleteGlobalRef` and makes no call at
all. -/
theorem dtor_releases_held (w0 : World) (addr : Nat) (jo : jobject) (ops : List Op)
    (w : World) (s : JavaObject)
    (hkeys : 0 < w0.table.nextKey)
    (hops : ∀ op ∈ ops, op ≠ .deleteGlobalRef)
    (hr : runFrom w0 addr jo ops = .ok (w, s)) :
    ∃ w1 s1, dtor w s = .ok (w1, s1) ∧ s1.javaObject_ = NULL ∧ s1.refTableKey_ = 0 ∧
      ((s.javaObject_ ≠ NULL ∨ s.refTableKey_ ≠ 0) →
        dtor w s =
          deleteGlobalRef (UPDATE_STATS w (-1) (if s.isDetached then -1 else 0)) s ∧
        w1.calls = w.calls ++
          [if w.useGlobalRefs then
             (if s.isWeakRef_ then .DeleteWeakGlobalRef s.javaObject_
              else .DeleteGlobalRef s.javaObject_)
           else .destroyReference s.refTableKey_] ∧
        (w.useGlobalRefs = true →
          ∃ r0, w.jni.findRef s.javaObject_ = some r0 ∧
            r0.kind = (if s.isWeakRef_ then .weakGlobalRef else .globalRef) ∧
            ∀ r ∈ w1.jni.refs, ¬(r.handle = s.javaObject_ ∧ r.kind = r0.kind)) ∧
        (w.useGlobalRefs = false → w1.table.findSlot s.refTableKey_ = none)) ∧
      (¬(s.javaObject_ ≠ NULL ∨ s.refTableKey_ ≠ 0) →
        dtor w s = .ok (UPDATE_STATS w (-1) (if s.isDetached then -1 else 0), s) ∧
        w1.calls = w.calls) := by
  rw [runFrom_eq_run] at hr
  have hops2 : ∀ op ∈ (if jo = NULL then ops else Op.attach jo :: ops),
      op ≠ .deleteGlobalRef := by
    intro op hop
    split at hop
    · exact hops op hop
    · rcases List.mem_cons.mp hop with h | h
      · rw [h]; intro hh; cases hh
      · exact hops op h
  have hE0 : Exclusive (UPDATE_STATS w0 1 1) ⟨addr, ⟨none, false⟩, NULL, 0, false⟩ := by
    unfold Exclusive
    split <;> rfl
  have hI := consistent_run _ _ _ w s hops2 (consistent_fresh _ addr ⟨none, false⟩) hr
  obtain ⟨_, _, hE⟩ := run_exclusive _ _ _ w s hE0 hr
  obtain ⟨hk0, henv⟩ := run_held _ _ _ w s hr (by simpa using hkeys) (le_refl _)
    (by intro h; simp at h)
  by_cases hh : s.javaObject_ ≠ NULL ∨ s.refTableKey_ ≠ 0
  · have henv1 := henv hh
    have hpos : s.javaObject_ ≠ NULL ∨ 0 < s.refTableKey_ := by
      rcases hh with h | h
      · exact Or.inl h
      · exact Or.inr (lt_of_le_of_ne hk0 (Ne.symm h))
    have hd := dtor_holding w s hpos
    cases hm : w.useGlobalRefs with
    | true =>
      simp only [Consistent, hm, if_true] at hI
      obtain ⟨hk, hrf⟩ := hI
      have hj : s.javaObject_ ≠ NULL := by
        rcases hh with h | h
        · exact h
        · exact absurd hk h
      obtain ⟨r0, hf, hkind⟩ := hrf hj
      cases hw : s.isWeakRef_ with
      | false =>
        have hk0 : r0.kind = .globalRef := by
          rcases hkind with h | h
          · exact h.1
          · rw [hw] at h; cases h.2
        have hdel : deleteGlobalRef (UPDATE_STATS w (-1) (if s.isDetached then -1 else 0)) s
            = .ok (DeleteGlobalRef (UPDATE_STATS w (-1) (if s.isDetached then -1 else 0))
                s.javaObject_, { s with javaObject_ := NULL }) := by
          simp [deleteGlobalRef, ASSERT, henv1, hm, hj, hw, bind, Except.bind, pure,
            Except.pure]
        refine ⟨_, _, hd.trans hdel, rfl, hk, ?_, ?_⟩
        · intro _
          refine ⟨hd, by simp, fun _ => ⟨r0, hf, by simp [hk0], fun r hr => ?_⟩,
            (fun h => by cases h)⟩
          rw [hk0]
          refine refs_DeleteGlobalRef _ s.javaObject_ r hr
        · intro hn; exact absurd hh hn
      | true =>
        have hk0 : r0.kind = .weakGlobalRef := by
          rcases hkind with h | h
          · rw [hw] at h; cases h.2
          · exact h.1
        have hdel : deleteGlobalRef (UPDATE_STATS w (-1) (if s.isDetached then -1 else 0)) s
            = .ok (DeleteWeakGlobalRef (UPDATE_STATS w (-1) (if s.isDetached then -1 else 0))
                s.javaObject_, { s with javaObject_ := NULL }) := by
          simp [deleteGlobalRef, ASSERT, henv1, hm, hj, hw, bind, Except.bind, pure,
            Except.pure]
        refine ⟨_, _, hd.trans hdel, rfl, hk, ?_, ?_⟩
        · intro _
          refine ⟨hd, by simp, fun _ => ⟨r0, hf, by simp [hk0], fun r hr => ?_⟩,
            (fun h => by cases h)⟩
          rw [hk0]
          refine refs_DeleteWeakGlobalRef _ s.javaObject_ r hr
        · intro hn; exact absurd hh hn
    | false =>
      have hj : s.javaObject_ = NULL := by simpa [Exclusive, hm] using hE
      refine ⟨_, _, hd.trans (deleteGlobalRef_table _ s (by simpa using hm)
        (by simpa using henv1)), hj, rfl, ?_, ?_⟩
      · intro _
        exact ⟨hd, by simp, (fun h => by cases h),
          fun _ => findSlot_destroyReference _ s.refTableKey_⟩
      · intro hn; exact absurd hh hn
  · have hj : s.javaObject_ = NULL := by
      by_contra h; exact hh (Or.inl h)
    have hk : s.refTableKey_ = 0 := by
      by_contra h; exact hh (Or.inr h)
    have hd := dtor_empty w s hj (le_of_eq hk)
    refine ⟨_, _, hd, hj, hk, fun h => absurd h hh, fun _ => ⟨hd, ?_⟩⟩
    simp

/-- C12 (evaluation). In direct mode a bridge is constructed on the local
reference 1 and `attach(NULL)` is then called on it while it is Strong; every
assertion passes.  The bridge holds the global reference 3 in `javaObject_`
and still owns the global reference 2 that it created first.  The destructor
completes, calls `deleteGlobalRef`, whose one call is `DeleteGlobalRef(3)`, and
leaves `javaObject_` `NULL`; the global reference 2 is left owned by the
bridge and live. -/
theorem C12_teardown_leaves_handle :
    ∃ w s, runFrom directStart 100 1 [.attach NULL] = .ok (w, s) ∧
      s.javaObject_ = 3 ∧ EnvCall.NewGlobalRef 1 2 ∈ w.calls ∧
      ∃ w1 s1, dtor w s = .ok (w1, s1) ∧
        dtor w s = deleteGlobalRef (UPDATE_STATS w (-1) (if s.isDetached then -1 else 0)) s ∧
        w1.calls = w.calls ++ [.DeleteGlobalRef 3] ∧
        s1.javaObject_ = NULL ∧ s1.refTableKey_ = 0 ∧
        ownRun [] w1.calls = some [(2, .globalRef)] ∧
        w1.jni.findRef 2 = some ⟨2, .globalRef, 7⟩ :=
  ⟨_, _, rfl, rfl, by decide, _, _, rfl, rfl, rfl, rfl, rfl, by decide, rfl⟩

/-! ## The counters (C16) and the references left behind (C18) -/

/-- C16 (evaluation). In direct mode, debug build, a bridge is constructed on
the local reference 1 and `attach(NULL)` is then called on it while it is
Strong; every assertion passes.  There is one live bridge and `isDetached` is
false for it, yet `stats.detached` is -1, because `attach` runs
`UPDATE_STATS(0, -1)` whether or not the bridge was detached.  After the
destructor both counters should be back at 0; `stats.detached` is still -1. -/
theorem C16_counters_off :
    directStart.stats = ⟨0, 0⟩ ∧
    ∃ w s, runFrom directStart 100 1 [.attach NULL] = .ok (w, s) ∧
      s.isDetached = false ∧ w.stats = ⟨1, -1⟩ ∧
      ∃ w1 s1, dtor w s = .ok (w1, s1) ∧ w1.stats = ⟨0, -1⟩ :=
  ⟨rfl, _, _, rfl, rfl, rfl, _, _, rfl, rfl⟩

/-- C18 (evaluation). In direct mode a bridge is constructed on the local
reference 1 and `attach(NULL)` is then called on it while it is Strong; every
assertion passes.  The bridge has created the global references 2 and 3 and
deleted neither, while `javaObject_` holds only 3; after the destructor the
global reference 2 is still owned and still live. -/
theorem C18_reference_left_behind :
    ∃ w s, runFrom directStart 100 1 [.attach NULL] = .ok (w, s) ∧
      s.javaObject_ = 3 ∧
      ownRun [] w.calls = some [(3, .globalRef), (2, .globalRef)] ∧
      ∃ w1 s1, dtor w s = .ok (w1, s1) ∧ s1.javaObject_ = NULL ∧
        ownRun [] w1.calls = some [(2, .globalRef)] ∧
        w1.jni.findRef 2 = some ⟨2, .globalRef, 7⟩ :=
  ⟨_, _, rfl, rfl, by decide, _, _, rfl, rfl, by decide, rfl⟩

/-! ## The bookkeeping of owned references -/

/-- Accounting for two series of calls in a row. -/
theorem ownRun_append (o : Owned) (a b : List EnvCall) :
    ownRun o (a ++ b) = (ownRun o a).bind (fun o1 => ownRun o1 b) := by
  induction a generalizing o with
  | nil => rfl
  | cons c cs ih =>
    simp only [List.cons_append, ownRun]
    cases ownStep o c with
    | none => rfl
    | some o1 => exact ih o1

/-- What `deref` finding an object means. -/
theorem deref_some (e : JNIEnv) (h : jobject) (o : Nat) (hd : e.deref h = some o) :
    h ≠ NULL ∧ o ∉ e.collected ∧ ∃ r, e.findRef h = some r ∧ r.obj = o := by
  unfold JNIEnv.deref at hd
  by_cases hn : h = NULL
  · simp [hn] at hd
  · simp only [beq_iff_eq, hn, if_false] at hd
    cases hf : e.findRef h with
    | none => simp [hf] at hd
    | some r =>
      simp only [hf] at hd
      by_cases hc : r.obj ∈ e.collected
      · simp [hc] at hd
      · simp only [hc, if_false, Option.some.injEq] at hd
        exact ⟨hn, hd ▸ hc, r, rfl, hd⟩

/-- A reference found live whose object is not collected designates it. -/
theorem deref_of_findRef (e : JNIEnv) (h : jobject) (r : JRef) (hn : h ≠ NULL)
    (hf : e.findRef h = some r) (hc : r.obj ∉ e.collected) : e.deref h = some r.obj := by
  simp [JNIEnv.deref, hn, hf, hc]

/-- The result of `NewGlobalRef` on a reference that designates an object. -/
theorem NewGlobalRef_some (w : World) (h : jobject) (o : Nat) (hd : w.jni.deref h = some o) :
    (NewGlobalRef w h).1 = w.jni.allocated + 1 ∧
    (NewGlobalRef w h).2.jni =
      ⟨⟨w.jni.allocated + 1, .globalRef, o⟩ :: w.jni.refs, w.jni.allocated + 1,
        w.jni.collected⟩ := by
  simp [NewGlobalRef, hd, JNIEnv.returnObject, JNIEnv.newRef]

/-- The result of `NewGlobalRef` on a reference that designates nothing. -/
theorem NewGlobalRef_none (w : World) (h : jobject) (hd : w.jni.deref h = none) :
    (NewGlobalRef w h).1 = NULL ∧ (NewGlobalRef w h).2.jni = w.jni := by
  simp [NewGlobalRef, hd, JNIEnv.returnObject]

/-- The result of `NewWeakGlobalRef` on a reference that designates an object. -/
theorem NewWeakGlobalRef_some (w : World) (h : jobject) (o : Nat)
    (hd : w.jni.deref h = some o) :
    (NewWeakGlobalRef w h).1 = w.jni.allocated + 1 ∧
    (NewWeakGlobalRef w h).2.jni =
      ⟨⟨w.jni.allocated + 1, .weakGlobalRef, o⟩ :: w.jni.refs, w.jni.allocated + 1,
        w.jni.collected⟩ := by
  simp [NewWeakGlobalRef, hd, JNIEnv.returnObject, JNIEnv.newRef]

/-- Owned references stay live when a reference is created. -/
theorem ownedLive_cons (refs : List JRef) (o : Owned) (h : jobject) (k : RefKind) (x : Nat)
    (hl : OwnedLive refs o) : OwnedLive (⟨h, k, x⟩ :: refs) ((h, k) :: o) := by
  intro p hp
  rcases List.mem_cons.mp hp with hp | hp
  · exact ⟨⟨h, k, x⟩, List.mem_cons_self _ _, by rw [hp], by rw [hp]⟩
  · obtain ⟨r, hr, h1, h2⟩ := hl p hp
    exact ⟨r, List.mem_cons_of_mem _ hr, h1, h2⟩

/-- The owned references that remain after a delete are still live. -/
theorem ownedLive_filter (refs : List JRef) (o : Owned) (h : jobject) (k : RefKind)
    (hl : OwnedLive refs o) :
    OwnedLive (refs.filter (fun r => !(r.handle == h && r.kind == k)))
      (o.filter (fun p => p != (h, k))) := by
  intro p hp
  simp only [List.mem_filter, bne_iff_ne, ne_eq] at hp
  obtain ⟨r, hr, h1, h2⟩ := hl p hp.1
  refine ⟨r, ?_, h1, h2⟩
  simp only [List.mem_filter, hr, true_and, Bool.not_eq_true', Bool.and_eq_false_imp,
    beq_iff_eq, beq_eq_false_iff_ne, ne_eq]
  intro hh hk
  exact hp.2 (Prod.ext (h1.symm.trans hh) (h2.symm.trans hk))

/-- A completed `newGlobalRef` in direct mode keeps the bookkeeping sound: its
calls are accounted for, and the bridge ends up holding a global reference it
owns, or nothing. -/
theorem handleInv_newGlobalRef (w : World) (s : JavaObject) (w1 : World) (s1 : JavaObject)
    (owned : Owned) (hm : w.useGlobalRefs = true) (hL : OwnedLive w.jni.refs owned)
    (hW : s.isWeakRef_ = true → (s.javaObject_, RefKind.weakGlobalRef) ∈ owned)
    (h : newGlobalRef w s = .ok (w1, s1)) :
    ∃ new owned1, w1.calls = w.calls ++ new ∧ ownRun owned new = some owned1 ∧
      HandleInv w1 s1 owned1 := by
  obtain ⟨_, ⟨_, hj, hw1, rfl⟩ | ⟨hm2, _⟩⟩ := newGlobalRef_ok w s w1 s1 h
  swap
  · rw [hm] at hm2; cases hm2
  cases hw : s.isWeakRef_ with
  | false =>
    simp only [hw, Bool.false_eq_true, if_false] at hw1
    subst hw1
    cases hd : w.jni.deref s.javaObject_ with
    | none =>
      obtain ⟨n1, n2⟩ := NewGlobalRef_none w s.javaObject_ hd
      refine ⟨[.NewGlobalRef s.javaObject_ NULL], owned, by simp [n1],
        by simp [ownRun, ownStep], ?_, ?_, ?_⟩
      · rw [n2]; exact hL
      · intro hne; exact absurd n1 hne
      · intro _; rfl
    | some o =>
      obtain ⟨n1, n2⟩ := NewGlobalRef_some w s.javaObject_ o hd
      obtain ⟨_, hc, _⟩ := deref_some _ _ _ hd
      refine ⟨[.NewGlobalRef s.javaObject_ (w.jni.allocated + 1)],
        (w.jni.allocated + 1, .globalRef) :: owned, by simp [n1],
        by simp [ownRun, ownStep], ?_, ?_, ?_⟩
      · rw [n2]; exact ownedLive_cons _ _ _ _ _ hL
      · intro _
        simp only [n1, n2]
        exact ⟨by simp [kindHeld], ⟨w.jni.allocated + 1, .globalRef, o⟩, by simp [JNIEnv.findRef],
          by simp [kindHeld], fun _ => hc⟩
      · intro hne; simp [n1] at hne
  | true =>
    simp only [hw, if_true] at hw1
    subst hw1
    have hown := hW hw
    cases hd : w.jni.deref s.javaObject_ with
    | none =>
      obtain ⟨n1, n2⟩ := NewGlobalRef_none w s.javaObject_ hd
      refine ⟨[.NewGlobalRef s.javaObject_ NULL, .DeleteWeakGlobalRef s.javaObject_],
        owned.filter (fun p => p != (s.javaObject_, .weakGlobalRef)), by simp [n1],
        by simp [ownRun, ownStep, hown], ?_, ?_, ?_⟩
      · simp only [DeleteWeakGlobalRef, record_jni, JNIEnv.dropRef, n2]
        exact ownedLive_filter _ _ _ _ hL
      · intro hne; exact absurd n1 hne
      · intro _; rfl
    | some o =>
      obtain ⟨n1, n2⟩ := NewGlobalRef_some w s.javaObject_ o hd
      obtain ⟨_, hc, _⟩ := deref_some _ _ _ hd
      refine ⟨[.NewGlobalRef s.javaObject_ (w.jni.allocated + 1),
          .DeleteWeakGlobalRef s.javaObject_],
        ((w.jni.allocated + 1, RefKind.globalRef) :: owned).filter
          (fun p => p != (s.javaObject_, .weakGlobalRef)), by simp [n1],
        by simp [ownRun, ownStep, hown], ?_, ?_, ?_⟩
      · simp only [DeleteWeakGlobalRef, record_jni, JNIEnv.dropRef, n2]
        exact ownedLive_filter _ _ _ _ (ownedLive_cons _ _ _ _ _ hL)
      · intro _
        simp only [n1, DeleteWeakGlobalRef, record_jni, JNIEnv.dropRef, n2]
        exact ⟨by simp [kindHeld], ⟨w.jni.allocated + 1, .globalRef, o⟩, by simp [JNIEnv.findRef],
          by simp [kindHeld], fun _ => hc⟩
      · intro hne; simp [n1] at hne

/-- A completed `attach` in direct mode keeps the bookkeeping sound. -/
theorem handleInv_attach (w : World) (s : JavaObject) (jo : jobject) (w1 : World)
    (s1 : JavaObject) (owned : Owned) (hm : w.useGlobalRefs = true)
    (hI : HandleInv w s owned) (h : attach w s jo = .ok (w1, s1)) :
    ∃ new owned1, w1.calls = w.calls ++ new ∧ ownRun owned new = some owned1 ∧
      HandleInv w1 s1 owned1 := by
  obtain ⟨hp, hn⟩ := attach_ok w s jo w1 s1 h
  obtain ⟨hL, hb, hc⟩ := hI
  have hW : s.isWeakRef_ = true →
      ((if jo = NULL then s.javaObject_ else jo), RefKind.weakGlobalRef) ∈ owned := by
    intro hw
    have hj : s.javaObject_ ≠ NULL := by
      intro hj
      rw [hc hj] at hw
      cases hw
    have hjo : jo = NULL := hp.resolve_right hj
    have := (hb hj).1
    simpa [hjo, kindHeld, hw] using this
  obtain ⟨new, owned1, e1, e2, e3⟩ := handleInv_newGlobalRef _ _ w1 s1 owned
    (by simpa using hm) (by simpa using hL) hW hn
  refine ⟨[.SetWeak s.addr, .MarkIndependent] ++ new, owned1, ?_, ?_, e3⟩
  · rw [e1]; simp
  · rw [ownRun_append]
    simpa [ownRun, ownStep] using e2

/-- A completed `detach` in direct mode keeps the bookkeeping sound. -/
theorem handleInv_detach (w : World) (s : JavaObject) (w1 : World) (s1 : JavaObject)
    (owned : Owned) (hm : w.useGlobalRefs = true)
    (hI : HandleInv w s owned) (h : detach w s = .ok (w1, s1)) :
    ∃ new owned1, w1.calls = w.calls ++ new ∧ ownRun owned new = some owned1 ∧
      HandleInv w1 s1 owned1 := by
  rcases detach_inv w s w1 s1 h with ⟨_, he⟩ | ⟨hd, hw⟩
  · simp only [SetWeak, Prod.mk.injEq] at he
    obtain ⟨rfl, rfl⟩ := he
    exact ⟨[.SetWeak s.addr], owned, rfl, by simp [ownRun, ownStep], hI⟩
  · obtain ⟨_, ⟨_, hj, rfl, rfl⟩ | ⟨hm2, _⟩⟩ := weakGlobalRef_ok _ _ w1 s1 hw
    swap
    · simp [SetWeak, hm] at hm2
    obtain ⟨hL, hb, hc⟩ := hI
    have hj2 : s.javaObject_ ≠ NULL := hj
    have hwf : s.isWeakRef_ = false := by
      cases hwf : s.isWeakRef_
      · rfl
      · simp [isDetached, hwf] at hd
    obtain ⟨hown, r, hf, hk, hcol⟩ := hb hj2
    have hdr : (UPDATE_STATS (SetWeak w s).1 0 1).jni.deref s.javaObject_ = some r.obj := by
      simpa [SetWeak] using deref_of_findRef w.jni s.javaObject_ r hj2 hf (hcol hwf)
    obtain ⟨n1, n2⟩ := NewWeakGlobalRef_some _ s.javaObject_ r.obj hdr
    simp only [UPDATE_STATS_jni, SetWeak, record_jni] at n1 n2
    have hown2 : (s.javaObject_, RefKind.globalRef) ∈ owned := by
      simpa [kindHeld, hwf] using hown
    refine ⟨[.SetWeak s.addr, .NewWeakGlobalRef s.javaObject_ (w.jni.allocated + 1),
        .DeleteGlobalRef s.javaObject_],
      ((w.jni.allocated + 1, RefKind.weakGlobalRef) :: owned).filter
        (fun p => p != (s.javaObject_, .globalRef)), ?_, ?_, ?_, ?_, ?_⟩
    · simp [SetWeak, n1]
    · simp [ownRun, ownStep, hown2]
    · simp only [DeleteGlobalRef, record_jni, JNIEnv.dropRef, SetWeak, n2]
      exact ownedLive_filter _ _ _ _ (ownedLive_cons _ _ _ _ _ hL)
    · intro _
      simp only [SetWeak, n1, DeleteGlobalRef, record_jni, JNIEnv.dropRef, n2]
      exact ⟨by simp [kindHeld], ⟨w.jni.allocated + 1, .weakGlobalRef, r.obj⟩,
        by simp [JNIEnv.findRef], by simp [kindHeld], fun hh => by cases hh⟩
    · intro hne
      simp [SetWeak, n1] at hne

/-- The collector keeps the bookkeeping sound: it cannot reclaim the object of
a global reference. -/
theorem handleInv_collect (w : World) (s : JavaObject) (owned : Owned) (o : Nat)
    (hI : HandleInv w s owned) : HandleInv (w.collect o) s owned := by
  obtain ⟨hL, hb, hc⟩ := hI
  refine ⟨by simpa using hL, fun hj => ?_, hc⟩
  obtain ⟨hown, r, hf, hk, hcol⟩ := hb hj
  refine ⟨hown, r, by simpa [JNIEnv.findRef] using hf, hk, fun hw hmem => ?_⟩
  have hr : r ∈ w.jni.refs := List.mem_of_find?_eq_some hf
  have hkg : r.kind = .globalRef := by simpa [kindHeld, hw] using hk
  rcases mem_collect w o r.obj hmem with he | he
  · have hsr : w.stronglyReferenced o = true := by
      unfold World.stronglyReferenced
      simp only [Bool.or_eq_true, List.any_eq_true]
      exact Or.inl ⟨r, hr, by simp [he, hkg]⟩
    have : w.collect o = w := by
      unfold World.collect
      simp [hsr]
    rw [this] at hmem
    exact hcol hw hmem
  · exact hcol hw he

/-- The collector makes no call on behalf of the bridge. -/
theorem collect_calls (w : World) (o : Nat) : (w.collect o).calls = w.calls := by
  unfold World.collect
  split <;> rfl

/-- Every completed step other than `deleteGlobalRef` keeps the bookkeeping
sound in direct mode. -/
theorem handleInv_step (w : World) (s : JavaObject) (op : Op) (r : Ret) (w1 : World)
    (s1 : JavaObject) (owned : Owned) (hm : w.useGlobalRefs = true)
    (hop : op ≠ .deleteGlobalRef) (hI : HandleInv w s owned)
    (h : step w s op = .ok (r, w1, s1)) :
    ∃ new owned1, w1.calls = w.calls ++ new ∧ ownRun owned new = some owned1 ∧
      HandleInv w1 s1 owned1 := by
  cases op with
  | attach jo =>
    cases ha : attach w s jo with
    | error a => simp [step, ha, Except.map] at h
    | ok v =>
      obtain ⟨v1, v2⟩ := v
      simp only [step, ha, Except.map, Except.ok.injEq, Prod.mk.injEq] at h
      obtain ⟨_, rfl, rfl⟩ := h
      exact handleInv_attach w s jo _ _ owned hm hI ha
  | detach =>
    cases ha : detach w s with
    | error a => simp [step, ha, Except.map] at h
    | ok v =>
      obtain ⟨v1, v2⟩ := v
      simp only [step, ha, Except.map, Except.ok.injEq, Prod.mk.injEq] at h
      obtain ⟨_, rfl, rfl⟩ := h
      exact handleInv_detach w s _ _ owned hm hI ha
  | getJavaObject =>
    cases ha : getJavaObject w s with
    | error a => simp [step, ha, Except.map] at h
    | ok v =>
      obtain ⟨v0, v1, v2⟩ := v
      simp only [step, ha, Except.map, Except.ok.injEq, Prod.mk.injEq] at h
      obtain ⟨_, rfl, rfl⟩ := h
      obtain ⟨_, _, ⟨_, hat⟩ | ⟨_, rfl, rfl⟩⟩ := getJavaObject_direct_ok w s _ _ _ hm ha
      · exact handleInv_attach w s NULL _ _ owned hm hI hat
      · exact ⟨[], owned, by simp, rfl, hI⟩
  | deleteGlobalRef => exact absurd rfl hop
  | isDetached =>
    simp only [step, Except.ok.injEq, Prod.mk.injEq] at h
    obtain ⟨_, rfl, rfl⟩ := h
    exact ⟨[], owned, by simp, rfl, hI⟩
  | collect o =>
    simp only [step, Except.ok.injEq, Prod.mk.injEq] at h
    obtain ⟨_, rfl, rfl⟩ := h
    exact ⟨[], owned, by simp [collect_calls], rfl, handleInv_collect w s owned o hI⟩

/-- Along a direct-mode run without `deleteGlobalRef` the bookkeeping stays
sound, the table key stays 0 and a bridge that holds a reference has the JNI
environment attached. -/
theorem handleInv_run (ops : List Op) (w : World) (s : JavaObject) (w1 : World)
    (s1 : JavaObject) (owned : Owned) (hm : w.useGlobalRefs = true)
    (hops : ∀ op ∈ ops, op ≠ .deleteGlobalRef) (hI : HandleInv w s owned)
    (hk : s.refTableKey_ = 0) (he : s.javaObject_ ≠ NULL → w.envAttached = true)
    (h : run w s ops = .ok (w1, s1)) :
    ∃ tr owned1, w1.calls = w.calls ++ tr ∧ ownRun owned tr = some owned1 ∧
      HandleInv w1 s1 owned1 ∧ w1.useGlobalRefs = true ∧ s1.refTableKey_ = 0 ∧
      (s1.javaObject_ ≠ NULL → w1.envAttached = true) := by
  induction ops generalizing w s owned with
  | nil =>
    simp [run] at h
    obtain ⟨rfl, rfl⟩ := h
    exact ⟨[], owned, by simp, rfl, hI, hm, hk, he⟩
  | cons op ops ih =>
    cases hs : step w s op with
    | error a => simp [run, hs] at h
    | ok v =>
      obtain ⟨r, w2, s2⟩ := v
      simp only [run, hs] at h
      obtain ⟨e1, _, e3⟩ := step_held w s op r w2 s2 hs
      obtain ⟨f1, _, f3, _⟩ := step_framed w s op r w2 s2 hs
      obtain ⟨new, o2, c1, c2, c3⟩ := handleInv_step w s op r w2 s2 owned hm
        (hops op (List.mem_cons_self _ _)) hI hs
      have he2 : s2.javaObject_ ≠ NULL → w2.envAttached = true := by
        intro hh
        rw [e1]
        rcases e3 with ⟨e, _⟩ | e
        · rw [e] at hh; exact he hh
        · exact e
      obtain ⟨tr, o3, d1, d2, d3⟩ := ih w2 s2 o2 (by rw [f1, hm])
        (fun op hop => hops op (List.mem_cons_of_mem _ hop)) c3 (by rw [f3 hm, hk]) he2 h
      refine ⟨new ++ tr, o3, by rw [d1, c1, List.append_assoc], ?_, d3⟩
      rw [ownRun_append, c2]
      exact d2

/-- In direct mode the destructor of a bridge with sound bookkeeping completes
and deletes only what the bridge owns, by the delete of its kind. -/
theorem handleInv_dtor (w : World) (s : JavaObject) (owned : Owned)
    (hm : w.useGlobalRefs = true) (hI : HandleInv w s owned) (hk : s.refTableKey_ = 0)
    (he : s.javaObject_ ≠ NULL → w.envAttached = true) :
    ∃ w1 s1 tr owned1, dtor w s = .ok (w1, s1) ∧ w1.calls = w.calls ++ tr ∧
      ownRun owned tr = some owned1 ∧ s1.javaObject_ = NULL ∧
      s1.isWeakRef_ = s.isWeakRef_ := by
  by_cases hj : s.javaObject_ = NULL
  · exact ⟨_, _, [], owned, dtor_empty w s hj (le_of_eq hk), by simp, rfl, hj, rfl⟩
  · have hd := dtor_holding w s (Or.inl hj)
    have henv := he hj
    obtain ⟨hown, _⟩ := hI.2.1 hj
    cases hw : s.isWeakRef_ with
    | false =>
      have hdel : deleteGlobalRef (UPDATE_STATS w (-1) (if s.isDetached then -1 else 0)) s
          = .ok (DeleteGlobalRef (UPDATE_STATS w (-1) (if s.isDetached then -1 else 0))
              s.javaObject_, { s with javaObject_ := NULL }) := by
        simp [deleteGlobalRef, ASSERT, henv, hm, hj, hw, bind, Except.bind, pure,
          Except.pure]
      refine ⟨_, _, [.DeleteGlobalRef s.javaObject_],
        owned.filter (fun p => p != (s.javaObject_, .globalRef)), hd.trans hdel, by simp, ?_, rfl, hw⟩
      have : (s.javaObject_, RefKind.globalRef) ∈ owned := by
        simpa [kindHeld, hw] using hown
      simp [ownRun, ownStep, this]
    | true =>
      have hdel : deleteGlobalRef (UPDATE_STATS w (-1) (if s.isDetached then -1 else 0)) s
          = .ok (DeleteWeakGlobalRef (UPDATE_STATS w (-1) (if s.isDetached then -1 else 0))
              s.javaObject_, { s with javaObject_ := NULL }) := by
        simp [deleteGlobalRef, ASSERT, henv, hm, hj, hw, bind, Except.bind, pure,
          Except.pure]
      refine ⟨_, _, [.DeleteWeakGlobalRef s.javaObject_],
        owned.filter (fun p => p != (s.javaObject_, .weakGlobalRef)), hd.trans hdel, by simp, ?_,
        rfl, hw⟩
      have : (s.javaObject_, RefKind.weakGlobalRef) ∈ owned := by
        simpa [kindHeld, hw] using hown
      simp [ownRun, ownStep, this]

/-- What the bookkeeping says of the flag: `isWeakRef_` is true exactly when
`javaObject_` is a weak global reference. -/
theorem handleInv_flag (w : World) (s : JavaObject) (owned : Owned)
    (hI : HandleInv w s owned) :
    (s.isWeakRef_ = true ↔
      ∃ r, s.javaObject_ ≠ NULL ∧ w.jni.findRef s.javaObject_ = some r ∧
        r.kind = .weakGlobalRef) := by
  obtain ⟨_, hb, hc⟩ := hI
  constructor
  · intro hw
    have hj : s.javaObject_ ≠ NULL := by
      intro hj
      rw [hc hj] at hw
      cases hw
    obtain ⟨_, r, hf, hk, _⟩ := hb hj
    exact ⟨r, hj, hf, by simpa [kindHeld, hw] using hk⟩
  · rintro ⟨r, hj, hf, hk⟩
    obtain ⟨_, r2, hf2, hk2, _⟩ := hb hj
    rw [hf] at hf2
    cases hf2
    rw [hk] at hk2
    cases hw : s.isWeakRef_ with
    | true => rfl
    | false => simp [kindHeld, hw] at hk2

/-! ## Handle kinds in direct mode (C17) -/

/-- C17. Handle kinds are never confused in direct mode.  In every
state reachable from construction by `attach`, `detach`, `getJavaObject`,
`isDetached` and collections by the managed runtime, `isWeakRef_` is true if
and only if `javaObject_` is a live weak global reference.  The JNI calls the
bridge has issued up to that state, replayed in order against the references
it created and has not deleted, pass: every `DeleteGlobalRef` is applied to a
global reference the bridge created and still owns, every `DeleteWeakGlobalRef`
to a weak global reference it created and still owns, so that no reference is
deleted twice; and every reference owned is live with its kind.  The destructor
of such a state completes, and the calls it adds pass the same replay.  It
leaves `javaObject_` `NULL` and `isWeakRef_` as it was. -/
theorem C17_handle_kinds (w0 : World) (addr : Nat) (jo : jobject) (ops : List Op)
    (w : World) (s : JavaObject)
    (hm : w0.useGlobalRefs = true)
    (hops : ∀ op ∈ ops, op ≠ .deleteGlobalRef)
    (hr : runFrom w0 addr jo ops = .ok (w, s)) :
    (s.isWeakRef_ = true ↔
      ∃ r, s.javaObject_ ≠ NULL ∧ w.jni.findRef s.javaObject_ = some r ∧
        r.kind = .weakGlobalRef) ∧
    ∃ tr owned, w.calls = w0.calls ++ tr ∧ ownRun [] tr = some owned ∧
      OwnedLive w.jni.refs owned ∧
      ∃ w1 s1 tr1 owned1, dtor w s = .ok (w1, s1) ∧ w1.calls = w.calls ++ tr1 ∧
        ownRun owned tr1 = some owned1 ∧ s1.javaObject_ = NULL ∧
        s1.isWeakRef_ = s.isWeakRef_ := by
  rw [runFrom_eq_run] at hr
  have hops2 : ∀ op ∈ (if jo = NULL then ops else Op.attach jo :: ops),
      op ≠ .deleteGlobalRef := by
    intro op hop
    split at hop
    · exact hops op hop
    · rcases List.mem_cons.mp hop with h | h
      · rw [h]; intro hh; cases hh
      · exact hops op h
  have hI0 : HandleInv (UPDATE_STATS w0 1 1) ⟨addr, ⟨none, false⟩, NULL, 0, false⟩ [] :=
    ⟨(fun p hp => by cases hp), fun h => absurd rfl h, fun _ => rfl⟩
  obtain ⟨tr, owned, h1, h2, h3, h4, h5, h6⟩ := handleInv_run _ _ _ w s [] (by simpa using hm)
    hops2 hI0 rfl (fun h => absurd rfl h) hr
  refine ⟨handleInv_flag w s owned h3, tr, owned, by simpa using h1, h2, h3.1, ?_⟩
  exact handleInv_dtor w s owned h4 h3 h5 h6

/-- C17 at a concrete run: a direct-mode bridge that is weakened,
fetched, attached again and weakened again, and then destructed. -/
theorem C17_handle_kinds_witness :
    directStart.useGlobalRefs = true ∧
    (∀ op ∈ [Op.detach, .getJavaObject, .attach NULL, .detach], op ≠ .deleteGlobalRef) ∧
    ∃ w s, runFrom directStart 100 1 [.detach, .getJavaObject, .attach NULL, .detach]
        = .ok (w, s) ∧
      (s.isWeakRef_ = true ↔
        ∃ r, s.javaObject_ ≠ NULL ∧ w.jni.findRef s.javaObject_ = some r ∧
          r.kind = .weakGlobalRef) ∧
      ∃ tr owned, w.calls = directStart.calls ++ tr ∧ ownRun [] tr = some owned ∧
        OwnedLive w.jni.refs owned ∧
        ∃ w1 s1 tr1 owned1, dtor w s = .ok (w1, s1) ∧ w1.calls = w.calls ++ tr1 ∧
          ownRun owned tr1 = some owned1 ∧ s1.javaObject_ = NULL ∧
          s1.isWeakRef_ = s.isWeakRef_ :=
  ⟨rfl, by decide, _, _, rfl,
    C17_handle_kinds directStart 100 1 [.detach, .getJavaObject, .attach NULL, .detach] _ _
      rfl (by decide) rfl⟩

/-! ## Correctness of `isDetached` along every run (C3) -/

/-- In direct mode `deleteGlobalRef` preserves consistency: afterwards
`javaObject_` is `NULL`. -/
theorem consistent_deleteGlobalRef_direct (w : World) (s : JavaObject) (w1 : World)
    (s1 : JavaObject) (hm : w.useGlobalRefs = true) (hI : Consistent w s)
    (h : deleteGlobalRef w s = .ok (w1, s1)) : Consistent w1 s1 := by
  obtain ⟨hj, hk, _, _⟩ := released_after_deleteGlobalRef w s w1 s1 hI h
  obtain ⟨f1, _, _, _⟩ := deleteGlobalRef_framed w s w1 s1 h
  simp only [Consistent, f1, hm, if_true]
  exact ⟨hk, fun hne => absurd hj hne⟩

/-- A table-mode bridge that holds nothing still holds nothing after any step
other than `attach`. -/
theorem released_step (w : World) (s : JavaObject) (op : Op) (r : Ret) (w1 : World)
    (s1 : JavaObject) (hm : w.useGlobalRefs = false) (hj : s.javaObject_ = NULL)
    (hk : s.refTableKey_ = 0) (hop : op.isAttach = false)
    (h : step w s op = .ok (r, w1, s1)) :
    w1.useGlobalRefs = false ∧ s1.javaObject_ = NULL ∧ s1.refTableKey_ = 0 := by
  obtain ⟨f1, _, _, _⟩ := step_framed w s op r w1 s1 h
  refine ⟨by rw [f1, hm], ?_⟩
  cases op with
  | attach jo => simp [Op.isAttach] at hop
  | detach =>
    cases ha : detach w s with
    | error a => simp [step, ha, Except.map] at h
    | ok v =>
      obtain ⟨v1, v2⟩ := v
      simp only [step, ha, Except.map, Except.ok.injEq, Prod.mk.injEq] at h
      obtain ⟨_, rfl, rfl⟩ := h
      rcases detach_inv w s _ _ ha with ⟨_, he⟩ | ⟨hd, _⟩
      · simp only [SetWeak, Prod.mk.injEq] at he
        obtain ⟨rfl, rfl⟩ := he
        exact ⟨hj, hk⟩
      · simp [isDetached, hj, hk] at hd
  | getJavaObject =>
    obtain ⟨r2, w2, s2, e, e1, e2, _⟩ := getJavaObject_table_key w s hm
    simp only [step, e, Except.map, Except.ok.injEq, Prod.mk.injEq] at h
    obtain ⟨_, rfl, rfl⟩ := h
    exact ⟨by rw [e2, hj], by rw [e1, hk]⟩
  | deleteGlobalRef =>
    cases ha : deleteGlobalRef w s with
    | error a => simp [step, ha, Except.map] at h
    | ok v =>
      obtain ⟨v1, v2⟩ := v
      simp only [step, ha, Except.map, Except.ok.injEq, Prod.mk.injEq] at h
      obtain ⟨_, rfl, rfl⟩ := h
      obtain ⟨_, ⟨hm2, _⟩ | ⟨_, rfl, rfl⟩⟩ := deleteGlobalRef_ok w s _ _ ha
      · rw [hm] at hm2; cases hm2
      · exact ⟨hj, rfl⟩
  | isDetached =>
    simp only [step, Except.ok.injEq, Prod.mk.injEq] at h
    obtain ⟨_, rfl, rfl⟩ := h
    exact ⟨hj, hk⟩
  | collect o =>
    simp only [step, Except.ok.injEq, Prod.mk.injEq] at h
    obtain ⟨_, rfl, rfl⟩ := h
    exact ⟨hj, hk⟩

/-- A table-mode bridge that holds nothing still holds nothing after a run
without `attach`. -/
theorem released_run (ops : List Op) (w : World) (s : JavaObject) (w1 : World)
    (s1 : JavaObject) (hm : w.useGlobalRefs = false) (hj : s.javaObject_ = NULL)
    (hk : s.refTableKey_ = 0) (hops : ops.any Op.isAttach = false)
    (h : run w s ops = .ok (w1, s1)) :
    w1.useGlobalRefs = false ∧ s1.javaObject_ = NULL ∧ s1.refTableKey_ = 0 := by
  induction ops generalizing w s with
  | nil =>
    simp [run] at h
    obtain ⟨rfl, rfl⟩ := h
    exact ⟨hm, hj, hk⟩
  | cons op ops ih =>
    simp only [List.any_cons, Bool.or_eq_false_iff] at hops
    cases hs : step w s op with
    | error a => simp [run, hs] at h
    | ok v =>
      obtain ⟨r, w2, s2⟩ := v
      simp only [run, hs] at h
      obtain ⟨a1, a2, a3⟩ := released_step w s op r w2 s2 hm hj hk hops.1 hs
      exact ih w2 s2 a1 a2 a3 hops.2 h

/-- Along a run from a consistent bridge, with any steps in direct mode and with
no `attach` after a `deleteGlobalRef` in table mode, the bridge stays
consistent or, in table mode, holds nothing. -/
theorem settled_run (ops : List Op) (w : World) (s : JavaObject) (w1 : World)
    (s1 : JavaObject) (hI : Consistent w s)
    (hops : w.useGlobalRefs = false → attachAfterRelease ops = false)
    (h : run w s ops = .ok (w1, s1)) :
    Consistent w1 s1 ∨
      (w1.useGlobalRefs = false ∧ s1.javaObject_ = NULL ∧ s1.refTableKey_ = 0) := by
  induction ops generalizing w s with
  | nil =>
    simp [run] at h
    obtain ⟨rfl, rfl⟩ := h
    exact Or.inl hI
  | cons op ops ih =>
    cases hs : step w s op with
    | error a => simp [run, hs] at h
    | ok v =>
      obtain ⟨r, w2, s2⟩ := v
      simp only [run, hs] at h
      obtain ⟨f1, _, _, _⟩ := step_framed w s op r w2 s2 hs
      by_cases hop : op = .deleteGlobalRef
      · subst hop
        cases ha : deleteGlobalRef w s with
        | error a => simp [step, ha, Except.map] at hs
        | ok v =>
          obtain ⟨v1, v2⟩ := v
          simp only [step, ha, Except.map, Except.ok.injEq, Prod.mk.injEq] at hs
          obtain ⟨_, rfl, rfl⟩ := hs
          cases hm : w.useGlobalRefs with
          | true =>
            exact ih _ _ (consistent_deleteGlobalRef_direct w s _ _ hm hI ha)
              (fun h2 => by rw [f1, hm] at h2; cases h2) h
          | false =>
            obtain ⟨hj, hk, _, _⟩ := released_after_deleteGlobalRef w s _ _ hI ha
            have := hops hm
            simp only [attachAfterRelease, if_true] at this
            exact Or.inr (released_run ops _ _ w1 s1 (by rw [f1, hm]) hj hk this h)
      · refine ih w2 s2 (consistent_step w s op r w2 s2 hop hI hs) (fun h2 => ?_) h
        have := hops (by rw [← f1]; exact h2)
        simpa [attachAfterRelease, hop] using this

/-- A bridge constructed with no target and then attached to a reference that
designates a live object: the run completes with the environment attached, in
direct mode with a non-null `javaObject_` and key 0, in table mode with
`javaObject_` `NULL`. -/
theorem attach_fresh (w0 : World) (addr : Nat) (T : jobject) (o : Nat)
    (henv : w0.envAttached = true) (hT : w0.jni.deref T = some o) :
    ∃ w s, runFrom w0 addr NULL [.attach T] = .ok (w, s) ∧ w.envAttached = true ∧
      w.useGlobalRefs = w0.useGlobalRefs ∧
      (w0.useGlobalRefs = true → s.javaObject_ ≠ NULL ∧ s.refTableKey_ = 0) ∧
      (w0.useGlobalRefs = false → s.javaObject_ = NULL) := by
  have hnn : T ≠ NULL := by
    intro h; simp [JNIEnv.deref, h] at hT
  rw [runFrom_eq_run]
  simp only [if_true, run, step]
  rw [attach_eq _ _ T (Or.inr rfl)]
  simp only [hnn, if_false]
  rcases newGlobalRef_cases
    (((UPDATE_STATS (UPDATE_STATS w0 1 1) 0 (-1)).record (.SetWeak addr)).record
      .MarkIndependent)
    ⟨addr, ⟨some addr, true⟩, T, 0, false⟩ (by simpa using henv) with
    ⟨_, h, _⟩ | ⟨_, h, _⟩ | ⟨_, r, hr⟩
  · exact absurd h hnn
  · exact absurd rfl h
  · obtain ⟨w, s⟩ := r
    obtain ⟨_, ⟨hm, _, rfl, rfl⟩ | ⟨hm, _, rfl, rfl⟩⟩ := newGlobalRef_ok _ _ w s hr
    · simp only [UPDATE_STATS_useGlobalRefs, record_useGlobalRefs] at hm
      have hd : (((UPDATE_STATS (UPDATE_STATS w0 1 1) 0 (-1)).record
          (.SetWeak addr)).record .MarkIndependent).jni.deref T = some o := by
        simpa using hT
      obtain ⟨n1, _⟩ := NewGlobalRef_some _ T o hd
      refine ⟨_, _, by rw [hr]; rfl, by simpa using henv, by simp [hm], fun _ => ?_,
        fun h => by rw [hm] at h; cases h⟩
      exact ⟨by simp [n1], rfl⟩
    · simp only [UPDATE_STATS_useGlobalRefs, record_useGlobalRefs] at hm
      exact ⟨_, _, by rw [hr]; rfl, by simpa using henv, by simp [hm],
        (fun h => by rw [hm] at h; cases h), fun _ => rfl⟩

end titanium
